import Mathlib

/-!
# QuantLib observer/observable pattern (`ql/patterns/observable.hpp`)

A shallow embedding of the dependency-notification engine.

* Objects are identified by their address, a natural number.  A null
  pointer or empty `shared_ptr` is `none`.
* `std::set<Observer*>`, `std::unordered_set<Observer*>` and
  `boost::unordered_set<shared_ptr<Observable>>` are finite sets of addresses;
  a loop over such a container visits its elements in ascending order.
* `update()` is user code.  It is represented by its outcome (it returns, it
  throws a `std::exception` with a message, or it throws something else); the
  calls made are recorded in a trace.  A callback does not re-enter the engine.

The namespace `QuantLib` holds the default (single-threaded) variant of the
header, `QuantLib.ThreadSafe` the variant compiled under
`QL_ENABLE_THREAD_SAFE_OBSERVER_PATTERN`.
-/

namespace QuantLib

/-- How a call of the user-supplied `update()` ends. -/
inductive Outcome where
  | returned : Outcome
  | stdException (what : String) : Outcome
  | otherException : Outcome
  deriving DecidableEq, Repr

/-- How a library call ends: it returns, or `QL_ENSURE` raises an `Error`
carrying a message. -/
inductive Completion where
  | returned : Completion
  | raised (message : String) : Completion
  deriving DecidableEq, Repr

/-- Whether `update()` threw. -/
def Outcome.failed : Outcome → Bool
  | .returned => false
  | .stdException _ => true
  | .otherException => true

/-- Whether the call raised. -/
def Completion.isRaised : Completion → Bool
  | .returned => false
  | .raised _ => true

/-! ## Single-threaded variant -/

/-- The singleton `ObservableSettings` (observable.hpp:72-97). -/
structure ObservableSettings where
  deferredObservers_ : Finset Nat
  updatesEnabled_ : Bool
  updatesDeferred_ : Bool
  deriving DecidableEq

/-- The heap: for every `Observable` address its `observers_`, for every
`Observer` address its `observables_`, the addresses of the `Observer` objects
currently constructed, and the settings singleton all observables refer to. -/
structure World where
  observers_ : Nat → Finset Nat
  observables_ : Nat → Finset Nat
  live : Finset Nat
  settings_ : ObservableSettings

/-- Member initialisers `updatesEnabled_ = true, updatesDeferred_ = false`
(observable.hpp:96) and an empty `deferredObservers_`. -/
def ObservableSettings.fresh : ObservableSettings :=
  { deferredObservers_ := ∅, updatesEnabled_ := true, updatesDeferred_ := false }

/-- Embeds `ObservableSettings::disableUpdates` (observable.hpp:76-79). -/
def ObservableSettings.disableUpdates (s : ObservableSettings) (deferred : Bool) :
    ObservableSettings :=
  { s with updatesEnabled_ := false, updatesDeferred_ := deferred }

/-- Embeds `ObservableSettings::updatesEnabled` (observable.hpp:82). -/
def ObservableSettings.updatesEnabled (s : ObservableSettings) : Bool :=
  s.updatesEnabled_

/-- Embeds `ObservableSettings::updatesDeferred` (observable.hpp:83). -/
def ObservableSettings.updatesDeferred (s : ObservableSettings) : Bool :=
  s.updatesDeferred_

/-- Embeds `ObservableSettings::registerDeferredObservers` (observable.hpp:156-160):
a range insert into `deferredObservers_`, guarded by `updatesDeferred()`. -/
def ObservableSettings.registerDeferredObservers (s : ObservableSettings)
    (observers : Finset Nat) : ObservableSettings :=
  if s.updatesDeferred then
    { s with deferredObservers_ := s.deferredObservers_ ∪ observers }
  else s

/-- Embeds `ObservableSettings::unregisterDeferredObserver` (observable.hpp:162-164). -/
def ObservableSettings.unregisterDeferredObserver (s : ObservableSettings) (o : Nat) :
    ObservableSettings :=
  { s with deferredObservers_ := s.deferredObservers_.erase o }

/-- A world without any object: no links, nothing pending, updates enabled. -/
def World.empty : World :=
  { observers_ := fun _ => ∅, observables_ := fun _ => ∅, live := ∅,
    settings_ := ObservableSettings.fresh }

/-- Embeds `Observable::registerObserver` (observable.hpp:188-191): `observers_.insert(o)`.
The result pairs the world with the flag of the `std::pair` returned by `insert`,
true when the element was inserted. -/
def Observable.registerObserver (w : World) (self o : Nat) : World × Bool :=
  ({ w with observers_ := Function.update w.observers_ self (insert o (w.observers_ self)) },
   decide (o ∉ w.observers_ self))

/-- Embeds `Observable::unregisterObserver` (observable.hpp:193-198): when updates are
deferred the observer is taken out of the pending set; then
`observers_.erase(o)`, whose count of erased elements is returned. -/
def Observable.unregisterObserver (w : World) (self o : Nat) : World × Nat :=
  let w1 : World :=
    if w.settings_.updatesDeferred then
      { w with settings_ := w.settings_.unregisterDeferredObserver o }
    else w
  ({ w1 with observers_ := Function.update w1.observers_ self ((w1.observers_ self).erase o) },
   if o ∈ w1.observers_ self then 1 else 0)

/-- The loop `for (observable : xs) observable->registerObserver(this)`. -/
def Observer.registerLoop (w : World) (this : Nat) (xs : List Nat) : World :=
  xs.foldl (fun acc observable => (Observable.registerObserver acc observable this).1) w

/-- The loop `for (observable : xs) observable->unregisterObserver(this)`. -/
def Observer.unregisterLoop (w : World) (this : Nat) (xs : List Nat) : World :=
  xs.foldl (fun acc observable => (Observable.unregisterObserver acc observable this).1) w

/-- The order in which a container is traversed: its elements in ascending
order, each once. -/
def elements (s : Finset Nat) : List Nat :=
  (List.range (s.sup id + 1)).filter (fun a => a ∈ s)

/-- Embeds `Observer::Observer()` (observable.hpp:116): a new observer at address
`this` with an empty `observables_`. -/
def Observer.construct (w : World) (this : Nat) : World :=
  { w with observables_ := Function.update w.observables_ this ∅,
           live := insert this w.live }

/-- Embeds `Observer::Observer(const Observer&)` (observable.hpp:201-205). -/
def Observer.copyConstruct (w : World) (this o : Nat) : World :=
  let w1 : World :=
    { w with observables_ := Function.update w.observables_ this (w.observables_ o),
             live := insert this w.live }
  Observer.registerLoop w1 this (elements (w1.observables_ this))

/-- Embeds `Observer::operator=` (observable.hpp:207-214). -/
def Observer.assign (w : World) (this o : Nat) : World :=
  let w1 := Observer.unregisterLoop w this (elements (w.observables_ this))
  let w2 : World :=
    { w1 with observables_ := Function.update w1.observables_ this (w1.observables_ o) }
  Observer.registerLoop w2 this (elements (w2.observables_ this))

/-- Embeds `Observer::~Observer` (observable.hpp:216-219): the body unregisters the
observer from each of its observables; afterwards the member `observables_` is
destroyed and the object is gone. -/
def Observer.destroy (w : World) (this : Nat) : World :=
  let w1 := Observer.unregisterLoop w this (elements (w.observables_ this))
  { w1 with observables_ := Function.update w1.observables_ this ∅,
            live := w1.live.erase this }

/-- Embeds `Observer::registerWith` (observable.hpp:221-228).  The iterator of the
returned pair is represented by the element it points at, `none` for
`observables_.end()`; the flag is the one of `observables_.insert(h)`. -/
def Observer.registerWith (w : World) (this : Nat) (h : Option Nat) :
    World × (Option Nat × Bool) :=
  match h with
  | some p =>
    let w1 := (Observable.registerObserver w p this).1
    ({ w1 with observables_ :=
        Function.update w1.observables_ this (insert p (w1.observables_ this)) },
     (some p, decide (p ∉ w1.observables_ this)))
  | none => (w, (none, false))

/-- The loop `for (observable : xs) registerWith(observable)`. -/
def Observer.registerWithLoop (w : World) (this : Nat) (xs : List Nat) : World :=
  xs.foldl (fun acc observable => (Observer.registerWith acc this (some observable)).1) w

/-- Embeds `Observer::registerWithObservables` (observable.hpp:230-236).  The loop runs
over `o->observables_` as found on entry: when `o` is the observer itself, the
inserts made on the way add no element to the container being traversed. -/
def Observer.registerWithObservables (w : World) (this : Nat) (o : Option Nat) : World :=
  match o with
  | some q => Observer.registerWithLoop w this (elements (w.observables_ q))
  | none => w

/-- Embeds `Observer::unregisterWith` (observable.hpp:238-243).  `observables_` holds
non-null handles only, so `observables_.erase(h)` erases nothing for a null `h`. -/
def Observer.unregisterWith (w : World) (this : Nat) (h : Option Nat) : World × Nat :=
  match h with
  | some p =>
    let w1 := (Observable.unregisterObserver w p this).1
    ({ w1 with observables_ := Function.update w1.observables_ this ((w1.observables_ this).erase p) },
     if p ∈ w1.observables_ this then 1 else 0)
  | none => (w, 0)

/-- Embeds `Observer::unregisterWithAll` (observable.hpp:245-249). -/
def Observer.unregisterWithAll (w : World) (this : Nat) : World :=
  let w1 := Observer.unregisterLoop w this (elements (w.observables_ this))
  { w1 with observables_ := Function.update w1.observables_ this ∅ }

/-- An operation of the engine that edits the link graph or the pending set.
`notifyDisabled s` is the branch of a notification of the source `s` taken while
updates are disabled: `settings_.registerDeferredObservers(observers_)`. -/
inductive Op where
  | construct (l : Nat) : Op
  | copyConstruct (l o : Nat) : Op
  | assign (l o : Nat) : Op
  | destroy (l : Nat) : Op
  | registerWith (l : Nat) (h : Option Nat) : Op
  | registerWithObservables (l : Nat) (o : Option Nat) : Op
  | unregisterWith (l : Nat) (h : Option Nat) : Op
  | unregisterWithAll (l : Nat) : Op
  | disableUpdates (deferred : Bool) : Op
  | notifyDisabled (s : Nat) : Op
  deriving DecidableEq

/-- Whether the operation is a defined call in the world `w`: member functions
are called on constructed observers, an observer is constructed at an address
holding none, and a non-null `shared_ptr<Observer>` refers to a constructed
observer. -/
def Op.admissible (w : World) : Op → Bool
  | .construct l => decide (l ∉ w.live)
  | .copyConstruct l o => decide (l ∉ w.live) && decide (o ∈ w.live)
  | .assign l o => decide (l ∈ w.live) && decide (o ∈ w.live)
  | .destroy l => decide (l ∈ w.live)
  | .registerWith l _ => decide (l ∈ w.live)
  | .registerWithObservables l o =>
    decide (l ∈ w.live) && (match o with
      | some q => decide (q ∈ w.live)
      | none => true)
  | .unregisterWith l _ => decide (l ∈ w.live)
  | .unregisterWithAll l => decide (l ∈ w.live)
  | .disableUpdates _ => true
  | .notifyDisabled _ => true

/-- The world after the operation. -/
def Op.apply (w : World) : Op → World
  | .construct l => Observer.construct w l
  | .copyConstruct l o => Observer.copyConstruct w l o
  | .assign l o => Observer.assign w l o
  | .destroy l => Observer.destroy w l
  | .registerWith l h => (Observer.registerWith w l h).1
  | .registerWithObservables l o => Observer.registerWithObservables w l o
  | .unregisterWith l h => (Observer.unregisterWith w l h).1
  | .unregisterWithAll l => Observer.unregisterWithAll w l
  | .disableUpdates d => { w with settings_ := w.settings_.disableUpdates d }
  | .notifyDisabled s =>
    { w with settings_ := w.settings_.registerDeferredObservers (w.observers_ s) }

/-- The world after a sequence of operations. -/
def runOps (w : World) : List Op → World
  | [] => w
  | op :: rest => runOps (op.apply w) rest

/-- Whether every operation of the sequence is admissible when its turn comes. -/
def admissibleOps (w : World) : List Op → Bool
  | [] => true
  | op :: rest => op.admissible w && admissibleOps (op.apply w) rest

/-- No source has a listener and no listener has a source. -/
def World.NoLinks (w : World) : Prop :=
  (∀ s, w.observers_ s = ∅) ∧ (∀ l, w.observables_ l = ∅)

/-- The symmetry invariant: `l` is in `s.observers_` iff `s` is in
`l.observables_`. -/
def World.Symmetric (w : World) : Prop :=
  ∀ s l, l ∈ w.observers_ s ↔ s ∈ w.observables_ l

/-- Addresses holding no observer have no source set. -/
def World.DeadEmpty (w : World) : Prop :=
  ∀ l, l ∉ w.live → w.observables_ l = ∅

/-! ### Delivery -/

/-- The local variables of a delivery loop (`successful`, `errMsg`) together
with the trace of the `update()` calls made so far, oldest first. -/
structure Delivery where
  successful : Bool
  errMsg : String
  calls : List Nat
  deriving DecidableEq

/-- The locals before the first iteration: `successful = true`, empty `errMsg`. -/
def Delivery.start : Delivery :=
  { successful := true, errMsg := "", calls := [] }

/-- One iteration `try { o->update(); } catch (std::exception& e) { successful =
false; errMsg = e.what(); } catch (...) { successful = false; }`. -/
def Delivery.step (update : Nat → Outcome) (d : Delivery) (o : Nat) : Delivery :=
  let d1 : Delivery := { d with calls := d.calls ++ [o] }
  match update o with
  | .returned => d1
  | .stdException what => { d1 with successful := false, errMsg := what }
  | .otherException => { d1 with successful := false }

/-- Embeds `QL_ENSURE(successful, "could not notify one or more observers: " << errMsg)`. -/
def ensureSuccessful (successful : Bool) (errMsg : String) : Completion :=
  if successful then .returned
  else .raised ("could not notify one or more observers: " ++ errMsg)

/-- Modelled from the spec: the body of the single-threaded
`Observable::notifyObservers` (declared at observable.hpp:61) is not part of the
sources.  Spec 4.2: the current listener set is captured; while updates are
enabled `update()` is invoked on each captured listener, a failing listener not
preventing the delivery to the remaining ones and the failure being propagated
to the caller; while they are disabled the captured set is handed to
`ObservableSettings::registerDeferredObservers`, which queues it when updates
are deferred and drops it when not. -/
def Observable.notifyObservers (w : World) (self : Nat) (update : Nat → Outcome) :
    World × Delivery × Completion :=
  let captured := w.observers_ self
  if w.settings_.updatesEnabled then
    let d := (elements captured).foldl (Delivery.step update) Delivery.start
    (w, d, ensureSuccessful d.successful d.errMsg)
  else
    ({ w with settings_ := w.settings_.registerDeferredObservers captured },
     Delivery.start, .returned)

/-- Modelled from the spec: the body of the single-threaded
`ObservableSettings::enableUpdates` (declared at observable.hpp:80) is not part
of the sources.  Spec 4.3: the state becomes `Enabled`; a non-empty pending set
is drained by calling `update()` once per pending listener, the pending set is
cleared, and if a call failed a single failure is reported after every pending
listener has been attempted. -/
def ObservableSettings.enableUpdates (s : ObservableSettings) (update : Nat → Outcome) :
    ObservableSettings × Delivery × Completion :=
  let s1 : ObservableSettings := { s with updatesEnabled_ := true, updatesDeferred_ := false }
  if s1.deferredObservers_.card ≠ 0 then
    let d := (elements s1.deferredObservers_).foldl (Delivery.step update) Delivery.start
    ({ s1 with deferredObservers_ := ∅ }, d, ensureSuccessful d.successful d.errMsg)
  else (s1, Delivery.start, .returned)

/-! ### Construction and assignment of sources -/

/-- Embeds `Observable::Observable()` (observable.hpp:154): a new source at address
`this`, its `observers_` default-constructed, that is empty. -/
def Observable.construct (w : World) (this : Nat) : World :=
  { w with observers_ := Function.update w.observers_ this ∅ }

/-- Embeds `Observable::Observable(const Observable&)` (observable.hpp:166-170): the
argument is not read; the new source at address `this` starts with an empty
`observers_`. -/
def Observable.copyConstruct (w : World) (this _o : Nat) : World :=
  { w with observers_ := Function.update w.observers_ this ∅ }

/-- Embeds `Observable::operator=` (observable.hpp:180-186; the thread-safe variant,
observable.hpp:495-501, has the same body).  `notifyObservers` is the member
function of the variant at hand acting on its state `W`; the second component
lists the receivers of the `notifyObservers()` calls made, oldest first. -/
def Observable.assign {W : Type} (notifyObservers : W → Nat → W) (w : W) (this o : Nat) :
    W × List Nat :=
  if o ≠ this then (notifyObservers w this, [this]) else (w, [])

/-! ### The settings state machine of the specification -/

/-- The three states of the notification settings. -/
inductive SettingsState where
  | Enabled : SettingsState
  | DisabledDropping : SettingsState
  | DisabledDeferring : SettingsState
  deriving DecidableEq, Repr

/-- The transition `disableUpdates(deferred)` in the words of the specification:
to `DisabledDropping` for `deferred = false`, to `DisabledDeferring` for
`deferred = true`, from every state. -/
def SettingsState.disableUpdates (_ : SettingsState) (deferred : Bool) : SettingsState :=
  if deferred then .DisabledDeferring else .DisabledDropping

/-- The state a pair of answers of `updatesEnabled()` and `updatesDeferred()`
stands for; enabled together with deferred is none of the three states. -/
def SettingsState.ofFlags : Bool → Bool → Option SettingsState
  | true, false => some .Enabled
  | false, false => some .DisabledDropping
  | false, true => some .DisabledDeferring
  | true, true => none

/-- A transition of the notification settings. -/
inductive SettingsOp where
  | disableUpdates (deferred : Bool) : SettingsOp
  | enableUpdates : SettingsOp
  deriving DecidableEq, Repr

/-- The transition `enableUpdates()` in the words of the specification: to
`Enabled`, from every state. -/
def SettingsState.enableUpdates (_ : SettingsState) : SettingsState :=
  .Enabled

/-- The state after one transition, in the words of the specification. -/
def SettingsState.applyOp (q : SettingsState) : SettingsOp → SettingsState
  | .disableUpdates d => q.disableUpdates d
  | .enableUpdates => q.enableUpdates

/-- The settings after one transition of the single-threaded variant. -/
def ObservableSettings.applyOp (update : Nat → Outcome) (s : ObservableSettings) :
    SettingsOp → ObservableSettings
  | .disableUpdates d => s.disableUpdates d
  | .enableUpdates => (s.enableUpdates update).1

/-- The settings after a sequence of transitions of the single-threaded variant. -/
def ObservableSettings.run (update : Nat → Outcome) (s : ObservableSettings)
    (ops : List SettingsOp) : ObservableSettings :=
  ops.foldl (ObservableSettings.applyOp update) s

/-! ## Thread-safe variant -/

namespace ThreadSafe

/-- What `observer_->weak_from_this()` refers to: nothing (the observer was never
owned by a `shared_ptr`), an observer whose owners are gone, or an observer
still owned. -/
inductive WeakRef where
  | empty : WeakRef
  | expired : WeakRef
  | owned : WeakRef
  deriving DecidableEq, Repr

/-- The guard `Observer::Proxy` (observable.hpp:318-355). -/
structure Proxy where
  active_ : Bool
  observer_ : Nat
  deriving DecidableEq, Repr

/-- Embeds `Proxy::Proxy(Observer* const observer)` (observable.hpp:320-323). -/
def Proxy.create (observer : Nat) : Proxy :=
  { active_ := true, observer_ := observer }

/-- Embeds `Proxy::deactivate` (observable.hpp:346-349). -/
def Proxy.deactivate (p : Proxy) : Proxy :=
  { p with active_ := false }

/-- Embeds `Proxy::update` (observable.hpp:325-344): the listeners whose `update()` is
invoked, and how the call ends. -/
def Proxy.update (p : Proxy) (weakFromThis : Nat → WeakRef) (update : Nat → Outcome) :
    List Nat × Outcome :=
  if p.active_ then
    match weakFromThis p.observer_ with
    | .owned => ([p.observer_], update p.observer_)
    | .expired => ([], .returned)
    | .empty => ([p.observer_], update p.observer_)
  else ([], .returned)

/-- Embeds `enum UpdateType` (observable.hpp:437). -/
def UpdatesEnabled : Nat := 1

/-- Embeds `enum UpdateType` (observable.hpp:437). -/
def UpdatesDeferred : Nat := 2

/-- The singleton `ObservableSettings` (observable.hpp:409-439).  A
`weak_ptr<Observer::Proxy>` of the pending set is identified by the guard it
was taken from (`owner_less`). -/
structure ObservableSettings where
  deferredObservers_ : Finset Nat
  updatesType_ : Nat
  deriving DecidableEq

/-- The constructor `updatesType_(UpdatesEnabled)` (observable.hpp:423). -/
def ObservableSettings.fresh : ObservableSettings :=
  { deferredObservers_ := ∅, updatesType_ := UpdatesEnabled }

/-- Embeds `ObservableSettings::disableUpdates` (observable.hpp:414-417). -/
def ObservableSettings.disableUpdates (s : ObservableSettings) (deferred : Bool) :
    ObservableSettings :=
  { s with updatesType_ := if deferred then UpdatesDeferred else 0 }

/-- Embeds `ObservableSettings::updatesEnabled` (observable.hpp:420). -/
def ObservableSettings.updatesEnabled (s : ObservableSettings) : Bool :=
  decide ((s.updatesType_ &&& UpdatesEnabled) ≠ 0)

/-- Embeds `ObservableSettings::updatesDeferred` (observable.hpp:421). -/
def ObservableSettings.updatesDeferred (s : ObservableSettings) : Bool :=
  decide ((s.updatesType_ &&& UpdatesDeferred) ≠ 0)

/-- Embeds `ObservableSettings::registerDeferredObservers` (observable.hpp:445-447). -/
def ObservableSettings.registerDeferredObservers (s : ObservableSettings)
    (observers : Finset Nat) : ObservableSettings :=
  { s with deferredObservers_ := s.deferredObservers_ ∪ observers }

/-- Embeds `ObservableSettings::unregisterDeferredObserver` (observable.hpp:450-453). -/
def ObservableSettings.unregisterDeferredObserver (s : ObservableSettings) (o : Nat) :
    ObservableSettings :=
  { s with deferredObservers_ := s.deferredObservers_.erase o }

/-- The locals of the drain loop of `enableUpdates` with two traces: the guards
on which `Proxy::update()` was invoked and the listeners whose `update()` was
invoked, oldest first. -/
structure Drain where
  successful : Bool
  errMsg : String
  proxyCalls : List Nat
  updateCalls : List Nat
  deriving DecidableEq

/-- The locals before the first iteration (observable.hpp:462-463). -/
def Drain.start : Drain :=
  { successful := true, errMsg := "", proxyCalls := [], updateCalls := [] }

/-- One iteration of the drain loop (observable.hpp:467-476).  `lock i` is the
result of `i->lock()`: the guard when it is still owned, `none` otherwise. -/
def Drain.step (lock : Nat → Option Proxy) (weakFromThis : Nat → WeakRef)
    (update : Nat → Outcome) (d : Drain) (i : Nat) : Drain :=
  match lock i with
  | none => d
  | some proxy =>
    let r := proxy.update weakFromThis update
    let d1 : Drain :=
      { d with proxyCalls := d.proxyCalls ++ [i], updateCalls := d.updateCalls ++ r.1 }
    match r.2 with
    | .returned => d1
    | .stdException what => { d1 with successful := false, errMsg := what }
    | .otherException => { d1 with successful := false }

/-- Embeds `ObservableSettings::enableUpdates` (observable.hpp:455-484). -/
def ObservableSettings.enableUpdates (s : ObservableSettings) (lock : Nat → Option Proxy)
    (weakFromThis : Nat → WeakRef) (update : Nat → Outcome) :
    ObservableSettings × Drain × Completion :=
  let s1 : ObservableSettings := { s with updatesType_ := UpdatesEnabled }
  if s1.deferredObservers_.card ≠ 0 then
    let d := (elements s1.deferredObservers_).foldl (Drain.step lock weakFromThis update)
      Drain.start
    ({ s1 with deferredObservers_ := ∅ }, d, ensureSuccessful d.successful d.errMsg)
  else (s1, Drain.start, .returned)

/-! ### Sequences of guard operations and of settings operations -/

/-- The member functions of `Observer::Proxy` (observable.hpp:325-349). -/
inductive ProxyOp where
  | update : ProxyOp
  | deactivate : ProxyOp
  deriving DecidableEq, Repr

/-- The guard after one member call; `update()` is `const`. -/
def Proxy.apply (p : Proxy) : ProxyOp → Proxy
  | .update => p
  | .deactivate => p.deactivate

/-- The guard after a sequence of member calls. -/
def Proxy.run (p : Proxy) (ops : List ProxyOp) : Proxy :=
  ops.foldl Proxy.apply p

/-- The settings after one transition of the thread-safe variant. -/
def ObservableSettings.applyOp (lock : Nat → Option Proxy) (weakFromThis : Nat → WeakRef)
    (update : Nat → Outcome) (s : ObservableSettings) : SettingsOp → ObservableSettings
  | .disableUpdates d => s.disableUpdates d
  | .enableUpdates => (s.enableUpdates lock weakFromThis update).1

/-- The settings after a sequence of transitions of the thread-safe variant. -/
def ObservableSettings.run (lock : Nat → Option Proxy) (weakFromThis : Nat → WeakRef)
    (update : Nat → Outcome) (s : ObservableSettings) (ops : List SettingsOp) :
    ObservableSettings :=
  ops.foldl (ObservableSettings.applyOp lock weakFromThis update) s

/-! ### Observers of the thread-safe variant -/

/-- A call made by a member function of `Observer` on its guard or on a source.
`Observable::registerObserver` and `Observable::unregisterObserver` are declared
at observable.hpp:393-395; what they do to the source is not part of this
development, the calls are logged with their arguments. -/
inductive Call where
  | deactivate (proxy : Nat) : Call
  | registerObserver (observable : Nat) (proxy : Option Nat) : Call
  | unregisterObserver (observable : Nat) (proxy : Option Nat) (disconnect : Bool) : Call
  deriving DecidableEq, Repr

/-- The observer side of the heap: for every `Observer` address its `proxy_`
(`none` for a null pointer, otherwise the identity of the guard) and its
`observables_`; the guards allocated so far, identified by their allocation
number; and the log of the calls made. -/
structure World where
  proxy_ : Nat → Option Nat
  observables_ : Nat → Finset Nat
  proxies : Nat → Option Proxy
  allocated : Nat
  log : List Call

/-- A heap without guards, links or calls. -/
def World.empty : World :=
  { proxy_ := fun _ => none, observables_ := fun _ => ∅, proxies := fun _ => none,
    allocated := 0, log := [] }

/-- The statement `proxy_.reset(new Proxy(this))`. -/
def World.resetProxy (w : World) (this : Nat) : World :=
  { w with proxy_ := Function.update w.proxy_ this (some w.allocated),
           proxies := Function.update w.proxies w.allocated (some (Proxy.create this)),
           allocated := w.allocated + 1 }

/-- The statement `if (!proxy_) proxy_.reset(new Proxy(this))`. -/
def World.ensureProxy (w : World) (this : Nat) : World :=
  match w.proxy_ this with
  | none => w.resetProxy this
  | some _ => w

/-- Appends a call to the log. -/
def World.call (w : World) (c : Call) : World :=
  { w with log := w.log ++ [c] }

/-- The loop `for (observable : xs) observable->registerObserver(proxy_)`. -/
def Observer.registerLoop (w : World) (this : Nat) (xs : List Nat) : World :=
  xs.foldl (fun acc observable => acc.call (.registerObserver observable (acc.proxy_ this))) w

/-- The loop `for (observable : xs) observable->unregisterObserver(proxy_, disconnect)`. -/
def Observer.unregisterLoop (w : World) (this : Nat) (disconnect : Bool) (xs : List Nat) :
    World :=
  xs.foldl (fun acc observable =>
    acc.call (.unregisterObserver observable (acc.proxy_ this) disconnect)) w

/-- Embeds `Observer::Observer()` (observable.hpp:289): a null `proxy_` and an empty
`observables_`. -/
def Observer.construct (w : World) (this : Nat) : World :=
  { w with proxy_ := Function.update w.proxy_ this none,
           observables_ := Function.update w.observables_ this ∅ }

/-- Embeds `Observer::Observer(const Observer&)` (observable.hpp:503-513). -/
def Observer.copyConstruct (w : World) (this o : Nat) : World :=
  let w1 := w.resetProxy this
  let w2 : World :=
    { w1 with observables_ := Function.update w1.observables_ this (w1.observables_ o) }
  Observer.registerLoop w2 this (elements (w2.observables_ this))

/-- Embeds `Observer::operator=` (observable.hpp:515-532). -/
def Observer.assign (w : World) (this o : Nat) : World :=
  let w1 := w.ensureProxy this
  let w2 := Observer.unregisterLoop w1 this true (elements (w1.observables_ this))
  let w3 : World :=
    { w2 with observables_ := Function.update w2.observables_ this (w2.observables_ o) }
  Observer.registerLoop w3 this (elements (w3.observables_ this))

/-- The first statement of the destructor, `if (proxy_) proxy_->deactivate()`
(observable.hpp:536-537). -/
def Observer.destroyDeactivate (w : World) (this : Nat) : World :=
  match w.proxy_ this with
  | some g =>
    { w with proxies := Function.update w.proxies g ((w.proxies g).map Proxy.deactivate),
             log := w.log ++ [.deactivate g] }
  | none => w

/-- Embeds `Observer::~Observer` (observable.hpp:534-541). -/
def Observer.destroy (w : World) (this : Nat) : World :=
  let w1 := Observer.destroyDeactivate w this
  Observer.unregisterLoop w1 this false (elements (w1.observables_ this))

/-- Embeds `Observer::registerWith` (observable.hpp:543-555); the returned pair as in
the single-threaded variant. -/
def Observer.registerWith (w : World) (this : Nat) (h : Option Nat) :
    World × (Option Nat × Bool) :=
  let w1 := w.ensureProxy this
  match h with
  | some p =>
    let w2 := w1.call (.registerObserver p (w1.proxy_ this))
    ({ w2 with observables_ :=
        Function.update w2.observables_ this (insert p (w2.observables_ this)) },
     (some p, decide (p ∉ w2.observables_ this)))
  | none => (w1, (none, false))

/-- The loop `for (observable : xs) registerWith(observable)`. -/
def Observer.registerWithLoop (w : World) (this : Nat) (xs : List Nat) : World :=
  xs.foldl (fun acc observable => (Observer.registerWith acc this (some observable)).1) w

/-- Embeds `Observer::registerWithObservables` (observable.hpp:557-565). -/
def Observer.registerWithObservables (w : World) (this : Nat) (o : Option Nat) : World :=
  match o with
  | some q => Observer.registerWithLoop w this (elements (w.observables_ q))
  | none => w

/-- Embeds `Observer::unregisterWith` (observable.hpp:567-576). -/
def Observer.unregisterWith (w : World) (this : Nat) (h : Option Nat) : World × Nat :=
  match h with
  | some p =>
    let w1 : World :=
      match w.proxy_ this with
      | some g => w.call (.unregisterObserver p (some g) true)
      | none => w
    ({ w1 with observables_ :=
        Function.update w1.observables_ this ((w1.observables_ this).erase p) },
     if p ∈ w1.observables_ this then 1 else 0)
  | none => (w, 0)

/-- Embeds `Observer::unregisterWithAll` (observable.hpp:578-585). -/
def Observer.unregisterWithAll (w : World) (this : Nat) : World :=
  let w1 := Observer.unregisterLoop w this true (elements (w.observables_ this))
  { w1 with observables_ := Function.update w1.observables_ this ∅ }

/-- A member call on an existing observer that edits its links. -/
inductive ObserverOp where
  | registerWith (h : Option Nat) : ObserverOp
  | unregisterWith (h : Option Nat) : ObserverOp
  | unregisterWithAll : ObserverOp
  | registerWithObservables (o : Option Nat) : ObserverOp
  | assign (o : Nat) : ObserverOp
  deriving DecidableEq, Repr

/-- The heap after the member call `op` on the observer `this`. -/
def ObserverOp.apply (w : World) (this : Nat) : ObserverOp → World
  | .registerWith h => (Observer.registerWith w this h).1
  | .unregisterWith h => (Observer.unregisterWith w this h).1
  | .unregisterWithAll => Observer.unregisterWithAll w this
  | .registerWithObservables o => Observer.registerWithObservables w this o
  | .assign o => Observer.assign w this o

/-- The heap after a sequence of member calls on the observer `this`. -/
def runObserverOps (w : World) (this : Nat) (ops : List ObserverOp) : World :=
  ops.foldl (fun acc op => op.apply acc this) w

/-- The guards passed to `Observable::registerObserver` in a log, oldest first. -/
def registeredProxies : List Call → List (Option Nat)
  | [] => []
  | .registerObserver _ proxy :: rest => proxy :: registeredProxies rest
  | .deactivate _ :: rest => registeredProxies rest
  | .unregisterObserver _ _ _ :: rest => registeredProxies rest

end ThreadSafe

/-! ## Monte Carlo path pricers and engines

`Real` is represented by `ℚ`: the properties proved here are about which formula
and which vector element a function selects, not about rounding.  The values
`Null<Size>()` and `Null<Real>()`, the `TimeGrid` constructor, the payoff and
the floating-point barrier tests are not among the sources; they are parameters
of the definitions that use them. -/

/-- How a call ends: it returns a value, it fails in `QL_REQUIRE` or `QL_FAIL`
with a message, or its behaviour is undefined (a vector is read out of range,
or the end of a function returning a value is reached without a `return`). -/
inductive Flow (α : Type) where
  | returned (value : α) : Flow α
  | failed (message : String) : Flow α
  | undefined : Flow α
  deriving DecidableEq, Repr

/-- Sequencing: the continuation runs on a returned value. -/
def Flow.bind {α β : Type} (x : Flow α) (f : α → Flow β) : Flow β :=
  match x with
  | .returned a => f a
  | .failed m => .failed m
  | .undefined => .undefined

/-- The element access `v[i]` of a `std::vector`, undefined out of range. -/
def elementAt (v : List ℚ) (i : Nat) : Flow ℚ :=
  match v[i]? with
  | some x => .returned x
  | none => .undefined

/-- The access `v.back()`, undefined on an empty vector. -/
def lastOf (v : List ℚ) : Flow ℚ :=
  match v.getLast? with
  | some x => .returned x
  | none => .undefined

/-- A `Path`: its time grid and its values; `Path::length()` is their common
size. -/
structure Path where
  timeGrid : List ℚ
  values : List ℚ
  deriving DecidableEq, Repr

/-- Embeds `Path::length`. -/
def Path.length (path : Path) : Nat :=
  path.values.length

/-- The members of `ContinuousSnowballPathPricer` that `operator()` reads
(mcsnowballengine.hpp:104-110). -/
structure ContinuousSnowballPathPricer where
  knockOutLevel_ : ℚ
  knockInLevel_ : ℚ
  couponRate_ : ℚ
  principal_ : ℚ
  strike_ : ℚ
  payAtMaturity_ : Bool
  discounts_ : List ℚ
  deriving DecidableEq, Repr

/-- How the loop of `ContinuousSnowballPathPricer::operator()` is left: by one of
its `return` statements, or at its end with the values of `isKnockedIn` and
`new_asset_price`. -/
inductive SnowballLoopExit where
  | returns (value : ℚ) : SnowballLoopExit
  | completes (isKnockedIn : Bool) (new_asset_price : ℚ) : SnowballLoopExit
  deriving DecidableEq, Repr

/-- The loop of `ContinuousSnowballPathPricer::operator()` (mcsnowballengine.cpp:32-45)
over the indices still to visit. -/
def ContinuousSnowballPathPricer.loop (c : ContinuousSnowballPathPricer) (path : Path) :
    List Nat → Bool → ℚ → Flow SnowballLoopExit
  | [], isKnockedIn, new_asset_price => .returned (.completes isKnockedIn new_asset_price)
  | i :: rest, isKnockedIn, _ =>
    (elementAt path.values i).bind fun new_asset_price =>
      if new_asset_price ≥ c.knockOutLevel_ then
        if c.payAtMaturity_ then
          (elementAt path.timeGrid i).bind fun ti =>
            (lastOf c.discounts_).bind fun d =>
              .returned (.returns (c.principal_ * (1 + c.couponRate_ * ti) * d))
        else
          (elementAt path.timeGrid i).bind fun ti =>
            (elementAt c.discounts_ i).bind fun d =>
              .returned (.returns (c.principal_ * (1 + c.couponRate_ * ti) * d))
      else
        c.loop path rest
          (if isKnockedIn = false ∧ new_asset_price ≤ c.knockInLevel_ then true
            else isKnockedIn)
          new_asset_price

/-- Embeds `ContinuousSnowballPathPricer::operator()` (mcsnowballengine.cpp:20-57).
`new_asset_price` is declared without a value; the loop assigns it before it is
read, the 0 it starts with here is never used. -/
def ContinuousSnowballPathPricer.operatorCall (c : ContinuousSnowballPathPricer)
    (path : Path) : Flow ℚ :=
  let n := path.length
  if ¬ (n > 1) then .failed "the path cannot be empty"
  else
    (c.loop path (List.range n) false 0).bind fun exit =>
      match exit with
      | .returns value => .returned value
      | .completes isKnockedIn new_asset_price =>
        if isKnockedIn = false then
          (lastOf path.timeGrid).bind fun tb =>
            (lastOf c.discounts_).bind fun d =>
              .returned (c.principal_ * (1 + c.couponRate_ * tb) * d)
        else if new_asset_price > c.strike_ then
          (lastOf c.discounts_).bind fun d => .returned (c.principal_ * d)
        else
          (lastOf c.discounts_).bind fun d =>
            .returned (c.principal_ * new_asset_price / c.strike_ * d)

/-- The reference definition of the price of a path, in the words of its
description: with `k` the least index at which the path is at or above the
knock-out level, the coupon accrued to `t[k]` discounted with `D[n-1]` or
`D[k]`; without such an index, the coupon accrued to `t[n-1]` when no value is
at or below the knock-in level, and otherwise the principal, scaled by
`path[n-1]/strike` unless `path[n-1]` exceeds the strike; all discounted with
`D[n-1]`. -/
def ContinuousSnowballPathPricer.reference (c : ContinuousSnowballPathPricer)
    (path : Path) : ℚ :=
  let n := path.length
  let p := fun i => path.values.getD i 0
  let t := fun i => path.timeGrid.getD i 0
  let D := fun i => c.discounts_.getD i 0
  match (List.range n).find? (fun k => decide (p k ≥ c.knockOutLevel_)) with
  | some k =>
    c.principal_ * (1 + c.couponRate_ * t k) * (if c.payAtMaturity_ then D (n - 1) else D k)
  | none =>
    if (List.range n).all (fun i => decide (¬ p i ≤ c.knockInLevel_)) then
      c.principal_ * (1 + c.couponRate_ * t (n - 1)) * D (n - 1)
    else if p (n - 1) > c.strike_ then c.principal_ * D (n - 1)
    else c.principal_ * p (n - 1) / c.strike_ * D (n - 1)

/-! ## Scenarios -/

/-- A listener is constructed and linked to the source 7, a notification of 7 is
deferred, deferral is switched off with `disableUpdates(false)`, and the
listener is destroyed. -/
def danglingScenario : List Op :=
  [.construct 1, .registerWith 1 (some 7), .disableUpdates true, .notifyDisabled 7,
   .disableUpdates false, .destroy 1]

/-- The listener 1 linked to the source 7, nothing else. -/
def oneLink : World :=
  runOps World.empty [.construct 1, .registerWith 1 (some 7)]

/-- The listeners 1, 2 and 3 linked to the source 7. -/
def fanOut : World :=
  runOps World.empty [.construct 1, .construct 2, .construct 3, .registerWith 1 (some 7),
    .registerWith 2 (some 7), .registerWith 3 (some 7)]

/-- Two sources, three listeners, and every kind of link edit once. -/
def symmetryScenario : List Op :=
  [.construct 1, .registerWith 1 (some 7), .registerWith 1 (some 8), .copyConstruct 2 1,
   .unregisterWith 1 (some 7), .construct 3, .registerWithObservables 3 (some 2),
   .assign 2 1, .destroy 3, .unregisterWithAll 1]

/-- The listener 1 is linked to the source 7 and pending after a deferred
notification of 7; the source 8 has no listener. -/
def pendingWorld : World :=
  runOps World.empty [.construct 1, .registerWith 1 (some 7), .disableUpdates true,
    .notifyDisabled 7]

/-- The listener 1 linked to the sources 7 and 8, the listener 2 linked to the
sources 8 and 9. -/
def twoListeners : World :=
  runOps World.empty [.construct 1, .construct 2, .registerWith 1 (some 7),
    .registerWith 1 (some 8), .registerWith 2 (some 8), .registerWith 2 (some 9)]

/-- The listener 1 fails with the text A, every other listener with the text B. -/
def twoFailures : Nat → Outcome :=
  fun l => if l = 1 then .stdException "A" else .stdException "B"

/-- The text `e.what()` of a `std::exception`, when the call ended with one. -/
def Outcome.what? : Outcome → Option String
  | .stdException what => some what
  | .returned => none
  | .otherException => none

/-- The text of the last `std::exception` in a sequence of outcomes, empty when
there is none. -/
def lastWhat (outcomes : List Outcome) : String :=
  ((outcomes.filterMap Outcome.what?).getLast?).getD ""

/-- The outcomes of the `Proxy::update()` calls of a drain of the pending
entries `xs`, in the order of the calls. -/
def ThreadSafe.drainOutcomes (lock : Nat → Option ThreadSafe.Proxy)
    (weakFromThis : Nat → ThreadSafe.WeakRef) (update : Nat → Outcome) (xs : List Nat) :
    List Outcome :=
  xs.filterMap (fun i => (lock i).map (fun p => (p.update weakFromThis update).2))

/-- The `registerObserver` calls of a log, oldest first: the source called and
the guard passed to it. -/
def ThreadSafe.registrations : List ThreadSafe.Call → List (Nat × Option Nat)
  | [] => []
  | .registerObserver observable proxy :: rest =>
    (observable, proxy) :: ThreadSafe.registrations rest
  | .deactivate _ :: rest => ThreadSafe.registrations rest
  | .unregisterObserver _ _ _ :: rest => ThreadSafe.registrations rest

/-- The sources a member call registers the observer with, in the order of the
call: the non-null argument of `registerWith`, and the sources held by the
non-null argument of `registerWithObservables` or by the argument of
`operator=`. -/
def ThreadSafe.ObserverOp.registers (w : ThreadSafe.World) :
    ThreadSafe.ObserverOp → List Nat
  | .registerWith h => h.toList
  | .unregisterWith _ => []
  | .unregisterWithAll => []
  | .registerWithObservables o =>
    match o with
    | some q => elements (w.observables_ q)
    | none => []
  | .assign o => elements (w.observables_ o)

/-- The sources a sequence of member calls on the observer `this` registers it
with, each call read in the heap the previous calls left. -/
def ThreadSafe.runRegisters (w : ThreadSafe.World) (this : Nat) :
    List ThreadSafe.ObserverOp → List Nat
  | [] => []
  | op :: rest => op.registers w ++ ThreadSafe.runRegisters (op.apply w this) this rest

/-- The heap `v` comes after the heap `w` in the life of the observer `l`, which
has meanwhile registered with the sources `srcs`: the log of `v` extends the log
of `w`, the `registerObserver` calls added are one call on each source of
`srcs`, in order, each passing the guard `l.proxy_` refers to in `v`; that
guard exists when `srcs` is not empty; and a guard `l.proxy_` refers to in `w`
is still the one it refers to in `v`. -/
def ThreadSafe.World.Registers (l : Nat) (srcs : List Nat) (w v : ThreadSafe.World) : Prop :=
  ∃ added, v.log = w.log ++ added ∧
    ThreadSafe.registrations added = srcs.map (fun s => (s, v.proxy_ l)) ∧
    (srcs ≠ [] → ∃ g, v.proxy_ l = some g) ∧
    (∀ g, w.proxy_ l = some g → v.proxy_ l = some g)

/-- Every source in the source set of the observer `l` has been handed the guard
`l.proxy_` refers to: the log holds a `registerObserver` call on it passing
that guard. -/
def ThreadSafe.World.GuardHanded (l : Nat) (w : ThreadSafe.World) : Prop :=
  ∀ s ∈ w.observables_ l,
    (∃ g, w.proxy_ l = some g) ∧ (s, w.proxy_ l) ∈ ThreadSafe.registrations w.log

/-- The listener 1 of the thread-safe variant, default-constructed and then
registered with the sources 7 and 8. -/
def ThreadSafe.linkedTwice : ThreadSafe.World :=
  ThreadSafe.runObserverOps (ThreadSafe.Observer.construct ThreadSafe.World.empty 1) 1
    [.registerWith (some 7), .registerWith (some 8)]

/-- The barrier types `Barrier::DownIn`, `Barrier::UpIn`, `Barrier::DownOut` and
`Barrier::UpOut` named in `ParticipationBarrierPathPricer::operator()`. -/
inductive BarrierType where
  | DownIn : BarrierType
  | UpIn : BarrierType
  | DownOut : BarrierType
  | UpOut : BarrierType
  deriving DecidableEq, Repr

/-- The members of `ParticipationBarrierPathPricer` that the selection of the
price reads (mcparticipationbarrierengine.cpp:15-17). -/
structure ParticipationBarrierPathPricer where
  barrierType_ : BarrierType
  rebate_ : ℚ
  participation_ : ℚ
  discounts_ : List ℚ
  deriving DecidableEq, Repr

/-- The local variables of `ParticipationBarrierPathPricer::operator()` that live
across the iterations of its loops. -/
structure BarrierLoop where
  isOptionActive : Bool
  knockNode : Nat
  asset_price : ℚ
  deriving DecidableEq, Repr

/-- One of the four loops of `ParticipationBarrierPathPricer::operator()`
(mcparticipationbarrierengine.cpp:44-59, 63-78, 82-97, 101-116) over the steps
still to make.  `crossed i asset_price new_asset_price` is the outcome of the
test of the step `i` (`y <= barrier_` in the down loops, `y >= barrier_` in the
up loops), a floating-point computation from the two prices, the time grid,
the diffusion and `u[i]`; `whenCrossed` is the value the loop then gives
`isOptionActive`; `null` is `Null<Size>()`. -/
def ParticipationBarrierPathPricer.loop (null : Nat) (crossed : Nat → ℚ → ℚ → Bool)
    (whenCrossed : Bool) (path : Path) : List Nat → BarrierLoop → Flow BarrierLoop
  | [], st => .returned st
  | i :: rest, st =>
    (elementAt path.values (i + 1)).bind fun new_asset_price =>
      let st1 : BarrierLoop :=
        if crossed i st.asset_price new_asset_price then
          { st with isOptionActive := whenCrossed,
                    knockNode := if st.knockNode = null then i + 1 else st.knockNode }
        else st
      ParticipationBarrierPathPricer.loop null crossed whenCrossed path rest
        { st1 with asset_price := new_asset_price }

/-- The `switch` over the barrier type (mcparticipationbarrierengine.cpp:41-120):
the state in which the loop of the type at hand ends. -/
def ParticipationBarrierPathPricer.simulate (c : ParticipationBarrierPathPricer) (null : Nat)
    (crossedDown crossedUp : Nat → ℚ → ℚ → Bool) (path : Path) : Flow BarrierLoop :=
  (elementAt path.values 0).bind fun front =>
    let steps := List.range (path.length - 1)
    match c.barrierType_ with
    | .DownIn =>
      ParticipationBarrierPathPricer.loop null crossedDown true path steps
        { isOptionActive := false, knockNode := null, asset_price := front }
    | .UpIn =>
      ParticipationBarrierPathPricer.loop null crossedUp true path steps
        { isOptionActive := false, knockNode := null, asset_price := front }
    | .DownOut =>
      ParticipationBarrierPathPricer.loop null crossedDown false path steps
        { isOptionActive := true, knockNode := null, asset_price := front }
    | .UpOut =>
      ParticipationBarrierPathPricer.loop null crossedUp false path steps
        { isOptionActive := true, knockNode := null, asset_price := front }

/-- Embeds `ParticipationBarrierPathPricer::operator()`
(mcparticipationbarrierengine.cpp:25-137); `payoff` is `payoff_`. -/
def ParticipationBarrierPathPricer.operatorCall (c : ParticipationBarrierPathPricer)
    (null : Nat) (crossedDown crossedUp : Nat → ℚ → ℚ → Bool) (payoff : ℚ → ℚ)
    (path : Path) : Flow ℚ :=
  if ¬ (path.length > 1) then .failed "the path cannot be empty"
  else
    (c.simulate null crossedDown crossedUp path).bind fun st =>
      if st.isOptionActive then
        (lastOf c.discounts_).bind fun d =>
          .returned (payoff st.asset_price * c.participation_ * d)
      else
        match c.barrierType_ with
        | .UpIn => (lastOf c.discounts_).bind fun d => .returned (c.rebate_ * c.participation_ * d)
        | .DownIn =>
          (lastOf c.discounts_).bind fun d => .returned (c.rebate_ * c.participation_ * d)
        | .UpOut =>
          (elementAt c.discounts_ st.knockNode).bind fun d =>
            .returned (c.rebate_ * c.participation_ * d)
        | .DownOut =>
          (elementAt c.discounts_ st.knockNode).bind fun d =>
            .returned (c.rebate_ * c.participation_ * d)

/-- The test of the step `i` of a loop, made on the path values `path[i]` and
`path[i + 1]`. -/
def crossedAt (crossed : Nat → ℚ → ℚ → Bool) (path : Path) (i : Nat) : Bool :=
  crossed i (path.values.getD i 0) (path.values.getD (i + 1) 0)

/-- The step `i` is the first one at which the test succeeds. -/
def FirstCrossing (crossed : Nat → ℚ → ℚ → Bool) (path : Path) (i : Nat) : Prop :=
  crossedAt crossed path i = true ∧ ∀ j, j < i → crossedAt crossed path j = false

/-- What holds of the loop state of a knock-out loop before the step `k` of a
path of length `n`: `asset_price` is `path[k]`, and either no test has
succeeded, the option is active and `knockNode` is the sentinel, or a test
has, the option is inactive and `knockNode` is one of the nodes `1..k`, the
node after the first crossing when the sentinel exceeds every node. -/
def KnockOutInvariant (null : Nat) (crossed : Nat → ℚ → ℚ → Bool) (path : Path) (n k : Nat)
    (st : BarrierLoop) : Prop :=
  st.asset_price = path.values.getD k 0 ∧
    ((st.isOptionActive = true ∧ st.knockNode = null ∧
        ∀ j, j < k → crossedAt crossed path j = false) ∨
      (st.isOptionActive = false ∧ 1 ≤ st.knockNode ∧ st.knockNode ≤ k ∧
        ∃ i, i < k ∧ FirstCrossing crossed path i ∧ (n ≤ null → st.knockNode = i + 1)))

/-- The data members of `MCContinuousSnowballEngine` (mcsnowballengine.hpp:53-59)
other than the process, and the flag handed to the base class. -/
structure MCContinuousSnowballEngine where
  timeSteps_ : Nat
  timeStepsPerYear_ : Nat
  requiredSamples_ : Nat
  maxSamples_ : Nat
  requiredTolerance_ : ℚ
  isBiased_ : Bool
  brownianBridge_ : Bool
  antitheticVariate_ : Bool
  seed_ : Nat
  deriving DecidableEq, Repr

/-- Embeds the constructor of `MCContinuousSnowballEngine`
(mcsnowballengine.hpp:116-144); `null` is `Null<Size>()`.  The closing
`registerWith(process_)` links the engine to its process and cannot fail. -/
def MCContinuousSnowballEngine.create (null : Nat) (timeSteps timeStepsPerYear : Nat)
    (brownianBridge antitheticVariate : Bool) (requiredSamples : Nat) (requiredTolerance : ℚ)
    (maxSamples : Nat) (isBiased : Bool) (seed : Nat) : Flow MCContinuousSnowballEngine :=
  if ¬ (timeSteps ≠ null ∨ timeStepsPerYear ≠ null) then .failed "no time steps provided"
  else if ¬ (timeSteps = null ∨ timeStepsPerYear = null) then
    .failed "both time steps and time steps per year were provided"
  else if ¬ (timeSteps ≠ 0) then
    .failed ("timeSteps must be positive, " ++ toString timeSteps ++ " not allowed")
  else if ¬ (timeStepsPerYear ≠ 0) then
    .failed ("timeStepsPerYear must be positive, " ++ toString timeStepsPerYear ++
      " not allowed")
  else
    .returned
      { timeSteps_ := timeSteps, timeStepsPerYear_ := timeStepsPerYear,
        requiredSamples_ := requiredSamples, maxSamples_ := maxSamples,
        requiredTolerance_ := requiredTolerance, isBiased_ := isBiased,
        brownianBridge_ := brownianBridge, antitheticVariate_ := antitheticVariate,
        seed_ := seed }

/-- Embeds `MCContinuousSnowballEngine::timeGrid` (mcsnowballengine.hpp:146-160).
`makeTimeGrid` is the constructor `TimeGrid(end, steps)`, `toSize` the
conversion `static_cast<Size>` of a `Real`, `residualTime` the time of the last
exercise date. -/
def MCContinuousSnowballEngine.timeGrid (e : MCContinuousSnowballEngine) (null : Nat)
    (makeTimeGrid : ℚ → Nat → List ℚ) (toSize : ℚ → Nat) (residualTime : ℚ) :
    Flow (List ℚ) :=
  if e.timeSteps_ ≠ null then .returned (makeTimeGrid residualTime e.timeSteps_)
  else if e.timeStepsPerYear_ ≠ null then
    let steps := toSize (e.timeStepsPerYear_ * residualTime)
    .returned (makeTimeGrid residualTime (max steps 1))
  else .failed "time steps not specified"

/-- The fields of `ContinuousSnowballOption::arguments` that `pathPricer` reads. -/
structure SnowballArguments where
  knockOutLevel : ℚ
  knockInLevel : ℚ
  couponRate : ℚ
  principal : ℚ
  strike : ℚ
  payAtMaturity : Bool
  deriving DecidableEq, Repr

/-- Embeds `MCContinuousSnowballEngine::pathPricer` (mcsnowballengine.hpp:163-196).
`plainVanilla` tells whether the `dynamic_pointer_cast` to `PlainVanillaPayoff`
yields a payoff, `discount` is the discount curve of the process.  The branch
taken when `isBiased_` holds is empty: the closing brace of the function is
reached without a `return`. -/
def MCContinuousSnowballEngine.pathPricer (e : MCContinuousSnowballEngine) (null : Nat)
    (makeTimeGrid : ℚ → Nat → List ℚ) (toSize : ℚ → Nat) (residualTime : ℚ)
    (discount : ℚ → ℚ) (arguments_ : SnowballArguments) (plainVanilla : Bool) :
    Flow ContinuousSnowballPathPricer :=
  if ¬ plainVanilla then .failed "non-plain payoff given"
  else
    (e.timeGrid null makeTimeGrid toSize residualTime).bind fun grid =>
      let discounts := grid.map discount
      if e.isBiased_ then .undefined
      else
        .returned
          { knockOutLevel_ := arguments_.knockOutLevel,
            knockInLevel_ := arguments_.knockInLevel,
            couponRate_ := arguments_.couponRate,
            principal_ := arguments_.principal,
            strike_ := arguments_.strike,
            payAtMaturity_ := arguments_.payAtMaturity,
            discounts_ := discounts }

/-- The data members of the factory `MakeMCContinuousSnowballEngine`
(mcsnowballengine.hpp:81-85) other than the process. -/
structure MakeMCContinuousSnowballEngine where
  brownianBridge_ : Bool
  antithetic_ : Bool
  biased_ : Bool
  steps_ : Nat
  stepsPerYear_ : Nat
  samples_ : Nat
  maxSamples_ : Nat
  tolerance_ : ℚ
  seed_ : Nat
  deriving DecidableEq, Repr

/-- Embeds the constructor of `MakeMCContinuousSnowballEngine`
(mcsnowballengine.hpp:198-202, with the member initialisers of lines 82 and 85);
`nullSize` is `Null<Size>()`, `nullReal` is `Null<Real>()`. -/
def MakeMCContinuousSnowballEngine.create (nullSize : Nat) (nullReal : ℚ) :
    MakeMCContinuousSnowballEngine :=
  { brownianBridge_ := false, antithetic_ := false, biased_ := false, steps_ := nullSize,
    stepsPerYear_ := nullSize, samples_ := nullSize, maxSamples_ := nullSize,
    tolerance_ := nullReal, seed_ := 0 }

/-- Embeds `MakeMCContinuousSnowballEngine::withSamples` (mcsnowballengine.hpp:232-239):
the factory after the call and how the call ends. -/
def MakeMCContinuousSnowballEngine.withSamples (nullReal : ℚ)
    (b : MakeMCContinuousSnowballEngine) (samples : Nat) :
    MakeMCContinuousSnowballEngine × Completion :=
  if ¬ (b.tolerance_ = nullReal) then (b, .raised "tolerance already set")
  else ({ b with samples_ := samples }, .returned)

/-- Embeds `MakeMCContinuousSnowballEngine::withAbsoluteTolerance`
(mcsnowballengine.hpp:241-251); `allowsErrorEstimate` is the constant of the
random-number policy `RNG`. -/
def MakeMCContinuousSnowballEngine.withAbsoluteTolerance (nullSize : Nat)
    (allowsErrorEstimate : Bool) (b : MakeMCContinuousSnowballEngine) (tolerance : ℚ) :
    MakeMCContinuousSnowballEngine × Completion :=
  if ¬ (b.samples_ = nullSize) then (b, .raised "number of samples already set")
  else if ¬ allowsErrorEstimate then
    (b, .raised "chosen random generator policy does not allow an error estimate")
  else ({ b with tolerance_ := tolerance }, .returned)

/-- A `with*` call on the factory (mcsnowballengine.hpp:204-272). -/
inductive BuilderOp where
  | withSteps (steps : Nat) : BuilderOp
  | withStepsPerYear (steps : Nat) : BuilderOp
  | withBrownianBridge (b : Bool) : BuilderOp
  | withAntitheticVariate (b : Bool) : BuilderOp
  | withSamples (samples : Nat) : BuilderOp
  | withAbsoluteTolerance (tolerance : ℚ) : BuilderOp
  | withMaxSamples (samples : Nat) : BuilderOp
  | withBias (b : Bool) : BuilderOp
  | withSeed (seed : Nat) : BuilderOp
  deriving DecidableEq, Repr

/-- The factory after a `with*` call and how the call ends; the seven setters
without a `QL_REQUIRE` assign one member and return. -/
def BuilderOp.apply (nullSize : Nat) (nullReal : ℚ) (allowsErrorEstimate : Bool)
    (b : MakeMCContinuousSnowballEngine) :
    BuilderOp → MakeMCContinuousSnowballEngine × Completion
  | .withSteps steps => ({ b with steps_ := steps }, .returned)
  | .withStepsPerYear steps => ({ b with stepsPerYear_ := steps }, .returned)
  | .withBrownianBridge v => ({ b with brownianBridge_ := v }, .returned)
  | .withAntitheticVariate v => ({ b with antithetic_ := v }, .returned)
  | .withSamples samples => b.withSamples nullReal samples
  | .withAbsoluteTolerance tolerance =>
    b.withAbsoluteTolerance nullSize allowsErrorEstimate tolerance
  | .withMaxSamples samples => ({ b with maxSamples_ := samples }, .returned)
  | .withBias v => ({ b with biased_ := v }, .returned)
  | .withSeed seed => ({ b with seed_ := seed }, .returned)

/-- The factory after a sequence of `with*` calls, each made on the factory the
previous one left. -/
def runBuilderOps (nullSize : Nat) (nullReal : ℚ) (allowsErrorEstimate : Bool)
    (b : MakeMCContinuousSnowballEngine) (ops : List BuilderOp) :
    MakeMCContinuousSnowballEngine :=
  ops.foldl (fun acc op => (op.apply nullSize nullReal allowsErrorEstimate acc).1) b

/-- Embeds the conversion of the factory to a pricing engine
(mcsnowballengine.hpp:274-292). -/
def MakeMCContinuousSnowballEngine.toEngine (null : Nat)
    (b : MakeMCContinuousSnowballEngine) : Flow MCContinuousSnowballEngine :=
  if ¬ (b.steps_ ≠ null ∨ b.stepsPerYear_ ≠ null) then .failed "number of steps not given"
  else if ¬ (b.steps_ = null ∨ b.stepsPerYear_ = null) then
    .failed "number of steps overspecified"
  else
    MCContinuousSnowballEngine.create null b.steps_ b.stepsPerYear_ b.brownianBridge_
      b.antithetic_ b.samples_ b.tolerance_ b.maxSamples_ b.biased_ b.seed_

/-- An engine with ten time steps built with `withBias(true)`. -/
def biasedEngine : MCContinuousSnowballEngine :=
  { timeSteps_ := 10, timeStepsPerYear_ := 2147483647, requiredSamples_ := 1000,
    maxSamples_ := 2147483647, requiredTolerance_ := 0, isBiased_ := true,
    brownianBridge_ := false, antitheticVariate_ := false, seed_ := 0 }

/-- The arguments of a snowball option. -/
def snowballArguments : SnowballArguments :=
  { knockOutLevel := 103, knockInLevel := 80, couponRate := 1 / 5, principal := 100,
    strike := 100, payAtMaturity := false }

/-- A snowball pricer with knock-out level 103, knock-in level 80, coupon rate
1/5, principal and strike 100, paying at the knock-out date. -/
def snowballPricer : ContinuousSnowballPathPricer :=
  { knockOutLevel_ := 103, knockInLevel_ := 80, couponRate_ := 1 / 5, principal_ := 100,
    strike_ := 100, payAtMaturity_ := false, discounts_ := [1, 9 / 10, 8 / 10] }

/-- A path of three values that is knocked in and never knocked out. -/
def knockedInPath : Path :=
  { timeGrid := [0, 1 / 2, 1], values := [100, 70, 90] }

/-- A down-and-out pricer with rebate 3, participation 1/2 and the discount
vector `discounts`. -/
def knockOutPricer (discounts : List ℚ) : ParticipationBarrierPathPricer :=
  { barrierType_ := .DownOut, rebate_ := 3, participation_ := 1 / 2, discounts_ := discounts }

/-- A path of four values that is below 95 at its node 2 only. -/
def dipPath : Path :=
  { timeGrid := [0, 1 / 3, 2 / 3, 1], values := [100, 99, 94, 120] }

/-- A path of four values that is below 95 at its nodes 2 and 3. -/
def fallPath : Path :=
  { timeGrid := [0, 1 / 3, 2 / 3, 1], values := [100, 99, 94, 93] }

/-- A path of `n` nodes, all of value 0. -/
def flatPath (n : Nat) : Path :=
  { timeGrid := List.replicate n 0, values := List.replicate n 0 }

/-! ## Lemmas on the traversal order and on the loops -/

theorem mem_elements (s : Finset Nat) (a : Nat) : a ∈ elements s ↔ a ∈ s := by
  unfold elements
  simp only [List.mem_filter, List.mem_range, decide_eq_true_eq, and_iff_right_iff_imp]
  intro h
  have := Finset.le_sup (f := id) h
  simp only [id_eq] at this
  omega

theorem nodup_elements (s : Finset Nat) : (elements s).Nodup := by
  unfold elements
  exact (List.nodup_range _).filter _

theorem elements_empty : elements ∅ = [] := by
  apply List.eq_nil_iff_forall_not_mem.mpr
  intro a
  simp [mem_elements]

theorem elements_eq_nil_iff (s : Finset Nat) : elements s = [] ↔ s = ∅ := by
  constructor
  · intro h
    ext a
    rw [← mem_elements, h]
    simp
  · rintro rfl
    exact elements_empty

theorem count_elements (s : Finset Nat) (a : Nat) :
    (elements s).count a = if a ∈ s then 1 else 0 := by
  by_cases h : a ∈ s
  · rw [if_pos h]
    exact List.count_eq_one_of_mem (nodup_elements s) ((mem_elements s a).mpr h)
  · rw [if_neg h]
    exact List.count_eq_zero_of_not_mem (fun h2 => h ((mem_elements s a).mp h2))

namespace Observer

theorem registerLoop_observables (w : World) (this : Nat) (xs : List Nat) :
    (registerLoop w this xs).observables_ = w.observables_ := by
  induction xs generalizing w with
  | nil => rfl
  | cons x xs ih => simp only [registerLoop, List.foldl_cons] at ih ⊢; rw [ih]; rfl

theorem registerLoop_live (w : World) (this : Nat) (xs : List Nat) :
    (registerLoop w this xs).live = w.live := by
  induction xs generalizing w with
  | nil => rfl
  | cons x xs ih => simp only [registerLoop, List.foldl_cons] at ih ⊢; rw [ih]; rfl

theorem registerLoop_settings (w : World) (this : Nat) (xs : List Nat) :
    (registerLoop w this xs).settings_ = w.settings_ := by
  induction xs generalizing w with
  | nil => rfl
  | cons x xs ih => simp only [registerLoop, List.foldl_cons] at ih ⊢; rw [ih]; rfl

theorem mem_registerLoop_observers (w : World) (this : Nat) (xs : List Nat) (s l : Nat) :
    l ∈ (registerLoop w this xs).observers_ s ↔
      l ∈ w.observers_ s ∨ (s ∈ xs ∧ l = this) := by
  induction xs generalizing w with
  | nil => simp [registerLoop]
  | cons x xs ih =>
    simp only [registerLoop, List.foldl_cons] at ih ⊢
    rw [ih]
    simp only [Observable.registerObserver, Function.update_apply, List.mem_cons]
    by_cases hs : s = x
    · subst hs; simp only [if_true, Finset.mem_insert]; tauto
    · simp only [hs, if_false]; tauto

theorem unregisterLoop_observables (w : World) (this : Nat) (xs : List Nat) :
    (unregisterLoop w this xs).observables_ = w.observables_ := by
  induction xs generalizing w with
  | nil => rfl
  | cons x xs ih =>
    simp only [unregisterLoop, List.foldl_cons] at ih ⊢; rw [ih]
    simp only [Observable.unregisterObserver]; split <;> rfl

theorem unregisterLoop_live (w : World) (this : Nat) (xs : List Nat) :
    (unregisterLoop w this xs).live = w.live := by
  induction xs generalizing w with
  | nil => rfl
  | cons x xs ih =>
    simp only [unregisterLoop, List.foldl_cons] at ih ⊢; rw [ih]
    simp only [Observable.unregisterObserver]; split <;> rfl

theorem mem_unregisterLoop_observers (w : World) (this : Nat) (xs : List Nat) (s l : Nat) :
    l ∈ (unregisterLoop w this xs).observers_ s ↔
      l ∈ w.observers_ s ∧ ¬ (s ∈ xs ∧ l = this) := by
  induction xs generalizing w with
  | nil => simp [unregisterLoop]
  | cons x xs ih =>
    simp only [unregisterLoop, List.foldl_cons] at ih ⊢
    rw [ih]
    have h1 : ∀ l, l ∈ (Observable.unregisterObserver w x this).1.observers_ s ↔
        l ∈ w.observers_ s ∧ ¬ (s = x ∧ l = this) := by
      intro l
      simp only [Observable.unregisterObserver]
      split <;>
      · simp only [Function.update_apply]
        by_cases hs : s = x
        · subst hs; simp only [if_true, Finset.mem_erase]; tauto
        · simp only [hs, if_false]; tauto
    rw [h1]
    simp only [List.mem_cons]
    tauto

theorem registerWithLoop_live (w : World) (this : Nat) (xs : List Nat) :
    (registerWithLoop w this xs).live = w.live := by
  induction xs generalizing w with
  | nil => rfl
  | cons x xs ih => simp only [registerWithLoop, List.foldl_cons] at ih ⊢; rw [ih]; rfl

theorem registerWithLoop_settings (w : World) (this : Nat) (xs : List Nat) :
    (registerWithLoop w this xs).settings_ = w.settings_ := by
  induction xs generalizing w with
  | nil => rfl
  | cons x xs ih => simp only [registerWithLoop, List.foldl_cons] at ih ⊢; rw [ih]; rfl

theorem mem_registerWith_observers (w : World) (this p s l : Nat) :
    l ∈ (registerWith w this (some p)).1.observers_ s ↔
      l ∈ w.observers_ s ∨ (s = p ∧ l = this) := by
  simp only [registerWith, Observable.registerObserver, Function.update_apply]
  by_cases hs : s = p
  · subst hs; simp only [if_true, Finset.mem_insert]; tauto
  · simp only [hs, if_false]; tauto

theorem mem_registerWith_observables (w : World) (this p s l : Nat) :
    s ∈ (registerWith w this (some p)).1.observables_ l ↔
      s ∈ w.observables_ l ∨ (l = this ∧ s = p) := by
  simp only [registerWith, Observable.registerObserver, Function.update_apply]
  by_cases hl : l = this
  · subst hl; simp only [if_true, Finset.mem_insert]; tauto
  · simp only [hl, if_false]; tauto

theorem mem_registerWithLoop_observers (w : World) (this : Nat) (xs : List Nat) (s l : Nat) :
    l ∈ (registerWithLoop w this xs).observers_ s ↔
      l ∈ w.observers_ s ∨ (s ∈ xs ∧ l = this) := by
  induction xs generalizing w with
  | nil => simp [registerWithLoop]
  | cons x xs ih =>
    simp only [registerWithLoop, List.foldl_cons] at ih ⊢
    rw [ih, mem_registerWith_observers]
    simp only [List.mem_cons]
    tauto

theorem mem_registerWithLoop_observables (w : World) (this : Nat) (xs : List Nat)
    (s l : Nat) :
    s ∈ (registerWithLoop w this xs).observables_ l ↔
      s ∈ w.observables_ l ∨ (l = this ∧ s ∈ xs) := by
  induction xs generalizing w with
  | nil => simp [registerWithLoop]
  | cons x xs ih =>
    simp only [registerWithLoop, List.foldl_cons] at ih ⊢
    rw [ih, mem_registerWith_observables]
    simp only [List.mem_cons]
    tauto

theorem mem_unregisterObserver_observers (w : World) (self o s l : Nat) :
    l ∈ (Observable.unregisterObserver w self o).1.observers_ s ↔
      l ∈ w.observers_ s ∧ ¬ (s = self ∧ l = o) := by
  simp only [Observable.unregisterObserver]
  split <;>
  · simp only [Function.update_apply]
    by_cases hs : s = self
    · subst hs; simp only [if_true, Finset.mem_erase]; tauto
    · simp only [hs, if_false]; tauto

theorem unregisterObserver_observables (w : World) (self o : Nat) :
    (Observable.unregisterObserver w self o).1.observables_ = w.observables_ := by
  simp only [Observable.unregisterObserver]; split <;> rfl

theorem unregisterObserver_live (w : World) (self o : Nat) :
    (Observable.unregisterObserver w self o).1.live = w.live := by
  simp only [Observable.unregisterObserver]; split <;> rfl

theorem mem_unregisterWith_observers (w : World) (this p s l : Nat) :
    l ∈ (unregisterWith w this (some p)).1.observers_ s ↔
      l ∈ w.observers_ s ∧ ¬ (s = p ∧ l = this) := by
  simp only [unregisterWith]
  exact mem_unregisterObserver_observers w p this s l

theorem mem_unregisterWith_observables (w : World) (this p s l : Nat) :
    s ∈ (unregisterWith w this (some p)).1.observables_ l ↔
      s ∈ w.observables_ l ∧ ¬ (l = this ∧ s = p) := by
  simp only [unregisterWith, unregisterObserver_observables, Function.update_apply]
  by_cases hl : l = this
  · subst hl; simp only [if_true, Finset.mem_erase]; tauto
  · simp only [hl, if_false]; tauto

theorem unregisterWith_live (w : World) (this : Nat) (h : Option Nat) :
    (unregisterWith w this h).1.live = w.live := by
  cases h with
  | none => rfl
  | some p => simp only [unregisterWith, unregisterObserver_live]

theorem mem_unregisterWithAll_observers (w : World) (this s l : Nat) :
    l ∈ (unregisterWithAll w this).observers_ s ↔
      l ∈ w.observers_ s ∧ ¬ (s ∈ w.observables_ this ∧ l = this) := by
  simp only [unregisterWithAll]
  rw [mem_unregisterLoop_observers, mem_elements]

theorem mem_unregisterWithAll_observables (w : World) (this s l : Nat) :
    s ∈ (unregisterWithAll w this).observables_ l ↔
      s ∈ w.observables_ l ∧ l ≠ this := by
  simp only [unregisterWithAll, unregisterLoop_observables, Function.update_apply]
  by_cases hl : l = this
  · subst hl; simp
  · simp [hl]

theorem mem_destroy_observers (w : World) (this s l : Nat) :
    l ∈ (destroy w this).observers_ s ↔
      l ∈ w.observers_ s ∧ ¬ (s ∈ w.observables_ this ∧ l = this) := by
  simp only [destroy]
  rw [mem_unregisterLoop_observers, mem_elements]

theorem mem_destroy_observables (w : World) (this s l : Nat) :
    s ∈ (destroy w this).observables_ l ↔ s ∈ w.observables_ l ∧ l ≠ this := by
  simp only [destroy, unregisterLoop_observables, Function.update_apply]
  by_cases hl : l = this
  · subst hl; simp
  · simp [hl]

theorem destroy_live (w : World) (this : Nat) :
    (destroy w this).live = w.live.erase this := by
  simp only [destroy, unregisterLoop_live]

theorem mem_copyConstruct_observers (w : World) (this o s l : Nat) :
    l ∈ (copyConstruct w this o).observers_ s ↔
      l ∈ w.observers_ s ∨ (s ∈ w.observables_ o ∧ l = this) := by
  simp only [copyConstruct]
  rw [mem_registerLoop_observers, mem_elements]
  simp

theorem mem_copyConstruct_observables (w : World) (this o s l : Nat) :
    s ∈ (copyConstruct w this o).observables_ l ↔
      (l = this ∧ s ∈ w.observables_ o) ∨ (l ≠ this ∧ s ∈ w.observables_ l) := by
  simp only [copyConstruct, registerLoop_observables, Function.update_apply]
  by_cases hl : l = this
  · subst hl; simp
  · simp [hl]

theorem copyConstruct_live (w : World) (this o : Nat) :
    (copyConstruct w this o).live = insert this w.live := by
  simp only [copyConstruct, registerLoop_live]

theorem mem_assign_observers (w : World) (this o s l : Nat) :
    l ∈ (assign w this o).observers_ s ↔
      (l ∈ w.observers_ s ∧ ¬ (s ∈ w.observables_ this ∧ l = this)) ∨
        (s ∈ w.observables_ o ∧ l = this) := by
  simp only [assign]
  rw [mem_registerLoop_observers, mem_elements]
  simp only [unregisterLoop_observables, Function.update_same]
  rw [mem_unregisterLoop_observers, mem_elements]

theorem mem_assign_observables (w : World) (this o s l : Nat) :
    s ∈ (assign w this o).observables_ l ↔
      (l = this ∧ s ∈ w.observables_ o) ∨ (l ≠ this ∧ s ∈ w.observables_ l) := by
  simp only [assign, registerLoop_observables, unregisterLoop_observables,
    Function.update_apply]
  by_cases hl : l = this
  · subst hl; simp
  · simp [hl]

theorem assign_live (w : World) (this o : Nat) : (assign w this o).live = w.live := by
  simp only [assign, registerLoop_live, unregisterLoop_live]

theorem mem_registerWithObservables_observers (w : World) (this q s l : Nat) :
    l ∈ (registerWithObservables w this (some q)).observers_ s ↔
      l ∈ w.observers_ s ∨ (s ∈ w.observables_ q ∧ l = this) := by
  simp only [registerWithObservables]
  rw [mem_registerWithLoop_observers, mem_elements]

theorem mem_registerWithObservables_observables (w : World) (this q s l : Nat) :
    s ∈ (registerWithObservables w this (some q)).observables_ l ↔
      s ∈ w.observables_ l ∨ (l = this ∧ s ∈ w.observables_ q) := by
  simp only [registerWithObservables]
  rw [mem_registerWithLoop_observables, mem_elements]

theorem registerWithObservables_live (w : World) (this : Nat) (o : Option Nat) :
    (registerWithObservables w this o).live = w.live := by
  cases o with
  | none => rfl
  | some q => simp only [registerWithObservables, registerWithLoop_live]

end Observer

/-! ## Preservation of the symmetry invariant -/

theorem World.DeadEmpty.not_mem {w : World} (h : w.DeadEmpty) {l : Nat} (hl : l ∉ w.live)
    (s : Nat) : s ∉ w.observables_ l := by
  rw [h l hl]; exact Finset.not_mem_empty s

theorem World.deadEmpty_of_forall {w : World}
    (h : ∀ l s, l ∉ w.live → s ∉ w.observables_ l) : w.DeadEmpty := by
  intro l hl
  exact Finset.eq_empty_of_forall_not_mem (fun s => h l s hl)

open Observer

theorem apply_preserves_symmetry (w : World) (op : Op) (hs : w.Symmetric) (hd : w.DeadEmpty)
    (ha : op.admissible w = true) : (op.apply w).Symmetric ∧ (op.apply w).DeadEmpty := by
  cases op with
  | construct t =>
    simp only [Op.admissible, decide_eq_true_eq] at ha
    refine ⟨?_, World.deadEmpty_of_forall ?_⟩
    · intro s l
      simp only [Op.apply, construct, Function.update_apply]
      by_cases hl : l = t
      · subst hl
        have := hd.not_mem ha s
        simp only [if_true, Finset.not_mem_empty, iff_false]
        exact fun h => this ((hs s l).mp h)
      · simp only [hl, if_false]; exact hs s l
    · intro l s
      simp only [Op.apply, construct, Function.update_apply, Finset.mem_insert, not_or]
      rintro ⟨h1, h2⟩
      simp only [h1, if_false]
      exact hd.not_mem h2 s
  | copyConstruct t o =>
    simp only [Op.admissible, Bool.and_eq_true, decide_eq_true_eq] at ha
    refine ⟨?_, World.deadEmpty_of_forall ?_⟩
    · intro s l
      simp only [Op.apply, mem_copyConstruct_observers, mem_copyConstruct_observables]
      have h1 := hs s l
      have h2 := hd.not_mem ha.1 s
      have h3 := hs s t
      by_cases hl : l = t
      · subst hl; tauto
      · tauto
    · intro l s
      simp only [Op.apply, copyConstruct_live, mem_copyConstruct_observables,
        Finset.mem_insert, not_or]
      rintro ⟨h1, h2⟩
      have := hd.not_mem h2 s
      tauto
  | assign t o =>
    simp only [Op.admissible, Bool.and_eq_true, decide_eq_true_eq] at ha
    refine ⟨?_, World.deadEmpty_of_forall ?_⟩
    · intro s l
      simp only [Op.apply, mem_assign_observers, mem_assign_observables]
      have h1 := hs s l
      have h3 := hs s t
      by_cases hl : l = t
      · subst hl; tauto
      · tauto
    · intro l s
      simp only [Op.apply, assign_live, mem_assign_observables]
      intro h1
      have := hd.not_mem h1 s
      have hne : l ≠ t := fun h => h1 (h ▸ ha.1)
      tauto
  | destroy t =>
    refine ⟨?_, World.deadEmpty_of_forall ?_⟩
    · intro s l
      simp only [Op.apply, mem_destroy_observers, mem_destroy_observables]
      have h1 := hs s l
      have h3 := hs s t
      by_cases hl : l = t
      · subst hl; tauto
      · tauto
    · intro l s
      simp only [Op.apply, destroy_live, mem_destroy_observables, Finset.mem_erase,
        not_and]
      intro h1
      by_cases hl : l = t
      · tauto
      · have := hd.not_mem (h1 hl) s
        tauto
  | registerWith t h =>
    simp only [Op.admissible, decide_eq_true_eq] at ha
    cases h with
    | none => exact ⟨hs, hd⟩
    | some p =>
      refine ⟨?_, World.deadEmpty_of_forall ?_⟩
      · intro s l
        simp only [Op.apply, mem_registerWith_observers, mem_registerWith_observables]
        have h1 := hs s l
        tauto
      · intro l s
        simp only [Op.apply, mem_registerWith_observables]
        intro h1
        have h2 : (registerWith w t (some p)).1.live = w.live := rfl
        rw [h2] at h1
        have := hd.not_mem h1 s
        have hne : l ≠ t := fun h => h1 (h ▸ ha)
        tauto
  | registerWithObservables t o =>
    simp only [Op.admissible, Bool.and_eq_true, decide_eq_true_eq] at ha
    cases o with
    | none => exact ⟨hs, hd⟩
    | some q =>
      refine ⟨?_, World.deadEmpty_of_forall ?_⟩
      · intro s l
        simp only [Op.apply, mem_registerWithObservables_observers,
          mem_registerWithObservables_observables]
        have h1 := hs s l
        tauto
      · intro l s
        simp only [Op.apply, registerWithObservables_live,
          mem_registerWithObservables_observables]
        intro h1
        have := hd.not_mem h1 s
        have hne : l ≠ t := fun h => h1 (h ▸ ha.1)
        tauto
  | unregisterWith t h =>
    cases h with
    | none => exact ⟨hs, hd⟩
    | some p =>
      refine ⟨?_, World.deadEmpty_of_forall ?_⟩
      · intro s l
        simp only [Op.apply, mem_unregisterWith_observers, mem_unregisterWith_observables]
        have h1 := hs s l
        tauto
      · intro l s
        simp only [Op.apply, unregisterWith_live, mem_unregisterWith_observables]
        intro h1
        have := hd.not_mem h1 s
        tauto
  | unregisterWithAll t =>
    refine ⟨?_, World.deadEmpty_of_forall ?_⟩
    · intro s l
      simp only [Op.apply, mem_unregisterWithAll_observers,
        mem_unregisterWithAll_observables]
      have h1 := hs s l
      have h3 := hs s t
      by_cases hl : l = t
      · subst hl; tauto
      · tauto
    · intro l s
      simp only [Op.apply, mem_unregisterWithAll_observables]
      intro h1
      have h2 : (unregisterWithAll w t).live = w.live := by
        simp only [unregisterWithAll, unregisterLoop_live]
      rw [h2] at h1
      have := hd.not_mem h1 s
      tauto
  | disableUpdates d => exact ⟨hs, hd⟩
  | notifyDisabled s => exact ⟨hs, hd⟩

theorem runOps_symmetric (w : World) (ops : List Op) (hs : w.Symmetric) (hd : w.DeadEmpty)
    (ha : admissibleOps w ops = true) :
    (runOps w ops).Symmetric ∧ (runOps w ops).DeadEmpty := by
  induction ops generalizing w with
  | nil => exact ⟨hs, hd⟩
  | cons op rest ih =>
    simp only [admissibleOps, Bool.and_eq_true] at ha
    obtain ⟨h1, h2⟩ := apply_preserves_symmetry w op hs hd ha.1
    exact ih (op.apply w) h1 h2 ha.2

theorem World.NoLinks.symmetric {w : World} (h : w.NoLinks) : w.Symmetric := by
  intro s l
  rw [h.1 s, h.2 l]
  simp

theorem World.NoLinks.deadEmpty {w : World} (h : w.NoLinks) : w.DeadEmpty :=
  fun l _ => h.2 l

/-! ## Lemmas on delivery loops -/

theorem Delivery.calls_foldl (update : Nat → Outcome) (d : Delivery) (xs : List Nat) :
    (xs.foldl (Delivery.step update) d).calls = d.calls ++ xs := by
  induction xs generalizing d with
  | nil => simp
  | cons x xs ih =>
    rw [List.foldl_cons, ih]
    have : (Delivery.step update d x).calls = d.calls ++ [x] := by
      unfold Delivery.step
      cases update x <;> rfl
    rw [this, List.append_assoc]
    rfl

theorem Delivery.successful_after_loop (update : Nat → Outcome) (d : Delivery) (xs : List Nat) :
    (xs.foldl (Delivery.step update) d).successful =
      (d.successful && xs.all (fun o => !(update o).failed)) := by
  induction xs generalizing d with
  | nil => simp
  | cons x xs ih =>
    rw [List.foldl_cons, ih, List.all_cons]
    have : (Delivery.step update d x).successful = (d.successful && !(update x).failed) := by
      unfold Delivery.step
      cases update x <;> simp [Outcome.failed]
    rw [this, Bool.and_assoc]

namespace ThreadSafe

theorem Proxy.update_calls (p : Proxy) (weakFromThis : Nat → WeakRef)
    (update : Nat → Outcome) :
    (p.update weakFromThis update).1 =
      if p.active_ = true ∧ weakFromThis p.observer_ ≠ .expired then [p.observer_] else [] := by
  unfold Proxy.update
  cases p.active_ <;> cases weakFromThis p.observer_ <;> simp

theorem Proxy.update_outcome (p : Proxy) (weakFromThis : Nat → WeakRef)
    (update : Nat → Outcome) :
    (p.update weakFromThis update).2 =
      if p.active_ = true ∧ weakFromThis p.observer_ ≠ .expired then update p.observer_
      else .returned := by
  unfold Proxy.update
  cases p.active_ <;> cases weakFromThis p.observer_ <;> simp

theorem Drain.proxyCalls_foldl (lock : Nat → Option Proxy) (weakFromThis : Nat → WeakRef)
    (update : Nat → Outcome) (d : Drain) (xs : List Nat) :
    (xs.foldl (Drain.step lock weakFromThis update) d).proxyCalls =
      d.proxyCalls ++ xs.filter (fun i => (lock i).isSome) := by
  induction xs generalizing d with
  | nil => simp
  | cons x xs ih =>
    rw [List.foldl_cons, ih]
    unfold Drain.step
    cases hx : lock x with
    | none => simp [List.filter_cons, hx]
    | some p =>
      simp only [List.filter_cons, hx, Option.isSome_some, if_true]
      cases (p.update weakFromThis update).2 <;> simp

theorem Drain.updateCalls_foldl (lock : Nat → Option Proxy) (weakFromThis : Nat → WeakRef)
    (update : Nat → Outcome) (d : Drain) (xs : List Nat) :
    (xs.foldl (Drain.step lock weakFromThis update) d).updateCalls =
      d.updateCalls ++ (xs.map (fun i =>
        match lock i with
        | none => []
        | some p => (p.update weakFromThis update).1)).flatten := by
  induction xs generalizing d with
  | nil => simp
  | cons x xs ih =>
    rw [List.foldl_cons, ih]
    unfold Drain.step
    cases hx : lock x with
    | none => simp [hx]
    | some p =>
      simp only [List.map_cons, List.flatten_cons, hx]
      cases (p.update weakFromThis update).2 <;> simp

theorem Drain.successful_after_drain (lock : Nat → Option Proxy) (weakFromThis : Nat → WeakRef)
    (update : Nat → Outcome) (d : Drain) (xs : List Nat) :
    (xs.foldl (Drain.step lock weakFromThis update) d).successful =
      (d.successful && xs.all (fun i =>
        match lock i with
        | none => true
        | some p => !(p.update weakFromThis update).2.failed)) := by
  induction xs generalizing d with
  | nil => simp
  | cons x xs ih =>
    rw [List.foldl_cons, ih, List.all_cons, ← Bool.and_assoc]
    congr 1
    unfold Drain.step
    cases hx : lock x with
    | none => simp
    | some p =>
      simp only
      cases (p.update weakFromThis update).2 <;> simp [Outcome.failed]

end ThreadSafe

theorem count_flatten_map_of_unique (f : Nat → List Nat) (g l : Nat) (xs : List Nat)
    (hnd : xs.Nodup) (hg : g ∈ xs) (hfg : (f g).count l = 1)
    (hother : ∀ i ∈ xs, i ≠ g → l ∉ f i) : (xs.map f).flatten.count l = 1 := by
  have hzero : ∀ ys : List Nat, (∀ i ∈ ys, l ∉ f i) → (ys.map f).flatten.count l = 0 := by
    intro ys
    induction ys with
    | nil => intro _; rfl
    | cons y ys ih =>
      intro h
      rw [List.map_cons, List.flatten_cons, List.count_append,
        ih (fun i hi => h i (List.mem_cons_of_mem _ hi)),
        List.count_eq_zero_of_not_mem (h y (List.mem_cons_self _ _))]
  induction xs with
  | nil => exact absurd hg (List.not_mem_nil _)
  | cons x xs ih =>
    rw [List.map_cons, List.flatten_cons, List.count_append]
    rw [List.nodup_cons] at hnd
    rcases List.mem_cons.mp hg with hx | hx
    · subst hx
      rw [hfg, hzero xs]
      intro i hi
      exact hother i (List.mem_cons_of_mem _ hi) (fun h => hnd.1 (h ▸ hi))
    · have hne : x ≠ g := fun h => hnd.1 (h ▸ hx)
      rw [List.count_eq_zero_of_not_mem (hother x (List.mem_cons_self _ _) hne), Nat.zero_add]
      exact ih hnd.2 hx (fun i hi => hother i (List.mem_cons_of_mem _ hi))

theorem World.ext_fields {a b : World} (h1 : a.observers_ = b.observers_)
    (h2 : a.observables_ = b.observables_) (h3 : a.live = b.live)
    (h4 : a.settings_ = b.settings_) : a = b := by
  cases a; cases b
  simp only at h1 h2 h3 h4
  subst h1 h2 h3 h4
  rfl

namespace ThreadSafe

theorem enableUpdates_settings (s : ObservableSettings) (lock : Nat → Option Proxy)
    (weakFromThis : Nat → WeakRef) (update : Nat → Outcome) :
    (s.enableUpdates lock weakFromThis update).1 =
      { deferredObservers_ := ∅, updatesType_ := UpdatesEnabled } := by
  unfold ObservableSettings.enableUpdates
  by_cases h : s.deferredObservers_.card ≠ 0
  · rw [if_pos h]
  · rw [if_neg h]
    simp only [ne_eq, Finset.card_eq_zero, not_not] at h
    simp only [h]

theorem enableUpdates_drain (s : ObservableSettings) (lock : Nat → Option Proxy)
    (weakFromThis : Nat → WeakRef) (update : Nat → Outcome) :
    (s.enableUpdates lock weakFromThis update).2.1 =
      (elements s.deferredObservers_).foldl (Drain.step lock weakFromThis update)
        Drain.start := by
  unfold ObservableSettings.enableUpdates
  by_cases h : s.deferredObservers_.card ≠ 0
  · rw [if_pos h]
  · rw [if_neg h]
    simp only [ne_eq, Finset.card_eq_zero, not_not] at h
    simp only [h, elements_empty, List.foldl_nil]

theorem enableUpdates_completion (s : ObservableSettings) (lock : Nat → Option Proxy)
    (weakFromThis : Nat → WeakRef) (update : Nat → Outcome) :
    (s.enableUpdates lock weakFromThis update).2.2 =
      ensureSuccessful (s.enableUpdates lock weakFromThis update).2.1.successful
        (s.enableUpdates lock weakFromThis update).2.1.errMsg := by
  unfold ObservableSettings.enableUpdates
  by_cases h : s.deferredObservers_.card ≠ 0
  · rw [if_pos h]
  · rw [if_neg h]
    rfl

theorem count_proxyCalls_enableUpdates (s : ObservableSettings) (lock : Nat → Option Proxy)
    (weakFromThis : Nat → WeakRef) (update : Nat → Outcome) (g : Nat) :
    (s.enableUpdates lock weakFromThis update).2.1.proxyCalls.count g =
      if g ∈ s.deferredObservers_ ∧ (lock g).isSome = true then 1 else 0 := by
  rw [enableUpdates_drain, Drain.proxyCalls_foldl]
  simp only [Drain.start, List.nil_append]
  by_cases hl : (lock g).isSome = true
  · rw [List.count_filter (by simpa using hl), count_elements]
    simp [hl]
  · rw [List.count_eq_zero_of_not_mem]
    · simp [hl]
    · intro hmem
      exact hl (by simpa using (List.mem_filter.mp hmem).2)

theorem updateCalls_enableUpdates (s : ObservableSettings) (lock : Nat → Option Proxy)
    (weakFromThis : Nat → WeakRef) (update : Nat → Outcome) :
    (s.enableUpdates lock weakFromThis update).2.1.updateCalls =
      ((elements s.deferredObservers_).map (fun i =>
        match lock i with
        | none => []
        | some p => (p.update weakFromThis update).1)).flatten := by
  rw [enableUpdates_drain, Drain.updateCalls_foldl]
  simp only [Drain.start, List.nil_append]

theorem successful_enableUpdates (s : ObservableSettings) (lock : Nat → Option Proxy)
    (weakFromThis : Nat → WeakRef) (update : Nat → Outcome) :
    (s.enableUpdates lock weakFromThis update).2.1.successful =
      (elements s.deferredObservers_).all (fun i =>
        match lock i with
        | none => true
        | some p => !(p.update weakFromThis update).2.failed) := by
  rw [enableUpdates_drain, Drain.successful_after_drain]
  simp only [Drain.start, Bool.true_and]

end ThreadSafe

/-! ## Worlds reached from the empty world -/

theorem World.empty_noLinks : World.empty.NoLinks :=
  ⟨fun _ => rfl, fun _ => rfl⟩

theorem symmetric_of_run (ops : List Op) (ha : admissibleOps World.empty ops = true) :
    (runOps World.empty ops).Symmetric :=
  (runOps_symmetric World.empty ops World.empty_noLinks.symmetric
    World.empty_noLinks.deadEmpty ha).1

theorem deadEmpty_of_run (ops : List Op) (ha : admissibleOps World.empty ops = true) :
    (runOps World.empty ops).DeadEmpty :=
  (runOps_symmetric World.empty ops World.empty_noLinks.symmetric
    World.empty_noLinks.deadEmpty ha).2

theorem twoListeners_symmetric : twoListeners.Symmetric :=
  symmetric_of_run _ (by decide)

theorem twoListeners_deadEmpty : twoListeners.DeadEmpty :=
  deadEmpty_of_run _ (by decide)

/-! ## Lemmas on the settings state machine -/

theorem enableUpdates_flags (s : ObservableSettings) (update : Nat → Outcome) :
    (s.enableUpdates update).1.updatesEnabled = true ∧
      (s.enableUpdates update).1.updatesDeferred = false := by
  simp only [ObservableSettings.enableUpdates]
  split <;> exact ⟨rfl, rfl⟩

theorem applyOp_tracks (update : Nat → Outcome) (s : ObservableSettings) (q : SettingsState)
    (op : SettingsOp) :
    SettingsState.ofFlags (s.applyOp update op).updatesEnabled
      (s.applyOp update op).updatesDeferred = some (q.applyOp op) := by
  cases op with
  | disableUpdates d =>
    cases d <;> rfl
  | enableUpdates =>
    simp only [ObservableSettings.applyOp, (enableUpdates_flags s update).1,
      (enableUpdates_flags s update).2]
    rfl

theorem run_tracks (update : Nat → Outcome) (ops : List SettingsOp) (s : ObservableSettings)
    (q : SettingsState) (h : SettingsState.ofFlags s.updatesEnabled s.updatesDeferred = some q) :
    SettingsState.ofFlags (s.run update ops).updatesEnabled
      (s.run update ops).updatesDeferred = some (ops.foldl SettingsState.applyOp q) := by
  induction ops generalizing s q with
  | nil => exact h
  | cons op rest ih =>
    exact ih (s.applyOp update op) (q.applyOp op) (applyOp_tracks update s q op)

theorem ofFlags_some_not_both (e d : Bool) (q : SettingsState)
    (h : SettingsState.ofFlags e d = some q) : ¬ (e = true ∧ d = true) := by
  rintro ⟨rfl, rfl⟩
  simp [SettingsState.ofFlags] at h

namespace ThreadSafe

theorem ts_applyOp_tracks (lock : Nat → Option Proxy) (weakFromThis : Nat → WeakRef)
    (update : Nat → Outcome) (s : ObservableSettings) (q : SettingsState) (op : SettingsOp) :
    SettingsState.ofFlags (s.applyOp lock weakFromThis update op).updatesEnabled
      (s.applyOp lock weakFromThis update op).updatesDeferred = some (q.applyOp op) := by
  cases op with
  | disableUpdates d =>
    cases d <;>
      simp [ObservableSettings.applyOp, ObservableSettings.disableUpdates,
        ObservableSettings.updatesEnabled, ObservableSettings.updatesDeferred, UpdatesDeferred,
        UpdatesEnabled, SettingsState.ofFlags, SettingsState.applyOp,
        SettingsState.disableUpdates]
  | enableUpdates =>
    simp [ObservableSettings.applyOp, enableUpdates_settings,
      ObservableSettings.updatesEnabled, ObservableSettings.updatesDeferred, UpdatesDeferred,
      UpdatesEnabled, SettingsState.ofFlags, SettingsState.applyOp,
      SettingsState.enableUpdates]

theorem ts_run_tracks (lock : Nat → Option Proxy) (weakFromThis : Nat → WeakRef)
    (update : Nat → Outcome) (ops : List SettingsOp) (s : ObservableSettings)
    (q : SettingsState) (h : SettingsState.ofFlags s.updatesEnabled s.updatesDeferred = some q) :
    SettingsState.ofFlags (s.run lock weakFromThis update ops).updatesEnabled
      (s.run lock weakFromThis update ops).updatesDeferred =
        some (ops.foldl SettingsState.applyOp q) := by
  induction ops generalizing s q with
  | nil => exact h
  | cons op rest ih =>
    exact ih (s.applyOp lock weakFromThis update op) (q.applyOp op)
      (ts_applyOp_tracks lock weakFromThis update s q op)

theorem ts_run_updatesType (lock : Nat → Option Proxy) (weakFromThis : Nat → WeakRef)
    (update : Nat → Outcome) (ops : List SettingsOp) (s : ObservableSettings)
    (h : s.updatesType_ ≤ 2) : (s.run lock weakFromThis update ops).updatesType_ ≤ 2 := by
  induction ops generalizing s with
  | nil => exact h
  | cons op rest ih =>
    apply ih
    cases op with
    | disableUpdates d =>
      cases d <;>
        simp [ObservableSettings.applyOp, ObservableSettings.disableUpdates, UpdatesDeferred]
    | enableUpdates =>
      simp [ObservableSettings.applyOp, enableUpdates_settings, UpdatesEnabled]

theorem errMsg_foldl (lock : Nat → Option Proxy) (weakFromThis : Nat → WeakRef)
    (update : Nat → Outcome) (d : Drain) (xs : List Nat) :
    (xs.foldl (Drain.step lock weakFromThis update) d).errMsg =
      (((drainOutcomes lock weakFromThis update xs).filterMap Outcome.what?).getLast?).getD
        d.errMsg := by
  induction xs generalizing d with
  | nil => rfl
  | cons x xs ih =>
    rw [List.foldl_cons, ih]
    unfold drainOutcomes
    rw [List.filterMap_cons]
    unfold Drain.step
    cases hx : lock x with
    | none => rfl
    | some p =>
      simp only [Option.map_some']
      cases ho : (p.update weakFromThis update).2 with
      | returned => simp [Outcome.what?]
      | otherException => simp [Outcome.what?]
      | stdException what =>
        simp only [List.filterMap_cons, Outcome.what?]
        cases hl : (List.filterMap Outcome.what?
            (List.filterMap (fun i => (lock i).map (fun p => (p.update weakFromThis update).2))
              xs)).getLast? with
        | none =>
          rw [List.getLast?_eq_none_iff] at hl
          simp [hl]
        | some v =>
          cases hys : List.filterMap Outcome.what?
              (List.filterMap (fun i => (lock i).map (fun p => (p.update weakFromThis update).2))
                xs) with
          | nil => simp [hys] at hl
          | cons y ys =>
            rw [hys] at hl
            rw [List.getLast?_cons_cons, hl]
            rfl

end ThreadSafe

/-! ## Lemmas on the observers of the thread-safe variant -/

namespace ThreadSafe

theorem registrations_append (a b : List Call) :
    registrations (a ++ b) = registrations a ++ registrations b := by
  induction a with
  | nil => rfl
  | cons c a ih =>
    cases c <;> simp [registrations, ih]

theorem registeredProxies_eq_map (a : List Call) :
    registeredProxies a = (registrations a).map Prod.snd := by
  induction a with
  | nil => rfl
  | cons c a ih =>
    cases c <;> simp [registrations, registeredProxies, ih]

theorem World.Registers.refl (l : Nat) (w : World) : w.Registers l [] w :=
  ⟨[], by simp, rfl, fun h => absurd rfl h, fun _ h => h⟩

theorem World.Registers.trans {l : Nat} {s1 s2 : List Nat} {u v w : World}
    (h1 : u.Registers l s1 v) (h2 : v.Registers l s2 w) : u.Registers l (s1 ++ s2) w := by
  obtain ⟨a1, e1, r1, n1, t1⟩ := h1
  obtain ⟨a2, e2, r2, n2, t2⟩ := h2
  have hsame : s1.map (fun s => (s, v.proxy_ l)) = s1.map (fun s => (s, w.proxy_ l)) := by
    cases s1 with
    | nil => rfl
    | cons x xs =>
      obtain ⟨g, hg⟩ := n1 (by simp)
      rw [hg, t2 g hg]
  refine ⟨a1 ++ a2, by rw [e2, e1, List.append_assoc], ?_, ?_, fun g hg => t2 g (t1 g hg)⟩
  · rw [registrations_append, r1, r2, hsame, List.map_append]
  · intro hne
    cases s2 with
    | nil =>
      have h1ne : s1 ≠ [] := by simpa using hne
      obtain ⟨g, hg⟩ := n1 h1ne
      exact ⟨g, t2 g hg⟩
    | cons x xs => exact n2 (by simp)

theorem registers_of_same {l : Nat} {w v : World} (hlog : v.log = w.log)
    (hp : v.proxy_ l = w.proxy_ l) : w.Registers l [] v :=
  ⟨[], by simp [hlog], rfl, fun h => absurd rfl h, fun g hg => by rw [hp]; exact hg⟩

theorem registers_register (l : Nat) (w : World) (s g : Nat) (hg : w.proxy_ l = some g) :
    w.Registers l [s] (w.call (.registerObserver s (w.proxy_ l))) :=
  ⟨[.registerObserver s (w.proxy_ l)], rfl, rfl, fun _ => ⟨g, hg⟩, fun _ h => h⟩

theorem registers_unregister (l : Nat) (w : World) (s : Nat) (p : Option Nat) (d : Bool) :
    w.Registers l [] (w.call (.unregisterObserver s p d)) :=
  ⟨[.unregisterObserver s p d], rfl, rfl, fun h => absurd rfl h, fun _ h => h⟩

theorem ensureProxy_isSome (w : World) (l : Nat) : ∃ g, (w.ensureProxy l).proxy_ l = some g := by
  unfold World.ensureProxy
  cases h : w.proxy_ l with
  | none => exact ⟨w.allocated, by simp [World.resetProxy]⟩
  | some g => exact ⟨g, h⟩

theorem ensureProxy_observables (w : World) (l : Nat) :
    (w.ensureProxy l).observables_ = w.observables_ := by
  unfold World.ensureProxy
  cases w.proxy_ l <;> rfl

theorem registers_ensureProxy (w : World) (l : Nat) : w.Registers l [] (w.ensureProxy l) := by
  unfold World.ensureProxy
  cases h : w.proxy_ l with
  | none =>
    refine ⟨[], by simp [World.resetProxy], rfl, fun h => absurd rfl h, ?_⟩
    intro g hg
    rw [h] at hg
    exact absurd hg (by simp)
  | some g => exact World.Registers.refl l w

theorem registers_registerLoop (l : Nat) (xs : List Nat) (w : World) (g : Nat)
    (hg : w.proxy_ l = some g) : w.Registers l xs (Observer.registerLoop w l xs) := by
  induction xs generalizing w with
  | nil => exact World.Registers.refl l w
  | cons x xs ih =>
    exact (registers_register l w x g hg).trans
      (ih (w.call (.registerObserver x (w.proxy_ l))) hg)

theorem registers_unregisterLoop (l : Nat) (d : Bool) (xs : List Nat) (w : World) :
    w.Registers l [] (Observer.unregisterLoop w l d xs) := by
  induction xs generalizing w with
  | nil => exact World.Registers.refl l w
  | cons x xs ih =>
    exact (registers_unregister l w x (w.proxy_ l) d).trans
      (ih (w.call (.unregisterObserver x (w.proxy_ l) d)))

theorem ts_registerLoop_observables (l : Nat) (xs : List Nat) (w : World) :
    (Observer.registerLoop w l xs).observables_ = w.observables_ := by
  induction xs generalizing w with
  | nil => rfl
  | cons x xs ih => exact ih (w.call (.registerObserver x (w.proxy_ l)))

theorem ts_unregisterLoop_observables (l : Nat) (d : Bool) (xs : List Nat) (w : World) :
    (Observer.unregisterLoop w l d xs).observables_ = w.observables_ := by
  induction xs generalizing w with
  | nil => rfl
  | cons x xs ih => exact ih (w.call (.unregisterObserver x (w.proxy_ l) d))

theorem registers_registerWith (w : World) (l : Nat) (h : Option Nat) :
    w.Registers l h.toList (Observer.registerWith w l h).1 := by
  obtain ⟨g, hg⟩ := ensureProxy_isSome w l
  cases h with
  | none => exact registers_ensureProxy w l
  | some p =>
    have h1 := (registers_ensureProxy w l).trans
      ((registers_register l (w.ensureProxy l) p g hg).trans
        (registers_of_same (v := (Observer.registerWith w l (some p)).1) rfl rfl))
    simpa using h1

theorem registers_registerWithLoop (l : Nat) (xs : List Nat) (w : World) :
    w.Registers l xs (Observer.registerWithLoop w l xs) := by
  induction xs generalizing w with
  | nil => exact World.Registers.refl l w
  | cons x xs ih =>
    exact (registers_registerWith w l (some x)).trans
      (ih (Observer.registerWith w l (some x)).1)

theorem registers_unregisterWith (w : World) (l : Nat) (h : Option Nat) :
    w.Registers l [] (Observer.unregisterWith w l h).1 := by
  cases h with
  | none => exact World.Registers.refl l w
  | some p =>
    unfold Observer.unregisterWith
    cases hp : w.proxy_ l with
    | none => exact registers_of_same (by simp [hp]) (by simp [hp, Function.update])
    | some g =>
      exact (registers_unregister l w p (some g) true).trans
        (registers_of_same (by simp [hp]) (by simp [hp]))

theorem registers_assign (w : World) (l o : Nat) :
    w.Registers l (elements (w.observables_ o)) (Observer.assign w l o) := by
  obtain ⟨g, hg⟩ := ensureProxy_isSome w l
  have h1 := registers_ensureProxy w l
  have h2 := registers_unregisterLoop l true (elements ((w.ensureProxy l).observables_ l))
    (w.ensureProxy l)
  have hg2 : (Observer.unregisterLoop (w.ensureProxy l) l true
      (elements ((w.ensureProxy l).observables_ l))).proxy_ l = some g := by
    obtain ⟨_, _, _, _, hs⟩ := h2
    exact hs g hg
  have h3 : (Observer.unregisterLoop (w.ensureProxy l) l true
      (elements ((w.ensureProxy l).observables_ l))).Registers l []
      { (Observer.unregisterLoop (w.ensureProxy l) l true
          (elements ((w.ensureProxy l).observables_ l))) with
        observables_ := Function.update (Observer.unregisterLoop (w.ensureProxy l) l true
          (elements ((w.ensureProxy l).observables_ l))).observables_ l
          ((Observer.unregisterLoop (w.ensureProxy l) l true
            (elements ((w.ensureProxy l).observables_ l))).observables_ o) } :=
    registers_of_same rfl rfl
  have h4 := registers_registerLoop l
    (elements (w.observables_ o))
    { (Observer.unregisterLoop (w.ensureProxy l) l true
        (elements ((w.ensureProxy l).observables_ l))) with
      observables_ := Function.update (Observer.unregisterLoop (w.ensureProxy l) l true
        (elements ((w.ensureProxy l).observables_ l))).observables_ l
        ((Observer.unregisterLoop (w.ensureProxy l) l true
          (elements ((w.ensureProxy l).observables_ l))).observables_ o) } g hg2
  have hsrc : (Function.update (Observer.unregisterLoop (w.ensureProxy l) l true
      (elements ((w.ensureProxy l).observables_ l))).observables_ l
      ((Observer.unregisterLoop (w.ensureProxy l) l true
        (elements ((w.ensureProxy l).observables_ l))).observables_ o)) l =
      w.observables_ o := by
    rw [Function.update_same, ts_unregisterLoop_observables, ensureProxy_observables]
  have h5 := ((h1.trans h2).trans h3).trans h4
  unfold Observer.assign
  simp only [hsrc]
  simpa using h5

theorem registers_apply (w : World) (l : Nat) (op : ObserverOp) :
    w.Registers l (op.registers w) (op.apply w l) := by
  cases op with
  | registerWith h => exact registers_registerWith w l h
  | unregisterWith h => exact registers_unregisterWith w l h
  | unregisterWithAll =>
    have h := (registers_unregisterLoop l true (elements (w.observables_ l)) w).trans
      (registers_of_same (v := Observer.unregisterWithAll w l) rfl rfl)
    simpa using h
  | registerWithObservables o =>
    cases o with
    | none => exact World.Registers.refl l w
    | some q => exact registers_registerWithLoop l _ w
  | assign o => exact registers_assign w l o

theorem registers_run (l : Nat) (ops : List ObserverOp) (w : World) :
    w.Registers l (runRegisters w l ops) (runObserverOps w l ops) := by
  induction ops generalizing w with
  | nil => exact World.Registers.refl l w
  | cons op rest ih => exact (registers_apply w l op).trans (ih (op.apply w l))

theorem ts_registerWith_observables (w : World) (l : Nat) (h : Option Nat) (s : Nat)
    (hs : s ∈ (Observer.registerWith w l h).1.observables_ l) :
    s ∈ w.observables_ l ∨ s ∈ h.toList := by
  cases h with
  | none =>
    simp only [Observer.registerWith, ensureProxy_observables] at hs
    exact Or.inl hs
  | some p =>
    simp only [Observer.registerWith, World.call, ensureProxy_observables,
      Function.update_same, Finset.mem_insert] at hs
    rcases hs with h1 | h1
    · exact Or.inr (by simp [h1])
    · exact Or.inl h1

theorem ts_registerWithLoop_observables (l : Nat) (xs : List Nat) (w : World) (s : Nat)
    (hs : s ∈ (Observer.registerWithLoop w l xs).observables_ l) :
    s ∈ w.observables_ l ∨ s ∈ xs := by
  induction xs generalizing w with
  | nil => exact Or.inl hs
  | cons x xs ih =>
    rcases ih (Observer.registerWith w l (some x)).1 hs with h1 | h1
    · rcases ts_registerWith_observables w l (some x) s h1 with h2 | h2
      · exact Or.inl h2
      · exact Or.inr (by simpa using Or.inl (by simpa using h2))
    · exact Or.inr (List.mem_cons_of_mem _ h1)

theorem ts_apply_observables (w : World) (l : Nat) (op : ObserverOp) (s : Nat)
    (hs : s ∈ (op.apply w l).observables_ l) :
    s ∈ w.observables_ l ∨ s ∈ op.registers w := by
  cases op with
  | registerWith h => exact ts_registerWith_observables w l h s hs
  | unregisterWith h =>
    cases h with
    | none => exact Or.inl hs
    | some p =>
      left
      simp only [ObserverOp.apply, Observer.unregisterWith] at hs
      cases hp : w.proxy_ l with
      | none =>
        simp only [hp, Function.update_same, Finset.mem_erase] at hs
        exact hs.2
      | some g =>
        simp only [hp, World.call, Function.update_same, Finset.mem_erase] at hs
        exact hs.2
  | unregisterWithAll =>
    simp [ObserverOp.apply, Observer.unregisterWithAll] at hs
  | registerWithObservables o =>
    cases o with
    | none => exact Or.inl hs
    | some q => exact ts_registerWithLoop_observables l _ w s hs
  | assign o =>
    right
    simp only [ObserverOp.apply, Observer.assign, ts_registerLoop_observables,
      Function.update_same, ts_unregisterLoop_observables, ensureProxy_observables] at hs
    exact (mem_elements _ _).mpr hs

theorem guardHanded_apply (w : World) (l : Nat) (op : ObserverOp) (h : w.GuardHanded l) :
    (op.apply w l).GuardHanded l := by
  obtain ⟨added, hlog, hreg, hne, hstable⟩ := registers_apply w l op
  intro s hs
  rcases ts_apply_observables w l op s hs with h1 | h1
  · obtain ⟨⟨g, hg⟩, hmem⟩ := h s h1
    refine ⟨⟨g, hstable g hg⟩, ?_⟩
    rw [hlog, registrations_append, List.mem_append, hstable g hg]
    left
    rw [hg] at hmem
    exact hmem
  · refine ⟨hne (List.ne_nil_of_mem h1), ?_⟩
    rw [hlog, registrations_append, List.mem_append, hreg]
    right
    exact List.mem_map.mpr ⟨s, h1, rfl⟩

theorem guardHanded_run (l : Nat) (ops : List ObserverOp) (w : World) (h : w.GuardHanded l) :
    (runObserverOps w l ops).GuardHanded l := by
  induction ops generalizing w with
  | nil => exact h
  | cons op rest ih => exact ih (op.apply w l) (guardHanded_apply w l op h)

theorem ts_unregisterLoop_log (l : Nat) (d : Bool) (xs : List Nat) (w : World) :
    (Observer.unregisterLoop w l d xs).log =
        w.log ++ xs.map (fun s => Call.unregisterObserver s (w.proxy_ l) d) ∧
      (Observer.unregisterLoop w l d xs).proxies = w.proxies ∧
      (Observer.unregisterLoop w l d xs).proxy_ = w.proxy_ := by
  induction xs generalizing w with
  | nil => simp [Observer.unregisterLoop]
  | cons x xs ih =>
    obtain ⟨h1, h2, h3⟩ := ih (w.call (.unregisterObserver x (w.proxy_ l) d))
    refine ⟨?_, ?_, ?_⟩
    · simp only [Observer.unregisterLoop, List.foldl_cons] at h1 ⊢
      rw [h1]
      simp [World.call]
    · simp only [Observer.unregisterLoop, List.foldl_cons] at h2 ⊢
      rw [h2]
      rfl
    · simp only [Observer.unregisterLoop, List.foldl_cons] at h3 ⊢
      rw [h3]
      rfl

end ThreadSafe

/-! ## Lemmas on the path pricers -/

theorem elementAt_of_lt (v : List ℚ) (i : Nat) (h : i < v.length) :
    elementAt v i = .returned (v.getD i 0) := by
  unfold elementAt
  rw [List.getD_eq_getElem?_getD, List.getElem?_eq_getElem h]
  rfl

theorem lastOf_of_length (v : List ℚ) (n : Nat) (h : v.length = n) (hn : 0 < n) :
    lastOf v = .returned (v.getD (n - 1) 0) := by
  unfold lastOf
  have hne : v ≠ [] := by
    intro h0
    rw [h0] at h
    simp at h
    omega
  rw [List.getLast?_eq_getLast v hne, List.getLast_eq_getElem, List.getD_eq_getElem?_getD,
    List.getElem?_eq_getElem (by omega)]
  simp [h]

theorem ContinuousSnowballPathPricer.loop_eq (c : ContinuousSnowballPathPricer) (path : Path)
    (n : Nat) (hv : path.values.length = n) (ht : path.timeGrid.length = n)
    (hD : c.discounts_.length = n) (hn : 0 < n) (idx : List Nat) (hidx : ∀ i ∈ idx, i < n)
    (k0 : Bool) (p0 : ℚ) :
    c.loop path idx k0 p0 = .returned
      (match idx.find? (fun k => decide (path.values.getD k 0 ≥ c.knockOutLevel_)) with
      | some k =>
        .returns (c.principal_ * (1 + c.couponRate_ * path.timeGrid.getD k 0) *
          (if c.payAtMaturity_ then c.discounts_.getD (n - 1) 0 else c.discounts_.getD k 0))
      | none =>
        .completes (k0 || idx.any (fun i => decide (path.values.getD i 0 ≤ c.knockInLevel_)))
          ((idx.getLast?.map (fun i => path.values.getD i 0)).getD p0)) := by
  induction idx generalizing k0 p0 with
  | nil => simp [ContinuousSnowballPathPricer.loop]
  | cons i rest ih =>
    have hi : i < n := hidx i (List.mem_cons_self _ _)
    have hrest : ∀ j ∈ rest, j < n := fun j hj => hidx j (List.mem_cons_of_mem _ hj)
    unfold ContinuousSnowballPathPricer.loop
    rw [elementAt_of_lt _ _ (by omega : i < path.values.length)]
    simp only [Flow.bind]
    by_cases hko : path.values.getD i 0 ≥ c.knockOutLevel_
    · rw [if_pos hko, List.find?_cons_of_pos _ (by simpa using hko)]
      rw [elementAt_of_lt _ _ (by omega : i < path.timeGrid.length)]
      cases hpay : c.payAtMaturity_ with
      | true =>
        simp only [if_true, Flow.bind]
        rw [lastOf_of_length _ n hD hn]
      | false =>
        simp only [Bool.false_eq_true, if_false, Flow.bind]
        rw [elementAt_of_lt _ _ (by omega : i < c.discounts_.length)]
    · rw [if_neg hko, List.find?_cons_of_neg _ (by simpa using hko), ih hrest]
      congr 1
      cases hf : rest.find? (fun k => decide (path.values.getD k 0 ≥ c.knockOutLevel_)) with
      | some k => rfl
      | none =>
        simp only
        congr 1
        · cases k0 <;> by_cases hki : path.values.getD i 0 ≤ c.knockInLevel_ <;>
            simp [hki]
        · cases rest with
          | nil => simp
          | cons j rest2 =>
            have hl : (j :: rest2).getLast? = some ((j :: rest2).getLast (by simp)) :=
              List.getLast?_eq_getLast _ _
            rw [List.getLast?_cons_cons, hl]
            rfl

theorem knockOut_loop (null : Nat) (crossed : Nat → ℚ → ℚ → Bool) (path : Path) (n : Nat)
    (hv : path.values.length = n) (len : Nat) :
    ∀ (a : Nat) (st : BarrierLoop), a + len < n →
      KnockOutInvariant null crossed path n a st →
      ∃ st2, ParticipationBarrierPathPricer.loop null crossed false path
          (List.range' a len) st = .returned st2 ∧
        KnockOutInvariant null crossed path n (a + len) st2 := by
  induction len with
  | zero =>
    intro a st _ hinv
    exact ⟨st, rfl, hinv⟩
  | succ len ih =>
    intro a st ha hinv
    obtain ⟨hprice, hcases⟩ := hinv
    rw [List.range'_succ]
    unfold ParticipationBarrierPathPricer.loop
    rw [elementAt_of_lt _ _ (by omega : a + 1 < path.values.length)]
    simp only [Flow.bind]
    have hstep : a + 1 + len < n := by omega
    have hidx : a + (len + 1) = a + 1 + len := by omega
    rw [hidx]
    apply ih (a + 1) _ hstep
    refine ⟨rfl, ?_⟩
    have hc : crossed a st.asset_price (path.values.getD (a + 1) 0) = crossedAt crossed path a := by
      rw [hprice]
      rfl
    rw [hc]
    cases hx : crossedAt crossed path a with
    | false =>
      simp only [Bool.false_eq_true, if_false]
      rcases hcases with ⟨h1, h2, h3⟩ | ⟨h1, h2, h3, i, hi, hf, hk⟩
      · refine Or.inl ⟨h1, h2, ?_⟩
        intro j hj
        rcases Nat.lt_succ_iff_lt_or_eq.mp hj with hlt | heq
        · exact h3 j hlt
        · rw [heq]; exact hx
      · exact Or.inr ⟨h1, h2, by omega, i, by omega, hf, hk⟩
    | true =>
      simp only [if_true]
      right
      rcases hcases with ⟨_, h2, h3⟩ | ⟨_, h2, h3, i, hi, hf, hk⟩
      · refine ⟨trivial, ?_, ?_, a, by omega, ⟨hx, h3⟩, ?_⟩
        · simp only [h2, if_true]; omega
        · simp only [h2, if_true]; omega
        · intro _
          simp only [h2, if_true]
      · refine ⟨trivial, ?_, ?_, i, by omega, hf, ?_⟩
        · show 1 ≤ (if st.knockNode = null then a + 1 else st.knockNode)
          split <;> omega
        · show (if st.knockNode = null then a + 1 else st.knockNode) ≤ a + 1
          split <;> omega
        · intro hnull
          have hki := hk hnull
          show (if st.knockNode = null then a + 1 else st.knockNode) = i + 1
          rw [if_neg (by omega)]
          exact hki

theorem knockOut_simulate (null : Nat) (crossed : Nat → ℚ → ℚ → Bool) (path : Path) (n : Nat)
    (hv : path.values.length = n) (hn : 1 < n) :
    ∃ st, ParticipationBarrierPathPricer.loop null crossed false path (List.range (n - 1))
        { isOptionActive := true, knockNode := null, asset_price := path.values.getD 0 0 } =
          .returned st ∧
      KnockOutInvariant null crossed path n (n - 1) st := by
  have h := knockOut_loop null crossed path n hv (n - 1) 0
    { isOptionActive := true, knockNode := null, asset_price := path.values.getD 0 0 }
    (by omega) ⟨rfl, Or.inl ⟨rfl, rfl, fun j hj => absurd hj (Nat.not_lt_zero j)⟩⟩
  rw [Nat.zero_add, ← List.range_eq_range'] at h
  exact h

theorem barrier_loop_append (null : Nat) (crossed : Nat → ℚ → ℚ → Bool) (whenCrossed : Bool)
    (path : Path) (xs ys : List Nat) (st : BarrierLoop) :
    ParticipationBarrierPathPricer.loop null crossed whenCrossed path (xs ++ ys) st =
      (ParticipationBarrierPathPricer.loop null crossed whenCrossed path xs st).bind
        (ParticipationBarrierPathPricer.loop null crossed whenCrossed path ys) := by
  induction xs generalizing st with
  | nil => rfl
  | cons i rest ih =>
    rw [List.cons_append]
    unfold ParticipationBarrierPathPricer.loop
    cases elementAt path.values (i + 1) with
    | returned x => simp only [Flow.bind, ih]
    | failed m => rfl
    | undefined => rfl

theorem flatPath_elementAt (n i : Nat) (h : i < n) :
    elementAt (flatPath n).values i = .returned 0 := by
  rw [elementAt_of_lt _ _ (by simpa [flatPath] using h)]
  simp [flatPath, List.getD_eq_getElem?_getD, List.getElem?_replicate, h]

theorem flat_loop_idle (null n : Nat) (crossed : Nat → ℚ → ℚ → Bool) (whenCrossed : Bool)
    (xs : List Nat) (st : BarrierLoop)
    (hx : ∀ i ∈ xs, i + 1 < n ∧ crossed i 0 0 = false) (hp : st.asset_price = 0) :
    ParticipationBarrierPathPricer.loop null crossed whenCrossed (flatPath n) xs st =
      .returned st := by
  induction xs with
  | nil => rfl
  | cons i rest ih =>
    obtain ⟨hi, hc⟩ := hx i (List.mem_cons_self i rest)
    unfold ParticipationBarrierPathPricer.loop
    rw [flatPath_elementAt n (i + 1) hi]
    simp only [Flow.bind, hp, hc, Bool.false_eq_true, if_false]
    have hst : { st with asset_price := 0 } = st := by
      cases st
      simp only at hp
      simp [hp]
    rw [hst]
    exact ih (fun j hj => hx j (List.mem_cons_of_mem i hj))

theorem flat_loop_crossing (null n i : Nat) (crossed : Nat → ℚ → ℚ → Bool)
    (whenCrossed : Bool) (st : BarrierLoop) (hi : i + 1 < n) (hc : crossed i 0 0 = true)
    (hp : st.asset_price = 0) (hk : st.knockNode = null) :
    ParticipationBarrierPathPricer.loop null crossed whenCrossed (flatPath n) [i] st =
      .returned { isOptionActive := whenCrossed, knockNode := i + 1, asset_price := 0 } := by
  unfold ParticipationBarrierPathPricer.loop
  rw [flatPath_elementAt n (i + 1) hi]
  simp only [Flow.bind, hp, hc, hk, if_true]
  rfl

/-- For every value `m + 1` of the sentinel there is a path of `m + 3` nodes on
which the down-and-out loop ends with the option inactive and `knockNode` equal
to the sentinel: the barrier test succeeds at the step `m` only. -/
theorem sentinel_collision (m : Nat) (crossedUp : Nat → ℚ → ℚ → Bool) :
    (knockOutPricer (List.replicate (m + 3) 1)).simulate (m + 1)
        (fun i _ _ => decide (i = m)) crossedUp (flatPath (m + 3)) =
      .returned { isOptionActive := false, knockNode := m + 1, asset_price := 0 } := by
  unfold ParticipationBarrierPathPricer.simulate
  rw [flatPath_elementAt (m + 3) 0 (by omega)]
  have hlen : (flatPath (m + 3)).length - 1 = m + 1 + 1 := by
    simp [flatPath, Path.length]
  simp only [Flow.bind, knockOutPricer, hlen]
  rw [List.range_succ, List.range_succ, barrier_loop_append, barrier_loop_append,
    flat_loop_idle (m + 1) (m + 3) _ false (List.range m) _
      (fun i hi => ⟨by have := List.mem_range.mp hi; omega,
        by have := List.mem_range.mp hi; simp; omega⟩) rfl]
  simp only [Flow.bind]
  rw [flat_loop_crossing (m + 1) (m + 3) m _ false _ (by omega) (by simp) rfl rfl]
  simp only [Flow.bind]
  exact flat_loop_idle (m + 1) (m + 3) _ false [m + 1] _
    (fun i hi => ⟨by have := List.mem_singleton.mp hi; omega,
      by have := List.mem_singleton.mp hi; simp; omega⟩) rfl

/-! ## The claims -/

/-- C1. Symmetry invariant of the single-threaded variant: starting from a world
without links, after every admissible finite sequence of observer constructions,
copy constructions, assignments, destructions, `registerWith`,
`registerWithObservables`, `unregisterWith` and `unregisterWithAll` calls
(interleaved with `disableUpdates` and notifications while disabled), every
constructed listener `l` is in `s.observers_` if and only if `s` is in
`l.observables_`, for every source `s`. -/
theorem symmetry_invariant (w : World) (ops : List Op) (h0 : w.NoLinks)
    (ha : admissibleOps w ops = true) (s l : Nat) (_hl : l ∈ (runOps w ops).live) :
    l ∈ (runOps w ops).observers_ s ↔ s ∈ (runOps w ops).observables_ l :=
  (runOps_symmetric w ops h0.symmetric h0.deadEmpty ha).1 s l

theorem symmetry_invariant_witness :
    World.empty.NoLinks ∧ admissibleOps World.empty symmetryScenario = true ∧
      2 ∈ (runOps World.empty symmetryScenario).live ∧
      (2 ∈ (runOps World.empty symmetryScenario).observers_ 8 ↔
        8 ∈ (runOps World.empty symmetryScenario).observables_ 2) :=
  ⟨⟨fun _ => rfl, fun _ => rfl⟩, by decide, by decide,
   symmetry_invariant World.empty symmetryScenario ⟨fun _ => rfl, fun _ => rfl⟩
     (by decide) 8 2 (by decide)⟩

/-- C2. After the admissible sequence `danglingScenario` the destroyed listener 1
is still a member of `deferredObservers_`: the destructor runs
`Observable::unregisterObserver`, which erases the listener from the pending set
only while `updatesDeferred()` holds, and `disableUpdates(false)` has switched
that off without emptying the set.  A following drain of the pending set
invokes `update()` on the destroyed listener. -/
theorem destroyed_listener_stays_pending :
    admissibleOps World.empty danglingScenario = true ∧
      1 ∉ (runOps World.empty danglingScenario).live ∧
      1 ∈ (runOps World.empty danglingScenario).settings_.deferredObservers_ ∧
      ((runOps World.empty danglingScenario).settings_.enableUpdates
        (fun _ => .returned)).2.1.calls = [1] := by
  decide

/-- C3. Notify fan-out: while updates are enabled, `notifyObservers()` on the
source `s` invokes `update()` exactly once on every listener in `s.observers_`
and on no other listener, whatever the outcome of the individual calls, and
leaves the world as it was. -/
theorem notify_fan_out (w : World) (s : Nat) (update : Nat → Outcome)
    (he : w.settings_.updatesEnabled = true) :
    (∀ l, (Observable.notifyObservers w s update).2.1.calls.count l =
        if l ∈ w.observers_ s then 1 else 0) ∧
      (Observable.notifyObservers w s update).1.observers_ = w.observers_ ∧
      (Observable.notifyObservers w s update).1.observables_ = w.observables_ := by
  unfold Observable.notifyObservers
  rw [if_pos he]
  refine ⟨fun l => ?_, rfl, rfl⟩
  show ((elements (w.observers_ s)).foldl (Delivery.step update) Delivery.start).calls.count l = _
  rw [Delivery.calls_foldl]
  simp only [Delivery.start, List.nil_append]
  exact count_elements _ l

theorem notify_fan_out_witness :
    fanOut.settings_.updatesEnabled = true ∧
      (∀ l, (Observable.notifyObservers fanOut 7
          (fun l => if l = 2 then .otherException else .returned)).2.1.calls.count l =
        if l ∈ fanOut.observers_ 7 then 1 else 0) :=
  ⟨by decide, (notify_fan_out fanOut 7 _ (by decide)).1⟩

/-- C4. Defer-and-flush deduplication.  Single-threaded pending set: from an
empty pending set, after `disableUpdates(true)` and the queuing of two listener
sets that both hold the listener `l` through `registerDeferredObservers`, a
traversal of `deferredObservers_` meets `l` exactly once.  Thread-safe variant:
when the guard `g` of the live listener `l` is in both queued guard sets and is
the only queued guard of `l`, `enableUpdates()` invokes `Proxy::update()` on `g`
exactly once and `update()` on `l` exactly once. -/
theorem defer_and_flush_deduplicates (s : ObservableSettings)
    (t : ThreadSafe.ObservableSettings) (o1 o2 p1 p2 : Finset Nat) (g l : Nat)
    (lock : Nat → Option ThreadSafe.Proxy) (weakFromThis : Nat → ThreadSafe.WeakRef)
    (update : Nat → Outcome)
    (hs : s.deferredObservers_ = ∅) (hl1 : l ∈ o1) (_hl2 : l ∈ o2)
    (ht : t.deferredObservers_ = ∅) (hg1 : g ∈ p1) (_hg2 : g ∈ p2)
    (hg : lock g = some { active_ := true, observer_ := l })
    (hw : weakFromThis l ≠ .expired)
    (huniq : ∀ i ∈ p1 ∪ p2, ∀ p, lock i = some p → p.observer_ = l → i = g) :
    (elements (((s.disableUpdates true).registerDeferredObservers
        o1).registerDeferredObservers o2).deferredObservers_).count l = 1 ∧
      ((((t.disableUpdates true).registerDeferredObservers p1).registerDeferredObservers
          p2).enableUpdates lock weakFromThis update).2.1.proxyCalls.count g = 1 ∧
      ((((t.disableUpdates true).registerDeferredObservers p1).registerDeferredObservers
          p2).enableUpdates lock weakFromThis update).2.1.updateCalls.count l = 1 := by
  have hp : (((t.disableUpdates true).registerDeferredObservers p1).registerDeferredObservers
      p2).deferredObservers_ = p1 ∪ p2 := by
    simp [ThreadSafe.ObservableSettings.registerDeferredObservers,
      ThreadSafe.ObservableSettings.disableUpdates, ht]
  refine ⟨?_, ?_, ?_⟩
  · rw [count_elements]
    simp [ObservableSettings.registerDeferredObservers, ObservableSettings.disableUpdates,
      ObservableSettings.updatesDeferred, hs, hl1]
  · rw [ThreadSafe.count_proxyCalls_enableUpdates, hp]
    simp [hg1, hg]
  · rw [ThreadSafe.updateCalls_enableUpdates, hp]
    apply count_flatten_map_of_unique _ g l _ (nodup_elements _)
    · rw [mem_elements]; exact Finset.mem_union_left _ hg1
    · simp only [hg, ThreadSafe.Proxy.update_calls]
      simp [hw]
    · intro i hi hne
      rw [mem_elements] at hi
      cases hli : lock i with
      | none => simp
      | some p =>
        simp only [ThreadSafe.Proxy.update_calls]
        split
        · intro hmem
          rw [List.mem_singleton] at hmem
          exact hne (huniq i hi p hli hmem.symm)
        · simp

theorem defer_and_flush_deduplicates_witness :
    (elements (((ObservableSettings.fresh.disableUpdates true).registerDeferredObservers
        {1, 2}).registerDeferredObservers {1, 3}).deferredObservers_).count 1 = 1 ∧
      ((((ThreadSafe.ObservableSettings.fresh.disableUpdates true).registerDeferredObservers
        {10, 20}).registerDeferredObservers {10, 30}).enableUpdates
        (fun i => some { active_ := true, observer_ := i / 10 })
        (fun _ => .empty) (fun _ => .returned)).2.1.proxyCalls.count 10 = 1 ∧
      ((((ThreadSafe.ObservableSettings.fresh.disableUpdates true).registerDeferredObservers
        {10, 20}).registerDeferredObservers {10, 30}).enableUpdates
        (fun i => some { active_ := true, observer_ := i / 10 })
        (fun _ => .empty) (fun _ => .returned)).2.1.updateCalls.count 1 = 1 :=
  defer_and_flush_deduplicates ObservableSettings.fresh ThreadSafe.ObservableSettings.fresh
    {1, 2} {1, 3} {10, 20} {10, 30} 10 1
    (fun i => some { active_ := true, observer_ := i / 10 }) (fun _ => .empty)
    (fun _ => .returned) rfl (by decide) (by decide) rfl (by decide) (by decide) rfl
    (by decide) (by decide)

/-- C5. Drop-while-disabled: from an empty pending set, after
`disableUpdates(false)`, `registerDeferredObservers` inserts nothing, a
notification of any source invokes no `update()`, returns normally and leaves
the pending set empty, and a following `enableUpdates()` invokes no `update()`
either; the thread-safe `enableUpdates()` on an empty pending set invokes
nothing as well. -/
theorem drop_while_disabled (w : World) (s : Nat) (update : Nat → Outcome)
    (h0 : w.settings_.deferredObservers_ = ∅) :
    (w.settings_.disableUpdates false).registerDeferredObservers (w.observers_ s) =
        w.settings_.disableUpdates false ∧
      (Observable.notifyObservers { w with settings_ := w.settings_.disableUpdates false }
        s update).2.1.calls = [] ∧
      (Observable.notifyObservers { w with settings_ := w.settings_.disableUpdates false }
        s update).2.2 = .returned ∧
      (Observable.notifyObservers { w with settings_ := w.settings_.disableUpdates false }
        s update).1.settings_.deferredObservers_ = ∅ ∧
      ((Observable.notifyObservers { w with settings_ := w.settings_.disableUpdates false }
        s update).1.settings_.enableUpdates update).2.1.calls = [] ∧
      (∀ (t : ThreadSafe.ObservableSettings) (lock : Nat → Option ThreadSafe.Proxy)
        (weakFromThis : Nat → ThreadSafe.WeakRef), t.deferredObservers_ = ∅ →
        ((t.disableUpdates false).enableUpdates lock weakFromThis update).2.1.updateCalls
          = []) := by
  have hreg : (w.settings_.disableUpdates false).registerDeferredObservers (w.observers_ s) =
      w.settings_.disableUpdates false := by
    simp [ObservableSettings.registerDeferredObservers, ObservableSettings.disableUpdates,
      ObservableSettings.updatesDeferred]
  have hn : Observable.notifyObservers { w with settings_ := w.settings_.disableUpdates false }
      s update =
      ({ w with settings_ := w.settings_.disableUpdates false }, Delivery.start, .returned) := by
    unfold Observable.notifyObservers
    simp only [hreg]
    simp [ObservableSettings.disableUpdates, ObservableSettings.updatesEnabled]
  refine ⟨hreg, ?_, ?_, ?_, ?_, ?_⟩
  · rw [hn]; rfl
  · rw [hn]
  · rw [hn]; exact h0
  · rw [hn]
    simp [ObservableSettings.enableUpdates, ObservableSettings.disableUpdates, h0,
      Delivery.start]
  · intro t lock weakFromThis ht
    rw [ThreadSafe.updateCalls_enableUpdates]
    simp [ThreadSafe.ObservableSettings.disableUpdates, ht, elements_empty]

theorem drop_while_disabled_witness :
    fanOut.settings_.deferredObservers_ = ∅ ∧
      (Observable.notifyObservers
        { fanOut with settings_ := fanOut.settings_.disableUpdates false }
        7 (fun _ => .returned)).2.1.calls = [] :=
  ⟨by decide, (drop_while_disabled fanOut 7 (fun _ => .returned) (by decide)).2.1⟩

/-- C6. Postcondition of the thread-safe `enableUpdates()`: from every settings
state and pending set, `Proxy::update()` is invoked exactly once on every
pending guard that `lock()` still yields and on no other guard, and whether the
call returns or raises the settings end up with `updatesEnabled()` true,
`updatesDeferred()` false and an empty pending set. -/
theorem enableUpdates_postcondition (s : ThreadSafe.ObservableSettings)
    (lock : Nat → Option ThreadSafe.Proxy) (weakFromThis : Nat → ThreadSafe.WeakRef)
    (update : Nat → Outcome) :
    (∀ g, (s.enableUpdates lock weakFromThis update).2.1.proxyCalls.count g =
        if g ∈ s.deferredObservers_ ∧ (lock g).isSome = true then 1 else 0) ∧
      (s.enableUpdates lock weakFromThis update).1.updatesEnabled = true ∧
      (s.enableUpdates lock weakFromThis update).1.updatesDeferred = false ∧
      (s.enableUpdates lock weakFromThis update).1.deferredObservers_ = ∅ := by
  refine ⟨fun g => ThreadSafe.count_proxyCalls_enableUpdates s lock weakFromThis update g,
    ?_, ?_, ?_⟩
  · rw [ThreadSafe.enableUpdates_settings]; decide
  · rw [ThreadSafe.enableUpdates_settings]; decide
  · rw [ThreadSafe.enableUpdates_settings]

/-- C7. Aggregated failure of the thread-safe deferred flush: `enableUpdates()`
raises if and only if the `update()` of some pending listener (reached through
an obtainable, active guard whose listener has not expired) failed; it ends
either normally or with the one error of `QL_ENSURE`; and, raised or not,
`Proxy::update()` has been invoked on every obtainable pending guard and
`update()` on the listener of each of them that is active and not expired. -/
theorem enableUpdates_aggregates_failures (s : ThreadSafe.ObservableSettings)
    (lock : Nat → Option ThreadSafe.Proxy) (weakFromThis : Nat → ThreadSafe.WeakRef)
    (update : Nat → Outcome) :
    ((s.enableUpdates lock weakFromThis update).2.2.isRaised = true ↔
        ∃ g ∈ s.deferredObservers_, ∃ p, lock g = some p ∧ p.active_ = true ∧
          weakFromThis p.observer_ ≠ .expired ∧ (update p.observer_).failed = true) ∧
      ((s.enableUpdates lock weakFromThis update).2.2 = .returned ∨
        (s.enableUpdates lock weakFromThis update).2.2 =
          .raised ("could not notify one or more observers: " ++
            (s.enableUpdates lock weakFromThis update).2.1.errMsg)) ∧
      (∀ g ∈ s.deferredObservers_, ∀ p, lock g = some p →
        g ∈ (s.enableUpdates lock weakFromThis update).2.1.proxyCalls ∧
        (p.active_ = true → weakFromThis p.observer_ ≠ .expired →
          p.observer_ ∈ (s.enableUpdates lock weakFromThis update).2.1.updateCalls)) := by
  refine ⟨?_, ?_, ?_⟩
  · rw [ThreadSafe.enableUpdates_completion, ThreadSafe.successful_enableUpdates]
    cases hall : (elements s.deferredObservers_).all (fun i =>
        match lock i with
        | none => true
        | some p => !(p.update weakFromThis update).2.failed) with
    | true =>
      simp only [ensureSuccessful, if_true, Completion.isRaised, Bool.false_eq_true,
        false_iff, not_exists, not_and]
      intro g hg p hp ha hw hf
      rw [List.all_eq_true] at hall
      have := hall g ((mem_elements _ _).mpr hg)
      simp only [hp, ThreadSafe.Proxy.update_outcome, ha, hw, ne_eq, not_false_eq_true,
        and_self, if_true, hf, Bool.not_true] at this
      exact Bool.false_ne_true this
    | false =>
      simp only [ensureSuccessful, Bool.false_eq_true, if_false, Completion.isRaised,
        true_iff]
      have hex : ∃ i ∈ elements s.deferredObservers_, ¬ ((match lock i with
          | none => true
          | some p => !(p.update weakFromThis update).2.failed) = true) := by
        by_contra hcon
        simp only [not_exists, not_and, not_not] at hcon
        have : (elements s.deferredObservers_).all (fun i =>
            match lock i with
            | none => true
            | some p => !(p.update weakFromThis update).2.failed) = true :=
          List.all_eq_true.mpr hcon
        rw [hall] at this
        exact Bool.false_ne_true this
      obtain ⟨i, hi, hfail⟩ := hex
      rw [mem_elements] at hi
      cases hli : lock i with
      | none => simp [hli] at hfail
      | some p =>
        simp only [hli, ThreadSafe.Proxy.update_outcome, Bool.not_eq_true',
          Bool.not_eq_false] at hfail
        refine ⟨i, hi, p, hli, ?_⟩
        by_cases hc : p.active_ = true ∧ weakFromThis p.observer_ ≠ .expired
        · rw [if_pos hc] at hfail
          exact ⟨hc.1, hc.2, hfail⟩
        · rw [if_neg hc] at hfail
          simp [Outcome.failed] at hfail
  · rw [ThreadSafe.enableUpdates_completion]
    unfold ensureSuccessful
    split
    · exact Or.inl rfl
    · exact Or.inr rfl
  · intro g hg p hp
    constructor
    · have := ThreadSafe.count_proxyCalls_enableUpdates s lock weakFromThis update g
      rw [if_pos ⟨hg, by simp [hp]⟩] at this
      exact List.count_pos_iff.mp (by omega)
    · intro ha hw
      rw [ThreadSafe.updateCalls_enableUpdates, List.mem_flatten]
      refine ⟨[p.observer_], List.mem_map.mpr ⟨g, (mem_elements _ _).mpr hg, ?_⟩,
        List.mem_singleton_self _⟩
      simp only [hp, ThreadSafe.Proxy.update_calls, ha, hw, ne_eq, not_false_eq_true,
        and_self, if_true]

/-- C8. Idempotent link: for every listener `l` and non-null source `s`, the
world after two calls `l.registerWith(s)` equals the world after one call; after
them `l` is in `s.observers_`, a traversal of `s.observers_` meets `l` exactly
once, and the second call leaves the size of `s.observers_` unchanged. -/
theorem registerWith_idempotent (w : World) (l s : Nat) :
    (Observer.registerWith (Observer.registerWith w l (some s)).1 l (some s)).1 =
        (Observer.registerWith w l (some s)).1 ∧
      l ∈ (Observer.registerWith (Observer.registerWith w l (some s)).1 l (some s)).1.observers_ s ∧
      (elements ((Observer.registerWith (Observer.registerWith w l (some s)).1 l
        (some s)).1.observers_ s)).count l = 1 ∧
      ((Observer.registerWith (Observer.registerWith w l (some s)).1 l
        (some s)).1.observers_ s).card =
        ((Observer.registerWith w l (some s)).1.observers_ s).card := by
  have heq : (Observer.registerWith (Observer.registerWith w l (some s)).1 l (some s)).1 =
      (Observer.registerWith w l (some s)).1 := by
    apply World.ext_fields
    · funext a
      ext b
      simp only [Observer.mem_registerWith_observers]
      tauto
    · funext a
      ext b
      simp only [Observer.mem_registerWith_observables]
      tauto
    · rfl
    · rfl
  have hmem : l ∈ (Observer.registerWith w l (some s)).1.observers_ s := by
    rw [Observer.mem_registerWith_observers]
    exact Or.inr ⟨rfl, rfl⟩
  rw [heq]
  refine ⟨rfl, hmem, ?_, rfl⟩
  rw [count_elements, if_pos hmem]

/-- C9 (refuted as stated). On a newly constructed listener, `registerWith(7)`
creates the link and returns the flag `true`, although the source 7 was not in
the listener's source set before the call. -/
theorem registerWith_flag_counterexample :
    ¬ ((Observer.registerWith (Observer.construct World.empty 1) 1 (some 7)).2.2 = true ↔
      7 ∈ (Observer.construct World.empty 1).observables_ 1) := by
  decide

/-- C9 (amended). For every listener `l` and non-null source `s`, the flag
returned by `l.registerWith(s)` is the one of `observables_.insert`: it is true
exactly when the call created the link (`s` was not in `l.observables_` before),
and false exactly when `s` was already present; the iterator of the pair points
at `s`. -/
theorem registerWith_flag (w : World) (l s : Nat) :
    ((Observer.registerWith w l (some s)).2.2 = true ↔ s ∉ w.observables_ l) ∧
      ((Observer.registerWith w l (some s)).2.2 = false ↔ s ∈ w.observables_ l) ∧
      (Observer.registerWith w l (some s)).2.1 = some s := by
  simp [Observer.registerWith, Observable.registerObserver]

/-- C10. Unlink: in a symmetric world, for every listener `l` and non-null
source `s`, `l.unregisterWith(s)` returns 1 if the link existed and 0 otherwise,
and afterwards `l` is not in `s.observers_` and `s` is not in `l.observables_`. -/
theorem unregisterWith_unlinks (w : World) (l s : Nat) (hs : w.Symmetric) :
    (Observer.unregisterWith w l (some s)).2 = (if l ∈ w.observers_ s then 1 else 0) ∧
      l ∉ (Observer.unregisterWith w l (some s)).1.observers_ s ∧
      s ∉ (Observer.unregisterWith w l (some s)).1.observables_ l := by
  refine ⟨?_, ?_, ?_⟩
  · simp only [Observer.unregisterWith, Observer.unregisterObserver_observables]
    by_cases h : l ∈ w.observers_ s
    · rw [if_pos h, if_pos ((hs s l).mp h)]
    · rw [if_neg h, if_neg (fun h2 => h ((hs s l).mpr h2))]
  · rw [Observer.mem_unregisterWith_observers]
    tauto
  · rw [Observer.mem_unregisterWith_observables]
    tauto

theorem unregisterWith_unlinks_witness :
    oneLink.Symmetric ∧ (Observer.unregisterWith oneLink 1 (some 7)).2 = 1 ∧
      1 ∉ (Observer.unregisterWith oneLink 1 (some 7)).1.observers_ 7 :=
  have h : oneLink.Symmetric :=
    (runOps_symmetric World.empty [.construct 1, .registerWith 1 (some 7)]
      (World.NoLinks.symmetric ⟨fun _ => rfl, fun _ => rfl⟩)
      (World.NoLinks.deadEmpty ⟨fun _ => rfl, fun _ => rfl⟩) (by decide)).1
  ⟨h, (unregisterWith_unlinks oneLink 1 7 h).1.trans (by decide),
    (unregisterWith_unlinks oneLink 1 7 h).2.1⟩

/-- C11 (refuted as stated). In `pendingWorld` updates are deferred and the
listener 1 is pending because of the source 7; the source 8 and the listener 1
are not linked, and `unregisterWith(8)` on the listener 1 returns 0 but takes
the listener out of `deferredObservers_`. -/
theorem unregisterWith_unlinked_counterexample :
    1 ∉ pendingWorld.observers_ 8 ∧ 8 ∉ pendingWorld.observables_ 1 ∧
      (Observer.unregisterWith pendingWorld 1 (some 8)).2 = 0 ∧
      pendingWorld.settings_.deferredObservers_ = {1} ∧
      (Observer.unregisterWith pendingWorld 1 (some 8)).1.settings_.deferredObservers_ = ∅ := by
  decide

/-- C11 (amended). For every world and every listener `l` and non-null source
`s` that are not linked, `l.unregisterWith(s)` returns 0 and leaves every
source's listener set and every listener's source set unchanged; while
`updatesDeferred()` is false (states Enabled and DisabledDropping) the whole
world, pending set included, is unchanged, and while it is true (state
DisabledDeferring) the pending set loses `l` and nothing else. -/
theorem unregisterWith_unlinked (w : World) (l s : Nat) (h1 : l ∉ w.observers_ s)
    (h2 : s ∉ w.observables_ l) :
    (Observer.unregisterWith w l (some s)).2 = 0 ∧
      (Observer.unregisterWith w l (some s)).1.observers_ = w.observers_ ∧
      (Observer.unregisterWith w l (some s)).1.observables_ = w.observables_ ∧
      (w.settings_.updatesDeferred = false → Observer.unregisterWith w l (some s) = (w, 0)) ∧
      (w.settings_.updatesDeferred = true →
        (Observer.unregisterWith w l (some s)).1.settings_.deferredObservers_ =
          w.settings_.deferredObservers_.erase l) := by
  have hobs : (Observer.unregisterWith w l (some s)).1.observers_ = w.observers_ := by
    funext a
    ext b
    rw [Observer.mem_unregisterWith_observers]
    constructor
    · exact fun h => h.1
    · intro h
      refine ⟨h, ?_⟩
      rintro ⟨rfl, rfl⟩
      exact h1 h
  have hobl : (Observer.unregisterWith w l (some s)).1.observables_ = w.observables_ := by
    funext a
    ext b
    rw [Observer.mem_unregisterWith_observables]
    constructor
    · exact fun h => h.1
    · intro h
      refine ⟨h, ?_⟩
      rintro ⟨rfl, rfl⟩
      exact h2 h
  have hret : (Observer.unregisterWith w l (some s)).2 = 0 := by
    simp only [Observer.unregisterWith, Observer.unregisterObserver_observables]
    rw [if_neg h2]
  refine ⟨hret, hobs, hobl, ?_, ?_⟩
  · intro hd
    refine Prod.ext ?_ hret
    apply World.ext_fields hobs hobl (Observer.unregisterWith_live w l (some s))
    simp only [Observer.unregisterWith, Observable.unregisterObserver, hd]
    rfl
  · intro hd
    simp only [Observer.unregisterWith, Observable.unregisterObserver, hd, if_true]
    rfl

theorem unregisterWith_unlinked_witness :
    1 ∉ pendingWorld.observers_ 8 ∧ 8 ∉ pendingWorld.observables_ 1 ∧
      (Observer.unregisterWith pendingWorld 1 (some 8)).1.observers_ =
        pendingWorld.observers_ :=
  ⟨by decide, by decide, (unregisterWith_unlinked pendingWorld 1 8 (by decide) (by decide)).2.1⟩

/-- C12. Null misuse is a no-op: for every listener `l`, `l.registerWith(null)`
returns the end iterator with the flag false, `l.unregisterWith(null)` returns
0, and `l.registerWithObservables(null)` returns; each call ends normally and
leaves the whole world (every source set, every listener set, the pending set)
unchanged. -/
theorem null_misuse_is_noop (w : World) (l : Nat) :
    Observer.registerWith w l none = (w, (none, false)) ∧
      Observer.unregisterWith w l none = (w, 0) ∧
      Observer.registerWithObservables w l none = w :=
  ⟨rfl, rfl, rfl⟩

/-- C14. In a symmetric world, after the destructor of the listener `l` has run
no source's `observers_` contains `l`. -/
theorem destroy_unlinks_everywhere (w : World) (l : Nat) (hs : w.Symmetric) (s : Nat) :
    l ∉ (Observer.destroy w l).observers_ s := by
  rw [Observer.mem_destroy_observers]
  have := hs s l
  tauto

theorem destroy_unlinks_everywhere_witness :
    twoListeners.Symmetric ∧ 1 ∈ twoListeners.observers_ 8 ∧
      1 ∉ (Observer.destroy twoListeners 1).observers_ 8 :=
  ⟨twoListeners_symmetric, by decide,
    destroy_unlinks_everywhere twoListeners 1 twoListeners_symmetric 8⟩

/-- C15. Rebind: in a symmetric world, for all listeners `a` and `b`, after
`a.registerWithObservables(b)` the source set of `a` is the union of its previous
source set and the source set of `b`; `a` is in the listener set of every source
of `b`, and in the listener set of a source exactly when that source was a
source of `a` or of `b`; the source set of `b` is unchanged; so the source
sub-object of `b`, at whatever address `bSource`, is a source of `a` afterwards
only if it was a source of `a` or of `b` before. -/
theorem registerWithObservables_rebinds (w : World) (a b : Nat) (hs : w.Symmetric) :
    (Observer.registerWithObservables w a (some b)).observables_ a =
        w.observables_ a ∪ w.observables_ b ∧
      (∀ s ∈ w.observables_ b, a ∈ (Observer.registerWithObservables w a (some b)).observers_ s) ∧
      (∀ s, a ∈ (Observer.registerWithObservables w a (some b)).observers_ s ↔
        s ∈ w.observables_ a ∨ s ∈ w.observables_ b) ∧
      (Observer.registerWithObservables w a (some b)).observables_ b = w.observables_ b ∧
      (∀ bSource, bSource ∈ (Observer.registerWithObservables w a (some b)).observables_ a →
        bSource ∈ w.observables_ a ∨ bSource ∈ w.observables_ b) := by
  have hu : (Observer.registerWithObservables w a (some b)).observables_ a =
      w.observables_ a ∪ w.observables_ b := by
    ext s
    simp [Observer.mem_registerWithObservables_observables]
  refine ⟨hu, ?_, ?_, ?_, ?_⟩
  · intro s hsb
    rw [Observer.mem_registerWithObservables_observers]
    exact Or.inr ⟨hsb, rfl⟩
  · intro s
    rw [Observer.mem_registerWithObservables_observers]
    have := hs s a
    tauto
  · ext s
    rw [Observer.mem_registerWithObservables_observables]
    constructor
    · rintro (h | ⟨rfl, h⟩)
      · exact h
      · exact h
    · exact fun h => Or.inl h
  · intro bSource h
    rw [hu, Finset.mem_union] at h
    exact h

theorem registerWithObservables_rebinds_witness :
    twoListeners.Symmetric ∧
      (Observer.registerWithObservables twoListeners 1 (some 2)).observables_ 1 =
        twoListeners.observables_ 1 ∪ twoListeners.observables_ 2 :=
  ⟨twoListeners_symmetric,
    (registerWithObservables_rebinds twoListeners 1 2 twoListeners_symmetric).1⟩

/-- C16. Source copy: the `Observable` copy-constructed at the address `this` from
the source `o`, a different object, has an empty listener set; the listener set
of `o` and of every other source, every listener's source set and the settings
are unchanged by the copy. -/
theorem observable_copy_starts_unlinked (w : World) (this o : Nat) (hne : this ≠ o) :
    (Observable.copyConstruct w this o).observers_ this = ∅ ∧
      (Observable.copyConstruct w this o).observers_ o = w.observers_ o ∧
      (∀ s, s ≠ this → (Observable.copyConstruct w this o).observers_ s = w.observers_ s) ∧
      (Observable.copyConstruct w this o).observables_ = w.observables_ ∧
      (Observable.copyConstruct w this o).settings_ = w.settings_ := by
  refine ⟨?_, ?_, ?_, rfl, rfl⟩
  · simp [Observable.copyConstruct]
  · simp [Observable.copyConstruct, Function.update_apply, Ne.symm hne]
  · intro s h
    simp [Observable.copyConstruct, Function.update_apply, h]

theorem observable_copy_starts_unlinked_witness :
    (9 : Nat) ≠ 8 ∧ twoListeners.observers_ 8 = {1, 2} ∧
      (Observable.copyConstruct twoListeners 9 8).observers_ 9 = ∅ ∧
      (Observable.copyConstruct twoListeners 9 8).observers_ 8 = twoListeners.observers_ 8 :=
  ⟨by decide, by decide,
    (observable_copy_starts_unlinked twoListeners 9 8 (by decide)).1,
    (observable_copy_starts_unlinked twoListeners 9 8 (by decide)).2.1⟩

/-- C17. Source assignment, for the `operator=` shared by the single-threaded and
the thread-safe variant and whatever `notifyObservers` does: `t = o` makes
exactly one `notifyObservers()` call, on `t`, when `o` is another object, the
state afterwards being the one that call leaves; it makes none and leaves the
state untouched when `o` is `t` itself; so every listener set that
`notifyObservers` preserves, that of `t` and that of `o` among them, is the same
after the assignment as before it. -/
theorem observable_assign_notifies_once {W : Type} (notifyObservers : W → Nat → W)
    (observers : W → Nat → Finset Nat) (w : W) (t o : Nat)
    (hframe : ∀ v s x, observers (notifyObservers v s) x = observers v x) :
    (o ≠ t → Observable.assign notifyObservers w t o = (notifyObservers w t, [t])) ∧
      (o = t → Observable.assign notifyObservers w t o = (w, [])) ∧
      (Observable.assign notifyObservers w t o).2.count t = (if o ≠ t then 1 else 0) ∧
      (∀ x, x ≠ t → (Observable.assign notifyObservers w t o).2.count x = 0) ∧
      observers (Observable.assign notifyObservers w t o).1 t = observers w t ∧
      observers (Observable.assign notifyObservers w t o).1 o = observers w o := by
  unfold Observable.assign
  by_cases h : o ≠ t
  · rw [if_pos h]
    refine ⟨fun _ => rfl, fun h2 => absurd h2 h, ?_, ?_, hframe _ _ _, hframe _ _ _⟩
    · rw [if_pos h]
      exact List.count_singleton_self t
    · intro x hx
      exact List.count_eq_zero_of_not_mem (fun hm => hx (List.mem_singleton.mp hm))
  · rw [if_neg h]
    refine ⟨fun h2 => absurd h2 h, fun _ => rfl, ?_, ?_, rfl, rfl⟩
    · rw [if_neg h]
      rfl
    · intro x _
      rfl

theorem observable_assign_notifies_once_witness :
    (∀ (v : World) (s x : Nat),
        (Observable.notifyObservers v s (fun _ => .returned)).1.observers_ x = v.observers_ x) ∧
      Observable.assign (fun v s => (Observable.notifyObservers v s (fun _ => .returned)).1)
        twoListeners 8 9 =
        ((Observable.notifyObservers twoListeners 8 (fun _ => .returned)).1, [8]) ∧
      (Observable.assign (fun v s => (Observable.notifyObservers v s (fun _ => .returned)).1)
        twoListeners 8 9).1.observers_ 8 = twoListeners.observers_ 8 :=
  have hf : ∀ (v : World) (s x : Nat),
      (Observable.notifyObservers v s (fun _ => .returned)).1.observers_ x = v.observers_ x := by
    intro v s x
    unfold Observable.notifyObservers
    split <;> rfl
  ⟨hf,
    (observable_assign_notifies_once
      (fun v s => (Observable.notifyObservers v s (fun _ => .returned)).1)
      (fun v => v.observers_) twoListeners 8 9 hf).1 (by decide),
    (observable_assign_notifies_once
      (fun v s => (Observable.notifyObservers v s (fun _ => .returned)).1)
      (fun v => v.observers_) twoListeners 8 9 hf).2.2.2.2.1⟩

/-- C18. Listener copy: in a symmetric world in which addresses holding no
observer have no source set, the listener copy-constructed at the free address
`a` from the constructed listener `b` has the source set of `b`, is in the
listener set of exactly the sources of `b`, and leaves the source set of `b` and
the membership of `b` in every listener set unchanged. -/
theorem observer_copy_links (w : World) (a b : Nat) (hs : w.Symmetric) (hd : w.DeadEmpty)
    (ha : a ∉ w.live) (hb : b ∈ w.live) :
    (Observer.copyConstruct w a b).observables_ a = w.observables_ b ∧
      (∀ s, a ∈ (Observer.copyConstruct w a b).observers_ s ↔ s ∈ w.observables_ b) ∧
      (Observer.copyConstruct w a b).observables_ b = w.observables_ b ∧
      (∀ s, b ∈ (Observer.copyConstruct w a b).observers_ s ↔ b ∈ w.observers_ s) := by
  have hne : b ≠ a := fun h => ha (h ▸ hb)
  refine ⟨?_, ?_, ?_, ?_⟩
  · ext s
    simp [Observer.mem_copyConstruct_observables]
  · intro s
    rw [Observer.mem_copyConstruct_observers]
    have h1 := hs s a
    have h2 := hd.not_mem ha s
    tauto
  · ext s
    simp [Observer.mem_copyConstruct_observables, hne]
  · intro s
    rw [Observer.mem_copyConstruct_observers]
    tauto

theorem observer_copy_links_witness :
    twoListeners.Symmetric ∧ twoListeners.DeadEmpty ∧ 3 ∉ twoListeners.live ∧
      2 ∈ twoListeners.live ∧
      (Observer.copyConstruct twoListeners 3 2).observables_ 3 = twoListeners.observables_ 2 ∧
      (∀ s, 3 ∈ (Observer.copyConstruct twoListeners 3 2).observers_ s ↔
        s ∈ twoListeners.observables_ 2) :=
  ⟨twoListeners_symmetric, twoListeners_deadEmpty, by decide, by decide,
    (observer_copy_links twoListeners 3 2 twoListeners_symmetric twoListeners_deadEmpty
      (by decide) (by decide)).1,
    (observer_copy_links twoListeners 3 2 twoListeners_symmetric twoListeners_deadEmpty
      (by decide) (by decide)).2.1⟩

/-- C19. Listener assignment: in a symmetric world, for all listeners `a` and
`b`, equal or not, after `a = b` the source set of `a` is the source set `b` had
before the call, `a` is in the listener set of a source exactly when that source
is in this set (so `a` is gone from every source it held that `b` does not
hold), and the source set of `b` and the membership of `b` in every listener set
are unchanged. -/
theorem observer_assign_relinks (w : World) (a b : Nat) (hs : w.Symmetric) :
    (Observer.assign w a b).observables_ a = w.observables_ b ∧
      (∀ s, a ∈ (Observer.assign w a b).observers_ s ↔ s ∈ w.observables_ b) ∧
      (Observer.assign w a b).observables_ b = w.observables_ b ∧
      (∀ s, b ∈ (Observer.assign w a b).observers_ s ↔ b ∈ w.observers_ s) := by
  have ha : ∀ s, a ∈ (Observer.assign w a b).observers_ s ↔ s ∈ w.observables_ b := by
    intro s
    rw [Observer.mem_assign_observers]
    have h1 := hs s a
    tauto
  have hoa : (Observer.assign w a b).observables_ a = w.observables_ b := by
    ext s
    simp [Observer.mem_assign_observables]
  refine ⟨hoa, ha, ?_, ?_⟩
  · by_cases hab : b = a
    · rw [hab] at hoa ⊢
      exact hoa
    · ext s
      simp [Observer.mem_assign_observables, hab]
  · intro s
    by_cases hab : b = a
    · subst hab
      rw [ha s]
      exact (hs s b).symm
    · rw [Observer.mem_assign_observers]
      tauto

theorem observer_assign_relinks_witness :
    twoListeners.Symmetric ∧
      (Observer.assign twoListeners 1 2).observables_ 1 = twoListeners.observables_ 2 ∧
      (∀ s, 1 ∈ (Observer.assign twoListeners 1 2).observers_ s ↔
        s ∈ twoListeners.observables_ 2) :=
  ⟨twoListeners_symmetric,
    (observer_assign_relinks twoListeners 1 2 twoListeners_symmetric).1,
    (observer_assign_relinks twoListeners 1 2 twoListeners_symmetric).2.1⟩

/-- C20. The transition `disableUpdates(d)`: from every settings state of the
single-threaded variant and of the thread-safe variant, `updatesEnabled()` is
false and `updatesDeferred()` is `d` afterwards; the thread-safe `updatesType_`
is then 0 or `UpdatesDeferred`; and both variants stand for the state the
specification names, `DisabledDropping` for `d = false` and `DisabledDeferring`
for `d = true`. -/
theorem disableUpdates_transition (s : ObservableSettings) (t : ThreadSafe.ObservableSettings)
    (q : SettingsState) (d : Bool) :
    (s.disableUpdates d).updatesEnabled = false ∧
      (s.disableUpdates d).updatesDeferred = d ∧
      (t.disableUpdates d).updatesType_ = (if d then ThreadSafe.UpdatesDeferred else 0) ∧
      (t.disableUpdates d).updatesEnabled = (s.disableUpdates d).updatesEnabled ∧
      (t.disableUpdates d).updatesDeferred = (s.disableUpdates d).updatesDeferred ∧
      SettingsState.ofFlags (s.disableUpdates d).updatesEnabled
        (s.disableUpdates d).updatesDeferred = some (q.disableUpdates d) ∧
      SettingsState.ofFlags (t.disableUpdates d).updatesEnabled
        (t.disableUpdates d).updatesDeferred = some (q.disableUpdates d) := by
  cases d <;>
    simp [ObservableSettings.disableUpdates, ObservableSettings.updatesEnabled,
      ObservableSettings.updatesDeferred, ThreadSafe.ObservableSettings.disableUpdates,
      ThreadSafe.ObservableSettings.updatesEnabled,
      ThreadSafe.ObservableSettings.updatesDeferred, ThreadSafe.UpdatesDeferred,
      ThreadSafe.UpdatesEnabled, SettingsState.ofFlags, SettingsState.disableUpdates]

/-- C21. Settings state machine: the initial settings of both variants are in
state `Enabled` (enabled true, deferred false), and after every sequence of
`disableUpdates(d)` and `enableUpdates()` from there the two flags stand for
the state the specification's machine is in, one of `Enabled`,
`DisabledDropping`, `DisabledDeferring`; so `updatesEnabled()` and
`updatesDeferred()` are never both true, and the thread-safe `updatesType_` is
at most 2, never 3. -/
theorem settings_state_machine (lock : Nat → Option ThreadSafe.Proxy)
    (weakFromThis : Nat → ThreadSafe.WeakRef) (update : Nat → Outcome)
    (ops : List SettingsOp) :
    SettingsState.ofFlags ObservableSettings.fresh.updatesEnabled
        ObservableSettings.fresh.updatesDeferred = some .Enabled ∧
      SettingsState.ofFlags ThreadSafe.ObservableSettings.fresh.updatesEnabled
        ThreadSafe.ObservableSettings.fresh.updatesDeferred = some .Enabled ∧
      SettingsState.ofFlags (ObservableSettings.fresh.run update ops).updatesEnabled
        (ObservableSettings.fresh.run update ops).updatesDeferred =
          some (ops.foldl SettingsState.applyOp .Enabled) ∧
      SettingsState.ofFlags
        (ThreadSafe.ObservableSettings.fresh.run lock weakFromThis update ops).updatesEnabled
        (ThreadSafe.ObservableSettings.fresh.run lock weakFromThis update ops).updatesDeferred =
          some (ops.foldl SettingsState.applyOp .Enabled) ∧
      ¬ ((ObservableSettings.fresh.run update ops).updatesEnabled = true ∧
        (ObservableSettings.fresh.run update ops).updatesDeferred = true) ∧
      ¬ ((ThreadSafe.ObservableSettings.fresh.run lock weakFromThis update
            ops).updatesEnabled = true ∧
        (ThreadSafe.ObservableSettings.fresh.run lock weakFromThis update
            ops).updatesDeferred = true) ∧
      (ThreadSafe.ObservableSettings.fresh.run lock weakFromThis update ops).updatesType_ ≤ 2 ∧
      (ThreadSafe.ObservableSettings.fresh.run lock weakFromThis update ops).updatesType_ ≠ 3 := by
  have h1 := run_tracks update ops ObservableSettings.fresh .Enabled rfl
  have h2 := ThreadSafe.ts_run_tracks lock weakFromThis update ops
    ThreadSafe.ObservableSettings.fresh .Enabled (by decide)
  have h3 := ThreadSafe.ts_run_updatesType lock weakFromThis update ops
    ThreadSafe.ObservableSettings.fresh (by decide)
  refine ⟨rfl, by decide, h1, h2, ofFlags_some_not_both _ _ _ h1,
    ofFlags_some_not_both _ _ _ h2, h3, ?_⟩
  omega

/-- C22. Guard deactivation is final: a newly constructed guard is active; once
`deactivate()` has been called, after every further sequence of `update()` and
`deactivate()` calls the guard is inactive and its `update()` invokes no
listener and returns; a second `deactivate()` changes nothing; and no member
call turns an inactive guard active. -/
theorem deactivation_is_final (observer : Nat) (p : ThreadSafe.Proxy)
    (ops : List ThreadSafe.ProxyOp) (weakFromThis : Nat → ThreadSafe.WeakRef)
    (update : Nat → Outcome) :
    (ThreadSafe.Proxy.create observer).active_ = true ∧
      (p.deactivate.run ops).active_ = false ∧
      (p.deactivate.run ops).update weakFromThis update = ([], .returned) ∧
      p.deactivate.deactivate = p.deactivate ∧
      (∀ (q : ThreadSafe.Proxy) (op : ThreadSafe.ProxyOp), q.active_ = false →
        (q.apply op).active_ = false) := by
  have hstep : ∀ (q : ThreadSafe.Proxy) (op : ThreadSafe.ProxyOp), q.active_ = false →
      (q.apply op).active_ = false := by
    intro q op hq
    cases op with
    | update => exact hq
    | deactivate => rfl
  have hrun : ∀ (os : List ThreadSafe.ProxyOp) (q : ThreadSafe.Proxy), q.active_ = false →
      (q.run os).active_ = false := by
    intro os
    induction os with
    | nil => exact fun q hq => hq
    | cons o os ih => exact fun q hq => ih (q.apply o) (hstep q o hq)
  have hfin := hrun ops p.deactivate rfl
  refine ⟨rfl, hfin, ?_, rfl, hstep⟩
  unfold ThreadSafe.Proxy.update
  rw [hfin]
  rfl

/-- C23. Guard forwarding: the `update()` of an active guard invokes the
listener's `update()` exactly once, ending as that call ends, when the weak
reference obtained from the listener is empty or still owned, and invokes
nothing and returns when it has expired. -/
theorem active_guard_forwards (p : ThreadSafe.Proxy) (weakFromThis : Nat → ThreadSafe.WeakRef)
    (update : Nat → Outcome) (ha : p.active_ = true) :
    (weakFromThis p.observer_ = .owned →
        p.update weakFromThis update = ([p.observer_], update p.observer_)) ∧
      (weakFromThis p.observer_ = .empty →
        p.update weakFromThis update = ([p.observer_], update p.observer_)) ∧
      (weakFromThis p.observer_ = .expired → p.update weakFromThis update = ([], .returned)) ∧
      (weakFromThis p.observer_ ≠ .expired →
        (p.update weakFromThis update).1.count p.observer_ = 1) := by
  refine ⟨?_, ?_, ?_, ?_⟩
  · intro h
    simp [ThreadSafe.Proxy.update, ha, h]
  · intro h
    simp [ThreadSafe.Proxy.update, ha, h]
  · intro h
    simp [ThreadSafe.Proxy.update, ha, h]
  · intro h
    rw [ThreadSafe.Proxy.update_calls, if_pos ⟨ha, h⟩]
    exact List.count_singleton_self _

theorem active_guard_forwards_witness :
    (ThreadSafe.Proxy.create 5).active_ = true ∧
      (ThreadSafe.Proxy.create 5).update (fun _ => .owned) (fun _ => .otherException) =
        ([5], .otherException) ∧
      (ThreadSafe.Proxy.create 5).update (fun _ => .expired) (fun _ => .otherException) =
        ([], .returned) :=
  ⟨rfl,
    (active_guard_forwards (ThreadSafe.Proxy.create 5) (fun _ => .owned)
      (fun _ => .otherException) rfl).1 rfl,
    (active_guard_forwards (ThreadSafe.Proxy.create 5) (fun _ => .expired)
      (fun _ => .otherException) rfl).2.2.1 rfl⟩

/-- C26 (refuted as stated). Two pending listeners fail, the first with the text
A and the second with the text B; the error raised by `enableUpdates()` carries
the text B only, the text A does not occur in its message. -/
theorem aggregated_message_counterexample :
    (twoFailures 1).failed = true ∧ (twoFailures 2).failed = true ∧
      (ThreadSafe.ObservableSettings.enableUpdates
        { deferredObservers_ := {1, 2}, updatesType_ := ThreadSafe.UpdatesDeferred }
        (fun i => some { active_ := true, observer_ := i }) (fun _ => .empty) twoFailures).2.2 =
        .raised "could not notify one or more observers: B" ∧
      ¬ ("A".toList <:+: "could not notify one or more observers: B".toList) := by
  decide

/-- C26 (amended). The message of the error raised by `enableUpdates()` is the
fixed text of `QL_ENSURE` followed by `errMsg`, and `errMsg` holds the text of
one failure only: that of the last pending listener, in the order of the drain,
whose `update()` ended with a `std::exception`; it is empty when no failure was
of that kind. -/
theorem aggregated_message_is_last_failure (s : ThreadSafe.ObservableSettings)
    (lock : Nat → Option ThreadSafe.Proxy) (weakFromThis : Nat → ThreadSafe.WeakRef)
    (update : Nat → Outcome) :
    (s.enableUpdates lock weakFromThis update).2.1.errMsg =
        lastWhat (ThreadSafe.drainOutcomes lock weakFromThis update
          (elements s.deferredObservers_)) ∧
      ((s.enableUpdates lock weakFromThis update).2.2.isRaised = true →
        (s.enableUpdates lock weakFromThis update).2.2 =
          .raised ("could not notify one or more observers: " ++
            lastWhat (ThreadSafe.drainOutcomes lock weakFromThis update
              (elements s.deferredObservers_)))) := by
  have h1 : (s.enableUpdates lock weakFromThis update).2.1.errMsg =
      lastWhat (ThreadSafe.drainOutcomes lock weakFromThis update
        (elements s.deferredObservers_)) := by
    rw [ThreadSafe.enableUpdates_drain, ThreadSafe.errMsg_foldl]
    rfl
  refine ⟨h1, ?_⟩
  rw [ThreadSafe.enableUpdates_completion, h1]
  unfold ensureSuccessful
  split
  · intro h
    simp [Completion.isRaised] at h
  · intro _
    rfl

/-- C28. Unlinking while deferring discards the pending notification: while
`updatesDeferred()` holds, for every pending listener `l` and every non-null
source `s`, linked to `l` or not, `l.unregisterWith(s)` takes `l`, and only
`l`, out of `deferredObservers_`; `l` stays linked to every other source it was
linked to, and a drain of the pending set that follows does not invoke
`update()` on `l`. -/
theorem unregisterWith_discards_pending (w : World) (l s : Nat) (update : Nat → Outcome)
    (hd : w.settings_.updatesDeferred = true) (_hp : l ∈ w.settings_.deferredObservers_) :
    l ∉ (Observer.unregisterWith w l (some s)).1.settings_.deferredObservers_ ∧
      (Observer.unregisterWith w l (some s)).1.settings_.deferredObservers_ =
        w.settings_.deferredObservers_.erase l ∧
      (∀ s2, s2 ≠ s → l ∈ w.observers_ s2 →
        l ∈ (Observer.unregisterWith w l (some s)).1.observers_ s2) ∧
      (elements (Observer.unregisterWith w l (some s)).1.settings_.deferredObservers_).count l
        = 0 ∧
      ((Observer.unregisterWith w l (some s)).1.settings_.enableUpdates update).2.1.calls.count l
        = 0 := by
  have he : (Observer.unregisterWith w l (some s)).1.settings_.deferredObservers_ =
      w.settings_.deferredObservers_.erase l := by
    simp only [Observer.unregisterWith, Observable.unregisterObserver, hd, if_true]
    rfl
  have hn : l ∉ (Observer.unregisterWith w l (some s)).1.settings_.deferredObservers_ := by
    rw [he]
    exact Finset.not_mem_erase l _
  have hc : (elements
      (Observer.unregisterWith w l (some s)).1.settings_.deferredObservers_).count l = 0 := by
    rw [count_elements, if_neg hn]
  refine ⟨hn, he, ?_, hc, ?_⟩
  · intro s2 hne hl
    rw [Observer.mem_unregisterWith_observers]
    exact ⟨hl, fun h => hne h.1⟩
  · simp only [ObservableSettings.enableUpdates]
    split
    · rw [Delivery.calls_foldl]
      simpa [Delivery.start] using hc
    · rfl

theorem unregisterWith_discards_pending_witness :
    pendingWorld.settings_.updatesDeferred = true ∧
      1 ∈ pendingWorld.settings_.deferredObservers_ ∧
      1 ∈ (Observer.unregisterWith pendingWorld 1 (some 8)).1.observers_ 7 ∧
      ((Observer.unregisterWith pendingWorld 1 (some 8)).1.settings_.enableUpdates
        (fun _ => .returned)).2.1.calls.count 1 = 0 :=
  ⟨by decide, by decide,
    (unregisterWith_discards_pending pendingWorld 1 8 (fun _ => .returned) (by decide)
      (by decide)).2.2.1 7 (by decide) (by decide),
    (unregisterWith_discards_pending pendingWorld 1 8 (fun _ => .returned) (by decide)
      (by decide)).2.2.2.2⟩

/-- C29. The frame of `disableUpdates`: in both variants, from every settings
state and for every `d`, `disableUpdates(d)` leaves `deferredObservers_`
exactly as it was, in particular after `disableUpdates(false)`; in the
single-threaded variant it changes no field but the two flags; and it leaves
every listener set, every source set and the set of constructed observers
unchanged. -/
theorem disableUpdates_frame (s : ObservableSettings) (t : ThreadSafe.ObservableSettings)
    (w : World) (d : Bool) :
    (s.disableUpdates d).deferredObservers_ = s.deferredObservers_ ∧
      (t.disableUpdates d).deferredObservers_ = t.deferredObservers_ ∧
      (Op.apply w (.disableUpdates d)).settings_.deferredObservers_ =
        w.settings_.deferredObservers_ ∧
      (Op.apply w (.disableUpdates d)).observers_ = w.observers_ ∧
      (Op.apply w (.disableUpdates d)).observables_ = w.observables_ ∧
      (Op.apply w (.disableUpdates d)).live = w.live :=
  ⟨rfl, rfl, rfl, rfl, rfl, rfl⟩

/-- C30. Link/unlink round trip: in a symmetric world, for every listener `l` and
non-null source `s` not linked to `l`, `l.registerWith(s)` followed by
`l.unregisterWith(s)` returns 1 from the unlink and restores every source's
listener set and every listener's source set. -/
theorem link_unlink_round_trip (w : World) (l s : Nat) (hs : w.Symmetric)
    (hn : l ∉ w.observers_ s) :
    (Observer.unregisterWith (Observer.registerWith w l (some s)).1 l (some s)).2 = 1 ∧
      (Observer.unregisterWith (Observer.registerWith w l (some s)).1 l (some s)).1.observers_ =
        w.observers_ ∧
      (Observer.unregisterWith (Observer.registerWith w l (some s)).1 l
        (some s)).1.observables_ = w.observables_ := by
  have hn2 : s ∉ w.observables_ l := fun h => hn ((hs s l).mpr h)
  refine ⟨?_, ?_, ?_⟩
  · have hm : s ∈ (Observer.registerWith w l (some s)).1.observables_ l := by
      rw [Observer.mem_registerWith_observables]
      exact Or.inr ⟨rfl, rfl⟩
    simp only [Observer.unregisterWith, Observer.unregisterObserver_observables]
    rw [if_pos hm]
  · funext a
    ext b
    rw [Observer.mem_unregisterWith_observers, Observer.mem_registerWith_observers]
    constructor
    · rintro ⟨h | h, h2⟩
      · exact h
      · exact absurd h h2
    · intro h
      refine ⟨Or.inl h, ?_⟩
      rintro ⟨rfl, rfl⟩
      exact hn h
  · funext a
    ext b
    rw [Observer.mem_unregisterWith_observables, Observer.mem_registerWith_observables]
    constructor
    · rintro ⟨h | h, h2⟩
      · exact h
      · exact absurd h h2
    · intro h
      refine ⟨Or.inl h, ?_⟩
      rintro ⟨rfl, rfl⟩
      exact hn2 h

theorem link_unlink_round_trip_witness :
    twoListeners.Symmetric ∧ 1 ∉ twoListeners.observers_ 9 ∧
      (Observer.unregisterWith (Observer.registerWith twoListeners 1 (some 9)).1 1
        (some 9)).1.observers_ = twoListeners.observers_ :=
  ⟨twoListeners_symmetric, by decide,
    (link_unlink_round_trip twoListeners 1 9 twoListeners_symmetric (by decide)).2.1⟩

/-- C25. Teardown order of the thread-safe variant: the destructor of a listener
`l` whose `proxy_` refers to the guard `g` adds to the log one `deactivate()`
call on `g` followed by one `unregisterObserver(g, false)` call for each of its
sources and nothing else, so `deactivate()` runs exactly once and before the
first `unregisterObserver`; after that first statement the guard is inactive,
the loop over any sources leaves it so, and its `update()` invokes no listener
and returns. -/
theorem teardown_deactivates_first (w : ThreadSafe.World) (l g : Nat) (p : ThreadSafe.Proxy)
    (weakFromThis : Nat → ThreadSafe.WeakRef) (update : Nat → Outcome)
    (hg : w.proxy_ l = some g) (hp : w.proxies g = some p) :
    (ThreadSafe.Observer.destroy w l).log =
        w.log ++ ThreadSafe.Call.deactivate g ::
          (elements (w.observables_ l)).map
            (fun s => ThreadSafe.Call.unregisterObserver s (some g) false) ∧
      ((ThreadSafe.Observer.destroy w l).log.drop w.log.length).count
        (ThreadSafe.Call.deactivate g) = 1 ∧
      (ThreadSafe.Observer.destroyDeactivate w l).proxies g = some p.deactivate ∧
      (∀ xs, (ThreadSafe.Observer.unregisterLoop (ThreadSafe.Observer.destroyDeactivate w l) l
        false xs).proxies g = some p.deactivate) ∧
      (ThreadSafe.Observer.destroy w l).proxies g = some p.deactivate ∧
      p.deactivate.update weakFromThis update = ([], .returned) := by
  have hd : ThreadSafe.Observer.destroyDeactivate w l =
      { w with proxies := Function.update w.proxies g ((w.proxies g).map ThreadSafe.Proxy.deactivate),
               log := w.log ++ [.deactivate g] } := by
    simp only [ThreadSafe.Observer.destroyDeactivate, hg]
  have hpx : (ThreadSafe.Observer.destroyDeactivate w l).proxies g = some p.deactivate := by
    rw [hd]
    simp [hp]
  have hlog : (ThreadSafe.Observer.destroy w l).log =
      w.log ++ ThreadSafe.Call.deactivate g ::
        (elements (w.observables_ l)).map
          (fun s => ThreadSafe.Call.unregisterObserver s (some g) false) := by
    unfold ThreadSafe.Observer.destroy
    rw [(ThreadSafe.ts_unregisterLoop_log l false _ _).1, hd]
    simp [hg]
  have hloop : ∀ xs, (ThreadSafe.Observer.unregisterLoop
      (ThreadSafe.Observer.destroyDeactivate w l) l false xs).proxies g = some p.deactivate := by
    intro xs
    rw [(ThreadSafe.ts_unregisterLoop_log l false xs _).2.1]
    exact hpx
  refine ⟨hlog, ?_, hpx, hloop, hloop _, rfl⟩
  rw [hlog, List.drop_left, List.count_cons_self, List.count_eq_zero_of_not_mem]
  intro hm
  obtain ⟨s, _, hs⟩ := List.mem_map.mp hm
  exact ThreadSafe.Call.noConfusion hs

theorem teardown_deactivates_first_witness :
    ThreadSafe.linkedTwice.proxy_ 1 = some 0 ∧
      ThreadSafe.linkedTwice.proxies 0 = some (ThreadSafe.Proxy.create 1) ∧
      (ThreadSafe.Observer.destroy ThreadSafe.linkedTwice 1).log =
        ThreadSafe.linkedTwice.log ++ ThreadSafe.Call.deactivate 0 ::
          (elements (ThreadSafe.linkedTwice.observables_ 1)).map
            (fun s => ThreadSafe.Call.unregisterObserver s (some 0) false) :=
  ⟨by decide, by decide,
    (teardown_deactivates_first ThreadSafe.linkedTwice 1 0 (ThreadSafe.Proxy.create 1)
      (fun _ => .owned) (fun _ => .returned) (by decide) (by decide)).1⟩

/-- C27. One lazily created guard per listener, thread-safe variant: a
default-constructed listener has a null `proxy_`; on a listener without guard
`registerWith` (with any argument) and `operator=` allocate a new guard for it;
and after every sequence of `registerWith`, `unregisterWith`,
`unregisterWithAll`, `registerWithObservables` and `operator=` calls on the
listener, a guard that `proxy_` referred to before is the guard it refers to
afterwards, and every `registerObserver` call made on the way passed the guard
`proxy_` refers to at the end. The guard is handed to every source the listener
registers with: `registerWith` on a non-null source appends to the log exactly
one `registerObserver` call on that source, passing the guard `proxy_` refers
to; `operator=` makes exactly one such call on each source of its argument; the
`registerObserver` calls of a whole sequence are exactly one call on each
source the sequence registers with, in order, each passing the guard `proxy_`
refers to at the end; and when every source in the listener's source set has
been handed its guard before the sequence (as for a default-constructed
listener, whose source set is empty), so has every source in its source set
after the sequence. -/
theorem one_guard_per_listener (w : ThreadSafe.World) (l : Nat)
    (ops : List ThreadSafe.ObserverOp) :
    (ThreadSafe.Observer.construct w l).proxy_ l = none ∧
      (w.proxy_ l = none → ∀ h,
        (ThreadSafe.Observer.registerWith w l h).1.proxy_ l = some w.allocated ∧
        (ThreadSafe.Observer.registerWith w l h).1.proxies w.allocated =
          some (ThreadSafe.Proxy.create l)) ∧
      (w.proxy_ l = none → ∀ o,
        (ThreadSafe.Observer.assign w l o).proxy_ l = some w.allocated ∧
        (ThreadSafe.Observer.assign w l o).proxies w.allocated =
          some (ThreadSafe.Proxy.create l)) ∧
      (∀ g, w.proxy_ l = some g → (ThreadSafe.runObserverOps w l ops).proxy_ l = some g) ∧
      (∃ added, (ThreadSafe.runObserverOps w l ops).log = w.log ++ added ∧
        (∀ c ∈ ThreadSafe.registeredProxies added,
          ∃ g, c = some g ∧ (ThreadSafe.runObserverOps w l ops).proxy_ l = some g) ∧
        ThreadSafe.registrations added = (ThreadSafe.runRegisters w l ops).map
          (fun s => (s, (ThreadSafe.runObserverOps w l ops).proxy_ l)) ∧
        (ThreadSafe.runRegisters w l ops ≠ [] →
          ∃ g, (ThreadSafe.runObserverOps w l ops).proxy_ l = some g)) ∧
      (∀ s, ∃ g, (ThreadSafe.Observer.registerWith w l (some s)).1.proxy_ l = some g ∧
        (ThreadSafe.Observer.registerWith w l (some s)).1.log =
          w.log ++ [ThreadSafe.Call.registerObserver s (some g)] ∧
        s ∈ (ThreadSafe.Observer.registerWith w l (some s)).1.observables_ l) ∧
      (∀ o, ∃ g added, (ThreadSafe.Observer.assign w l o).proxy_ l = some g ∧
        (ThreadSafe.Observer.assign w l o).log = w.log ++ added ∧
        ThreadSafe.registrations added =
          (elements (w.observables_ o)).map (fun s => (s, some g)) ∧
        (ThreadSafe.Observer.assign w l o).observables_ l = w.observables_ o) ∧
      (ThreadSafe.Observer.construct w l).observables_ l = ∅ ∧
      (w.GuardHanded l → (ThreadSafe.runObserverOps w l ops).GuardHanded l) := by
  obtain ⟨added, hlog, hreg, hne, hstable⟩ := ThreadSafe.registers_run l ops w
  have hold : ∀ c ∈ ThreadSafe.registeredProxies added,
      ∃ g, c = some g ∧ (ThreadSafe.runObserverOps w l ops).proxy_ l = some g := by
    intro c hc
    rw [ThreadSafe.registeredProxies_eq_map, hreg, List.map_map] at hc
    obtain ⟨s, hs, hsc⟩ := List.mem_map.mp hc
    obtain ⟨g, hg⟩ := hne (List.ne_nil_of_mem hs)
    exact ⟨g, by rw [← hsc]; exact hg, hg⟩
  have hloops : ∀ (xs : List Nat) (v : ThreadSafe.World),
      (ThreadSafe.Observer.registerLoop v l xs).proxy_ = v.proxy_ ∧
      (ThreadSafe.Observer.registerLoop v l xs).proxies = v.proxies := by
    intro xs
    induction xs with
    | nil => exact fun v => ⟨rfl, rfl⟩
    | cons x xs ih =>
      intro v
      exact ih (v.call (.registerObserver x (v.proxy_ l)))
  refine ⟨by simp [ThreadSafe.Observer.construct], ?_, ?_, hstable,
    ⟨added, hlog, hold, hreg, hne⟩, ?_, ?_, by simp [ThreadSafe.Observer.construct],
    ThreadSafe.guardHanded_run l ops w⟩
  · intro hn h
    have he : w.ensureProxy l = w.resetProxy l := by
      simp only [ThreadSafe.World.ensureProxy, hn]
    cases h with
    | none =>
      simp only [ThreadSafe.Observer.registerWith, he]
      simp [ThreadSafe.World.resetProxy]
    | some p =>
      simp only [ThreadSafe.Observer.registerWith, he]
      simp [ThreadSafe.World.resetProxy, ThreadSafe.World.call]
  · intro hn o
    have he : w.ensureProxy l = w.resetProxy l := by
      simp only [ThreadSafe.World.ensureProxy, hn]
    unfold ThreadSafe.Observer.assign
    simp only [(hloops _ _).1, (hloops _ _).2,
      (ThreadSafe.ts_unregisterLoop_log l true _ _).2.1,
      (ThreadSafe.ts_unregisterLoop_log l true _ _).2.2, he]
    simp [ThreadSafe.World.resetProxy]
  · intro s
    obtain ⟨g, hg⟩ := ThreadSafe.ensureProxy_isSome w l
    have hlog1 : (w.ensureProxy l).log = w.log := by
      unfold ThreadSafe.World.ensureProxy
      cases w.proxy_ l <;> rfl
    refine ⟨g, hg, ?_, ?_⟩
    · simp only [ThreadSafe.Observer.registerWith, ThreadSafe.World.call, hlog1, hg]
    · simp [ThreadSafe.Observer.registerWith, ThreadSafe.World.call]
  · intro o
    obtain ⟨a1, hlog1, hreg1, hne1, -⟩ := ThreadSafe.registers_assign w l o
    obtain ⟨g, hg⟩ : ∃ g, (ThreadSafe.Observer.assign w l o).proxy_ l = some g := by
      obtain ⟨g0, hg0⟩ := ThreadSafe.ensureProxy_isSome w l
      unfold ThreadSafe.Observer.assign
      exact ⟨g0, by
        simp only [(hloops _ _).1, (ThreadSafe.ts_unregisterLoop_log l true _ _).2.2]
        exact hg0⟩
    refine ⟨g, a1, hg, hlog1, by rw [hreg1, hg], ?_⟩
    simp only [ThreadSafe.Observer.assign, ThreadSafe.ts_registerLoop_observables,
      Function.update_same, ThreadSafe.ts_unregisterLoop_observables,
      ThreadSafe.ensureProxy_observables]

theorem one_guard_per_listener_witness :
    ThreadSafe.World.empty.proxy_ 1 = none ∧
      (ThreadSafe.Observer.registerWith ThreadSafe.World.empty 1 (some 7)).1.proxy_ 1 = some 0 ∧
      ThreadSafe.linkedTwice.proxy_ 1 = some 0 ∧
      (ThreadSafe.runObserverOps ThreadSafe.linkedTwice 1
        [.unregisterWith (some 7), .assign 2, .registerWith (some 9),
         .registerWithObservables (some 1), .unregisterWithAll]).proxy_ 1 = some 0 ∧
      ThreadSafe.linkedTwice.log =
        [.registerObserver 7 (some 0), .registerObserver 8 (some 0)] ∧
      ThreadSafe.linkedTwice.observables_ 1 = {7, 8} ∧
      (ThreadSafe.Observer.assign ThreadSafe.linkedTwice 2 1).log =
        ThreadSafe.linkedTwice.log ++
          [.registerObserver 7 (some 1), .registerObserver 8 (some 1)] ∧
      (ThreadSafe.Observer.assign ThreadSafe.linkedTwice 2 1).proxy_ 2 = some 1 ∧
      ThreadSafe.World.GuardHanded 1
        (ThreadSafe.Observer.construct ThreadSafe.World.empty 1) ∧
      ThreadSafe.World.GuardHanded 1 ThreadSafe.linkedTwice :=
  ⟨rfl,
    ((one_guard_per_listener ThreadSafe.World.empty 1 []).2.1 rfl (some 7)).1,
    by decide,
    (one_guard_per_listener ThreadSafe.linkedTwice 1
      [.unregisterWith (some 7), .assign 2, .registerWith (some 9),
       .registerWithObservables (some 1), .unregisterWithAll]).2.2.2.1 0 (by decide),
    by decide,
    by decide,
    by decide,
    ((one_guard_per_listener ThreadSafe.linkedTwice 2 []).2.2.1 (by decide) 1).1,
    fun s hs => absurd hs (by simp [ThreadSafe.Observer.construct]),
    (one_guard_per_listener (ThreadSafe.Observer.construct ThreadSafe.World.empty 1) 1
      [.registerWith (some 7), .registerWith (some 8)]).2.2.2.2.2.2.2.2
      (fun s hs => absurd hs (by simp [ThreadSafe.Observer.construct]))⟩

/-- C31. The price of `ContinuousSnowballPathPricer::operator()` equals the
reference definition on every path of length `n > 1` whose time grid and
discount vector have length `n`, and the call fails with the message of its
`QL_REQUIRE` when `n <= 1`. -/
theorem snowball_price_matches_reference (c : ContinuousSnowballPathPricer) (path : Path)
    (n : Nat) (hv : path.values.length = n) (ht : path.timeGrid.length = n)
    (hD : c.discounts_.length = n) :
    (1 < n → c.operatorCall path = .returned (c.reference path)) ∧
      (n ≤ 1 → c.operatorCall path = .failed "the path cannot be empty") := by
  constructor
  · intro hn
    have hn0 : 0 < n := by omega
    have hlen : path.length = n := hv
    unfold ContinuousSnowballPathPricer.operatorCall ContinuousSnowballPathPricer.reference
    simp only [hlen]
    rw [if_neg (by omega),
      c.loop_eq path n hv ht hD hn0 (List.range n) (fun i hi => List.mem_range.mp hi) false 0]
    simp only [Flow.bind]
    cases hf : (List.range n).find? (fun k => decide (path.values.getD k 0 ≥ c.knockOutLevel_)) with
    | some k => rfl
    | none =>
      have hlast : (List.range n).getLast? = some (n - 1) := by
        rw [List.getLast?_range]
        simp
        omega
      simp only [hlast, Option.map_some', Option.getD_some, Bool.false_or]
      rw [lastOf_of_length _ n hD hn0, lastOf_of_length _ n ht hn0]
      simp only [Flow.bind]
      cases hany : (List.range n).any (fun i => decide (path.values.getD i 0 ≤ c.knockInLevel_)) with
      | false =>
        have hall : (List.range n).all
            (fun i => decide (¬ path.values.getD i 0 ≤ c.knockInLevel_)) = true := by
          rw [List.all_eq_true]
          intro i hi
          rw [List.any_eq_false] at hany
          simpa using hany i hi
        rw [if_pos hall, if_pos rfl]
      | true =>
        have hall : ¬ ((List.range n).all
            (fun i => decide (¬ path.values.getD i 0 ≤ c.knockInLevel_)) = true) := by
          rw [List.all_eq_true]
          rw [List.any_eq_true] at hany
          obtain ⟨i, hi, h⟩ := hany
          intro hcon
          have := hcon i hi
          simp at this h
          exact absurd h (not_le.mpr this)
        rw [if_neg hall, if_neg (by decide)]
        split <;> rfl
  · intro hn
    unfold ContinuousSnowballPathPricer.operatorCall
    have hlen : path.length = n := hv
    simp only [hlen]
    rw [if_pos (by omega)]

theorem snowball_price_matches_reference_witness :
    knockedInPath.values.length = 3 ∧ knockedInPath.timeGrid.length = 3 ∧
      snowballPricer.discounts_.length = 3 ∧ 1 < 3 ∧
      snowballPricer.operatorCall knockedInPath =
        .returned (snowballPricer.reference knockedInPath) :=
  ⟨rfl, rfl, rfl, by decide,
    (snowball_price_matches_reference snowballPricer knockedInPath 3 rfl rfl rfl).1
      (by decide)⟩

/-- C32 (refuted as stated). On a path whose nodes reach the sentinel
`Null<Size>()` the knock-out node need not be defined. With the sentinel 2 and
four nodes, of which node 2 only is below the barrier level 95, the
down-and-out loop ends with the option inactive and `knockNode` equal to the
sentinel, although the step 1 was the first to cross; when node 3 is below 95 as
well, `knockNode` ends as 3, which is not the node after the first crossing.
With the sentinel 2147483647 the same happens on a path of 2147483649 nodes
whose step 2147483646 is the only one to cross. -/
theorem knock_out_node_counterexample :
    (dipPath.values.length = 4 ∧ 1 < 4 ∧
      (knockOutPricer [1, 9 / 10, 8 / 10, 7 / 10]).discounts_.length = 4 ∧
      (knockOutPricer [1, 9 / 10, 8 / 10, 7 / 10]).barrierType_ = .DownOut ∧
      (knockOutPricer [1, 9 / 10, 8 / 10, 7 / 10]).simulate 2
          (fun _ _ b => decide (b ≤ 95)) (fun _ _ _ => false) dipPath =
        .returned { isOptionActive := false, knockNode := 2, asset_price := 120 } ∧
      crossedAt (fun _ _ b => decide (b ≤ 95)) dipPath 0 = false ∧
      crossedAt (fun _ _ b => decide (b ≤ 95)) dipPath 1 = true) ∧
    (fallPath.values.length = 4 ∧
      (knockOutPricer [1, 9 / 10, 8 / 10, 7 / 10]).simulate 2
          (fun _ _ b => decide (b ≤ 95)) (fun _ _ _ => false) fallPath =
        .returned { isOptionActive := false, knockNode := 3, asset_price := 93 } ∧
      crossedAt (fun _ _ b => decide (b ≤ 95)) fallPath 0 = false ∧
      crossedAt (fun _ _ b => decide (b ≤ 95)) fallPath 1 = true) ∧
    ((flatPath 2147483649).values.length = 2147483649 ∧
      (knockOutPricer (List.replicate 2147483649 1)).discounts_.length = 2147483649 ∧
      (knockOutPricer (List.replicate 2147483649 1)).simulate 2147483647
          (fun i _ _ => decide (i = 2147483646)) (fun _ _ _ => false) (flatPath 2147483649) =
        .returned { isOptionActive := false, knockNode := 2147483647, asset_price := 0 }) :=
  ⟨by decide, by decide,
    ⟨List.length_replicate _ _, List.length_replicate _ _,
      sentinel_collision 2147483646 (fun _ _ _ => false)⟩⟩

/-- C32 (amended). The knock-out discount index is defined: for the barrier types `DownOut`
and `UpOut`, on every path of length `n > 1` the loop ends, and whenever it ends
with the option inactive `knockNode` is one of the nodes `1..n-1`, so that
`discounts_[knockNode]` is in range for a discount vector of length `n` and the
rebate is returned discounted with it; when no node reaches the sentinel
`Null<Size>()` (`n <= null`), `knockNode` is not the sentinel and is `i + 1` for
the first step `i` at which the barrier test succeeded. -/
theorem knock_out_node_defined (c : ParticipationBarrierPathPricer) (null : Nat)
    (crossedDown crossedUp : Nat → ℚ → ℚ → Bool) (payoff : ℚ → ℚ) (path : Path) (n : Nat)
    (hout : c.barrierType_ = .DownOut ∨ c.barrierType_ = .UpOut)
    (hv : path.values.length = n) (hn : 1 < n) (hD : c.discounts_.length = n) :
    ∃ st, c.simulate null crossedDown crossedUp path = .returned st ∧
      (st.isOptionActive = false →
        1 ≤ st.knockNode ∧ st.knockNode ≤ n - 1 ∧ st.knockNode < c.discounts_.length ∧
        c.operatorCall null crossedDown crossedUp payoff path =
          .returned (c.rebate_ * c.participation_ * c.discounts_.getD st.knockNode 0) ∧
        (n ≤ null → st.knockNode ≠ null ∧
          ∃ i, FirstCrossing (if c.barrierType_ = .DownOut then crossedDown else crossedUp)
            path i ∧ st.knockNode = i + 1)) := by
  have hlen : path.length = n := hv
  have hfront : elementAt path.values 0 = .returned (path.values.getD 0 0) :=
    elementAt_of_lt _ _ (by omega)
  obtain ⟨st, hsim, hinv⟩ := knockOut_simulate null
    (if c.barrierType_ = .DownOut then crossedDown else crossedUp) path n hv hn
  have hsim2 : c.simulate null crossedDown crossedUp path = .returned st := by
    unfold ParticipationBarrierPathPricer.simulate
    rw [hfront, hlen]
    simp only [Flow.bind]
    rcases hout with h | h
    · rw [h] at hsim ⊢
      simpa using hsim
    · rw [h] at hsim ⊢
      simpa using hsim
  refine ⟨st, hsim2, ?_⟩
  intro hinactive
  obtain ⟨_, hcases⟩ := hinv
  rcases hcases with ⟨h1, _, _⟩ | ⟨_, h2, h3, i, hi, hf, hk⟩
  · rw [h1] at hinactive
    exact absurd hinactive (by decide)
  · refine ⟨h2, h3, by omega, ?_, ?_⟩
    · unfold ParticipationBarrierPathPricer.operatorCall
      rw [hlen, if_neg (by omega), hsim2]
      simp only [Flow.bind, hinactive, Bool.false_eq_true, if_false]
      rcases hout with h | h
      · rw [h]
        simp only
        rw [elementAt_of_lt _ _ (by omega)]
      · rw [h]
        simp only
        rw [elementAt_of_lt _ _ (by omega)]
    · intro hnull
      have hki := hk hnull
      exact ⟨by omega, i, hf, hki⟩

theorem knock_out_node_defined_witness :
    (knockOutPricer [1, 9 / 10, 8 / 10]).simulate 1000
        (fun _ _ b => decide (b ≤ 80)) (fun _ _ _ => false) knockedInPath =
        .returned { isOptionActive := false, knockNode := 1, asset_price := 90 } ∧
      (1 : Nat) ≤ 3 - 1 ∧ (1 : Nat) < 3 ∧ (1 : Nat) ≠ 1000 ∧
      FirstCrossing (fun _ _ b => decide (b ≤ 80)) knockedInPath 0 ∧
      (knockOutPricer [1, 9 / 10, 8 / 10]).operatorCall 1000
        (fun _ _ b => decide (b ≤ 80)) (fun _ _ _ => false) (fun s => s) knockedInPath =
        .returned (3 * (1 / 2) * (9 / 10)) := by
  have hd : (knockOutPricer [1, 9 / 10, 8 / 10]).simulate 1000
      (fun _ _ b => decide (b ≤ 80)) (fun _ _ _ => false) knockedInPath =
      .returned { isOptionActive := false, knockNode := 1, asset_price := 90 } := by
    decide
  obtain ⟨st, hs, h⟩ := knock_out_node_defined (knockOutPricer [1, 9 / 10, 8 / 10]) 1000
    (fun _ _ b => decide (b ≤ 80)) (fun _ _ _ => false) (fun s => s) knockedInPath 3
    (Or.inl rfl) rfl (by decide) rfl
  have hst : st = { isOptionActive := false, knockNode := 1, asset_price := 90 } :=
    Flow.returned.inj (hs.symm.trans hd)
  subst hst
  obtain ⟨_, h2, h3, h4, h5⟩ := h rfl
  obtain ⟨h6, i, hf, hi⟩ := h5 (by decide)
  have hi0 : i = 0 := by
    have hi1 : 1 = i + 1 := hi
    omega
  subst hi0
  exact ⟨hd, h2, h3, h6, hf, h4⟩

/-- C33. On an engine with a plain-vanilla payoff and ten time steps whose
`isBiased_` is true, `pathPricer()` reaches the end of the function without a
`return`: no path pricer is returned.  For every engine with `isBiased_` true
and all arguments, `pathPricer()` returns no path pricer; for every engine with
`isBiased_` false, a plain-vanilla payoff and a time grid it returns one. -/
theorem pathPricer_biased_returns_nothing :
    biasedEngine.isBiased_ = true ∧
      biasedEngine.pathPricer 2147483647
        (fun e n => (List.range (n + 1)).map (fun i => e * i / n)) (fun _ => 0) 1
        (fun _ => 1) snowballArguments true = .undefined ∧
      (∀ (e : MCContinuousSnowballEngine) (null : Nat) (makeTimeGrid : ℚ → Nat → List ℚ)
        (toSize : ℚ → Nat) (residualTime : ℚ) (discount : ℚ → ℚ)
        (arguments_ : SnowballArguments) (plainVanilla : Bool)
        (p : ContinuousSnowballPathPricer), e.isBiased_ = true →
        e.pathPricer null makeTimeGrid toSize residualTime discount arguments_ plainVanilla ≠
          .returned p) ∧
      (∀ (e : MCContinuousSnowballEngine) (null : Nat) (makeTimeGrid : ℚ → Nat → List ℚ)
        (toSize : ℚ → Nat) (residualTime : ℚ) (discount : ℚ → ℚ)
        (arguments_ : SnowballArguments) (grid : List ℚ), e.isBiased_ = false →
        e.timeGrid null makeTimeGrid toSize residualTime = .returned grid →
        ∃ p, e.pathPricer null makeTimeGrid toSize residualTime discount arguments_ true =
          .returned p) := by
  refine ⟨rfl, by decide, ?_, ?_⟩
  · intro e null makeTimeGrid toSize residualTime discount arguments_ plainVanilla p hb
    unfold MCContinuousSnowballEngine.pathPricer
    cases plainVanilla with
    | false => simp
    | true =>
      cases hg : e.timeGrid null makeTimeGrid toSize residualTime with
      | returned grid => simp [Flow.bind, hb]
      | failed m => simp [Flow.bind]
      | undefined => simp [Flow.bind]
  · intro e null makeTimeGrid toSize residualTime discount arguments_ grid hb hg
    unfold MCContinuousSnowballEngine.pathPricer
    simp [hg, Flow.bind, hb]

/-- C34. Exclusivity of samples and tolerance in the factory: after every
sequence of `with*` calls on a newly constructed factory, `samples_` and
`tolerance_` are not both different from their null values; `withSamples` fails
when a tolerance is set and `withAbsoluteTolerance` fails when a sample count
is set, each leaving the factory as it was. -/
theorem builder_samples_tolerance_exclusive (nullSize : Nat) (nullReal : ℚ)
    (allowsErrorEstimate : Bool) (ops : List BuilderOp) :
    ¬ ((runBuilderOps nullSize nullReal allowsErrorEstimate
          (MakeMCContinuousSnowballEngine.create nullSize nullReal) ops).samples_ ≠ nullSize ∧
        (runBuilderOps nullSize nullReal allowsErrorEstimate
          (MakeMCContinuousSnowballEngine.create nullSize nullReal) ops).tolerance_ ≠
            nullReal) ∧
      (∀ (b : MakeMCContinuousSnowballEngine) (samples : Nat), b.tolerance_ ≠ nullReal →
        b.withSamples nullReal samples = (b, .raised "tolerance already set")) ∧
      (∀ (b : MakeMCContinuousSnowballEngine) (tolerance : ℚ), b.samples_ ≠ nullSize →
        b.withAbsoluteTolerance nullSize allowsErrorEstimate tolerance =
          (b, .raised "number of samples already set")) := by
  refine ⟨?_, ?_, ?_⟩
  · have hstep : ∀ (b : MakeMCContinuousSnowballEngine) (op : BuilderOp),
        ¬ (b.samples_ ≠ nullSize ∧ b.tolerance_ ≠ nullReal) →
        ¬ ((op.apply nullSize nullReal allowsErrorEstimate b).1.samples_ ≠ nullSize ∧
          (op.apply nullSize nullReal allowsErrorEstimate b).1.tolerance_ ≠ nullReal) := by
      intro b op hb
      cases op with
      | withSamples samples =>
        simp only [BuilderOp.apply, MakeMCContinuousSnowballEngine.withSamples]
        by_cases ht : b.tolerance_ = nullReal
        · simp [ht]
        · simpa [ht] using hb
      | withAbsoluteTolerance tolerance =>
        simp only [BuilderOp.apply, MakeMCContinuousSnowballEngine.withAbsoluteTolerance]
        by_cases hs : b.samples_ = nullSize
        · cases allowsErrorEstimate <;> simp [hs]
        · simpa [hs] using hb
      | withSteps _ => exact hb
      | withStepsPerYear _ => exact hb
      | withBrownianBridge _ => exact hb
      | withAntitheticVariate _ => exact hb
      | withMaxSamples _ => exact hb
      | withBias _ => exact hb
      | withSeed _ => exact hb
    have hrun : ∀ (os : List BuilderOp) (b : MakeMCContinuousSnowballEngine),
        ¬ (b.samples_ ≠ nullSize ∧ b.tolerance_ ≠ nullReal) →
        ¬ ((runBuilderOps nullSize nullReal allowsErrorEstimate b os).samples_ ≠ nullSize ∧
          (runBuilderOps nullSize nullReal allowsErrorEstimate b os).tolerance_ ≠ nullReal) := by
      intro os
      induction os with
      | nil => exact fun b hb => hb
      | cons o os ih => exact fun b hb => ih _ (hstep b o hb)
    apply hrun
    simp [MakeMCContinuousSnowballEngine.create]
  · intro b samples ht
    simp [MakeMCContinuousSnowballEngine.withSamples, ht]
  · intro b tolerance hs
    simp [MakeMCContinuousSnowballEngine.withAbsoluteTolerance, hs]

/-- C35. Time-step validation: the constructor of `MCContinuousSnowballEngine`
succeeds if and only if exactly one of `timeSteps` and `timeStepsPerYear`
differs from `Null<Size>()` and neither of them is 0; and, `Null<Size>()` being
different from 0, every pair `steps_`, `stepsPerYear_` that passes the two
checks of the conversion operator of the factory and whose given value is not 0
is accepted by the constructor, the conversion returning the engine. -/
theorem time_step_validation (null : Nat) (timeSteps timeStepsPerYear : Nat)
    (brownianBridge antitheticVariate : Bool) (requiredSamples : Nat) (requiredTolerance : ℚ)
    (maxSamples : Nat) (isBiased : Bool) (seed : Nat) :
    ((∃ e, MCContinuousSnowballEngine.create null timeSteps timeStepsPerYear brownianBridge
          antitheticVariate requiredSamples requiredTolerance maxSamples isBiased seed =
            .returned e) ↔
        ((timeSteps ≠ null ∧ timeStepsPerYear = null) ∨
          (timeSteps = null ∧ timeStepsPerYear ≠ null)) ∧
        timeSteps ≠ 0 ∧ timeStepsPerYear ≠ 0) ∧
      (null ≠ 0 → ∀ b : MakeMCContinuousSnowballEngine,
        (b.steps_ ≠ null ∨ b.stepsPerYear_ ≠ null) →
        (b.steps_ = null ∨ b.stepsPerYear_ = null) →
        (b.steps_ ≠ null → b.steps_ ≠ 0) → (b.stepsPerYear_ ≠ null → b.stepsPerYear_ ≠ 0) →
        ∃ e, MCContinuousSnowballEngine.create null b.steps_ b.stepsPerYear_ b.brownianBridge_
            b.antithetic_ b.samples_ b.tolerance_ b.maxSamples_ b.biased_ b.seed_ =
              .returned e ∧
          b.toEngine null = .returned e) := by
  have hcreate : ∀ (ts tspy : Nat) (bb av : Bool) (rs : Nat) (rt : ℚ) (ms : Nat) (ib : Bool)
      (sd : Nat),
      (∃ e, MCContinuousSnowballEngine.create null ts tspy bb av rs rt ms ib sd = .returned e) ↔
        ((ts ≠ null ∧ tspy = null) ∨ (ts = null ∧ tspy ≠ null)) ∧ ts ≠ 0 ∧ tspy ≠ 0 := by
    intro ts tspy bb av rs rt ms ib sd
    unfold MCContinuousSnowballEngine.create
    by_cases h1 : ts ≠ null ∨ tspy ≠ null
    · by_cases h2 : ts = null ∨ tspy = null
      · by_cases h3 : ts ≠ 0
        · by_cases h4 : tspy ≠ 0
          · rw [if_neg (not_not.mpr h1), if_neg (not_not.mpr h2), if_neg (not_not.mpr h3),
              if_neg (not_not.mpr h4)]
            constructor
            · intro _
              refine ⟨?_, h3, h4⟩
              rcases h2 with h | h
              · rcases h1 with h' | h'
                · exact absurd h h'
                · exact Or.inr ⟨h, h'⟩
              · rcases h1 with h' | h'
                · exact Or.inl ⟨h', h⟩
                · exact absurd h h'
            · intro _
              exact ⟨_, rfl⟩
          · rw [if_neg (not_not.mpr h1), if_neg (not_not.mpr h2), if_neg (not_not.mpr h3),
              if_pos h4]
            constructor
            · rintro ⟨e, he⟩
              exact Flow.noConfusion he
            · rintro ⟨_, _, h⟩
              exact absurd h h4
        · rw [if_neg (not_not.mpr h1), if_neg (not_not.mpr h2), if_pos h3]
          constructor
          · rintro ⟨e, he⟩
            exact Flow.noConfusion he
          · rintro ⟨_, h, _⟩
            exact absurd h h3
      · rw [if_neg (not_not.mpr h1), if_pos h2]
        constructor
        · rintro ⟨e, he⟩
          exact Flow.noConfusion he
        · rintro ⟨h | h, _, _⟩
          · exact absurd (Or.inr h.2) h2
          · exact absurd (Or.inl h.1) h2
    · rw [if_pos h1]
      constructor
      · rintro ⟨e, he⟩
        exact Flow.noConfusion he
      · rintro ⟨h | h, _, _⟩
        · exact absurd (Or.inl h.1) h1
        · exact absurd (Or.inr h.2) h1
  refine ⟨hcreate _ _ _ _ _ _ _ _ _, ?_⟩
  intro hnull b h1 h2 h3 h4
  have hacc : ((b.steps_ ≠ null ∧ b.stepsPerYear_ = null) ∨
      (b.steps_ = null ∧ b.stepsPerYear_ ≠ null)) ∧ b.steps_ ≠ 0 ∧ b.stepsPerYear_ ≠ 0 := by
    rcases h2 with h | h
    · rcases h1 with h' | h'
      · exact absurd h h'
      · exact ⟨Or.inr ⟨h, h'⟩, by rw [h]; exact hnull, h4 h'⟩
    · rcases h1 with h' | h'
      · exact ⟨Or.inl ⟨h', h⟩, h3 h', by rw [h]; exact hnull⟩
      · exact absurd h h'
  obtain ⟨e, he⟩ := (hcreate b.steps_ b.stepsPerYear_ b.brownianBridge_ b.antithetic_
    b.samples_ b.tolerance_ b.maxSamples_ b.biased_ b.seed_).mpr hacc
  refine ⟨e, he, ?_⟩
  unfold MakeMCContinuousSnowballEngine.toEngine
  rw [if_neg (not_not.mpr h1), if_neg (not_not.mpr h2)]
  exact he

theorem time_step_validation_witness :
    (2147483647 : Nat) ≠ 0 ∧
      ∃ e, MCContinuousSnowballEngine.create 2147483647 10 2147483647 false false 1000 0
          2147483647 false 0 = .returned e ∧
        MakeMCContinuousSnowballEngine.toEngine 2147483647
          { brownianBridge_ := false, antithetic_ := false, biased_ := false, steps_ := 10,
            stepsPerYear_ := 2147483647, samples_ := 1000, maxSamples_ := 2147483647,
            tolerance_ := 0, seed_ := 0 } = .returned e :=
  ⟨by decide,
    (time_step_validation 2147483647 10 2147483647 false false 1000 0 2147483647 false 0).2
      (by decide)
      { brownianBridge_ := false, antithetic_ := false, biased_ := false, steps_ := 10,
        stepsPerYear_ := 2147483647, samples_ := 1000, maxSamples_ := 2147483647,
        tolerance_ := 0, seed_ := 0 }
      (Or.inl (by decide)) (Or.inr rfl) (fun _ => by decide) (fun h => absurd rfl h)⟩

end QuantLib
